import Mathlib

/-!
# Block breaker: a shallow embedding of `script.js`

The per-frame simulation of the game (paddle motion, multi-ball physics, brick
collisions, power-ups, the life / victory / loss state machine) is translated
function by function from `src/script.js`.

Modelling conventions.

* JavaScript numbers are modelled exactly, as elements of a linearly ordered
  field `α` with a floor function (`ℚ` for concrete runs, `ℝ` for analysis);
  infinities and NaN are outside the model.  Rounding is modelled where a
  contract speaks of exact equality: `circleRectCollision64`,
  `setBallSpeedForBall64` and `launchBalls64` compute in binary64 arithmetic,
  every result rounded to the nearest value, ties to even (section "Binary64
  arithmetic").
* The mutable globals `state`, `paddle`, `balls`, `bricks.grid`, `powerUps`,
  `powerupState` and `keys` are the fields of one record `Game`; every function
  of the script becomes a function from `Game` to `Game`.
* `canvas.width`, `canvas.height`, the library functions `Math.hypot`,
  `Math.cos`, `Math.sin`, `Math.atan2`, the constant `Math.PI`, and the two
  effectful sources `Math.random()` and `Date.now()` belong to the host and are
  collected in `Host`.  The sources are streams; `Game.nRandom` and `Game.nNow`
  count how many values have been read so far.
* `balls[0]` of an empty array is `undefined`, and reading or writing one of its
  properties raises a `TypeError`.  A function that can raise returns an
  `Outcome`, which records whether it ran to completion and the state of the
  globals at that point.
-/

namespace BlockBreaker

/-! ## Data model -/

/-- The strings of `POWERUP_TYPES`. -/
inductive PType where
  | WIDE
  | SLOW
  | LIFE
  | MULTI
  deriving DecidableEq, Repr

/-- The result of running a function that may raise a `TypeError`. -/
inductive Outcome (σ : Type) where
  | done (s : σ)
  | threw (s : σ)

/-- The globals after the run, whether it completed or raised. -/
def Outcome.state {σ : Type} : Outcome σ → σ
  | .done s => s
  | .threw s => s

/-- Whether the run completed without raising. -/
def Outcome.ok {σ : Type} : Outcome σ → Bool
  | .done _ => true
  | .threw _ => false

/-- A ball object, as built by `makeBall`. -/
structure Ball (α : Type) where
  r : α
  x : α
  y : α
  vx : α
  vy : α
  speed : α
  alive : Bool

/-- The global `paddle`. -/
structure Paddle (α : Type) where
  w : α
  h : α
  x : α
  y : α
  speed : α
  dx : α

/-- A falling power-up, as pushed by `spawnPowerUp`; `type = none` stands for the
`undefined` obtained by indexing `POWERUP_TYPES` out of range. -/
structure PowerUp (α : Type) where
  type : Option PType
  x : α
  y : α
  r : α
  vy : α
  alive : Bool

/-- Everything supplied by the browser. -/
structure Host (α : Type) where
  width : α
  height : α
  hypot : α → α → α
  cos : α → α
  sin : α → α
  atan2 : α → α → α
  pi : α
  random : Nat → α
  now : Nat → α

/-- The mutable globals of the script.  `grid r c` is `bricks.grid[r][c].alive`;
only the indices `r < 7`, `c < 8` are cells of the grid. -/
structure Game (α : Type) where
  score : Int
  lives : Int
  paused : Bool
  started : Bool
  gameOver : Bool
  paddle : Paddle α
  balls : List (Ball α)
  grid : Nat → Nat → Bool
  powerUps : List (PowerUp α)
  wideUntil : α
  slowUntil : α
  keys : List String
  nRandom : Nat
  nNow : Nat

section Code

variable {α : Type} [LinearOrderedField α] [FloorRing α]

/-! ## Constants -/

def DEFAULT_PADDLE_W : α := 110

def WIDE_PADDLE_W : α := 170

def DEFAULT_BALL_SPEED : α := 5

def SLOW_BALL_SPEED : α := 7 / 2

/-- The field `bricks.rows`. -/
def bricksRows : Nat := 7

/-- The field `bricks.cols`. -/
def bricksCols : Nat := 8

/-- The field `bricks.w`. -/
def bricksW : α := 48

/-- The field `bricks.h`. -/
def bricksH : α := 18

/-- The field `bricks.pad`. -/
def bricksPad : α := 10

/-- The field `bricks.top`. -/
def bricksTop : α := 70

/-- The field `bricks.left`. -/
def bricksLeft : α := 22

/-- The array `POWERUP_TYPES`. -/
def POWERUP_TYPES : List PType := [PType.WIDE, PType.SLOW, PType.LIFE, PType.MULTI]

/-! ## Helpers (lines 162-192) -/

/-- `clamp(v, min, max)`. -/
def clamp (v lo hi : α) : α := max lo (min hi v)

/-- `circleRectCollision(cx, cy, r, rx, ry, rw, rh)`. -/
def circleRectCollision (cx cy r rx ry rw rh : α) : Bool :=
  let closestX := clamp cx rx (rx + rw)
  let closestY := clamp cy ry (ry + rh)
  let dx := cx - closestX
  let dy := cy - closestY
  decide (dx * dx + dy * dy ≤ r * r)

/-- `remainingBricks()`: the two counting loops. -/
def remainingBricks (g : Game α) : Nat :=
  (List.range bricksRows).foldl
    (fun count r =>
      (List.range bricksCols).foldl
        (fun count c => if g.grid r c then count + 1 else count) count)
    0

/-- `setBallSpeedForBall(b, newSpeed)`. -/
def setBallSpeedForBall (h : Host α) (b : Ball α) (newSpeed : α) : Ball α :=
  let mag := h.hypot b.vx b.vy
  if mag < 1 / 1000000 then
    { b with speed := newSpeed }
  else
    let scale := newSpeed / mag
    { b with vx := b.vx * scale, vy := b.vy * scale, speed := newSpeed }

/-! ## Power-up spawning (lines 54-58) -/

/-- `spawnPowerUp(x, y)`: one draw decides whether anything is spawned, a second
one picks the kind. -/
def spawnPowerUp (h : Host α) (x y : α) (g : Game α) : Game α :=
  let u := h.random g.nRandom
  let g := { g with nRandom := g.nRandom + 1 }
  if u > 1 / 4 then g
  else
    let v := h.random g.nRandom
    let g := { g with nRandom := g.nRandom + 1 }
    let i : Int := Int.floor (v * (POWERUP_TYPES.length : α))
    let type : Option PType := if 0 ≤ i then POWERUP_TYPES.get? i.toNat else none
    { g with
      powerUps := g.powerUps ++
        [{ type := type, x := x, y := y, r := 10, vy := 12 / 5, alive := true }] }

/-! ## Setup and reset (lines 61-128) -/

/-- `makeBall()`. -/
def makeBall (h : Host α) (g : Game α) : Ball α :=
  { r := 7
    x := h.width / 2
    y := g.paddle.y - 7 - 1
    vx := 0
    vy := 0
    speed := DEFAULT_BALL_SPEED
    alive := true }

/-- `resetBallsToOne()`. -/
def resetBallsToOne (h : Host α) (g : Game α) : Game α :=
  { g with balls := [makeBall h g] }

/-- `resetBallOnPaddle()`; raises when `balls` is empty. -/
def resetBallOnPaddle (g : Game α) : Outcome (Game α) :=
  match g.balls with
  | [] => .threw g
  | b :: rest =>
    let b := { b with x := g.paddle.x + g.paddle.w / 2 }
    let b := { b with y := g.paddle.y - b.r - 1 }
    let b := { b with vx := 0, vy := 0, speed := DEFAULT_BALL_SPEED }
    .done { g with balls := b :: rest, started := false }

/-- `clearPowerUpsAndEffects()`. -/
def clearPowerUpsAndEffects (h : Host α) (g : Game α) : Game α :=
  let g := { g with powerUps := [], wideUntil := 0, slowUntil := 0 }
  let g := { g with paddle := { g.paddle with w := DEFAULT_PADDLE_W } }
  let g := { g with paddle := { g.paddle with x := clamp g.paddle.x 0 (h.width - g.paddle.w) } }
  { g with balls := g.balls.map (fun b => setBallSpeedForBall h b DEFAULT_BALL_SPEED) }

/-- `resetBricks()`. -/
def resetBricks (g : Game α) : Game α :=
  { g with grid := fun _ _ => true }

/-- `fullReset()`. -/
def fullReset (h : Host α) (g : Game α) : Outcome (Game α) :=
  let g := { g with score := 0, lives := 3, paused := false, started := false, gameOver := false }
  let g := { g with paddle := { g.paddle with w := DEFAULT_PADDLE_W } }
  let g := { g with paddle := { g.paddle with x := (h.width - g.paddle.w) / 2 } }
  let g := { g with paddle := { g.paddle with dx := 0 } }
  let g := resetBricks g
  let g := resetBallsToOne h g
  let g := clearPowerUpsAndEffects h g
  resetBallOnPaddle g

/-- The globals as the top-level declarations leave them (lines 12-52 and 131),
before the three set-up calls of lines 126-128. -/
def declaredGame (h : Host α) : Game α :=
  { score := 0
    lives := 3
    paused := false
    started := false
    gameOver := false
    paddle :=
      { w := DEFAULT_PADDLE_W
        h := 14
        x := (h.width - DEFAULT_PADDLE_W) / 2
        y := h.height - 30
        speed := 7
        dx := 0 }
    balls := []
    grid := fun _ _ => false
    powerUps := []
    wideUntil := 0
    slowUntil := 0
    keys := []
    nRandom := 0
    nNow := 0 }

/-- The program right after start-up: `resetBricks(); resetBallsToOne();
resetBallOnPaddle();` on the declared globals. -/
def initGame (h : Host α) : Outcome (Game α) :=
  resetBallOnPaddle (resetBallsToOne h (resetBricks (declaredGame h)))

/-! ## Input (lines 131-159) -/

/-- The two properties of a keyboard event that the handlers read. -/
structure KeyEvent where
  key : String
  code : String

/-- `launchBalls()`; raises when `balls` is empty, after `started` is set. -/
def launchBalls (h : Host α) (g : Game α) : Outcome (Game α) :=
  let g := { g with started := true }
  match g.balls with
  | [] => .threw g
  | b :: rest =>
    if h.hypot b.vx b.vy < 1 / 1000000 then
      let angle := (h.random g.nRandom * (9 / 10) + 3 / 20) * h.pi
      let g := { g with nRandom := g.nRandom + 1 }
      let b := { b with vx := h.cos angle * b.speed }
      let b := { b with vy := -|h.sin angle * b.speed| }
      .done { g with balls := b :: rest }
    else .done g

/-- Lines 137-144 of the `keydown` listener, after the key has been recorded.
The `return` of the game-over case leaves the whole handler. -/
def handleKey (h : Host α) (e : KeyEvent) (g : Game α) : Outcome (Game α) :=
  let k := e.key.toLower
  if k = " " ∨ e.code = "Space" then
    if g.gameOver then .done g
    else
      match (if !g.started then launchBalls h g
             else Outcome.done { g with paused := !g.paused }) with
      | .threw g1 => .threw g1
      | .done g1 => if k = "r" then fullReset h g1 else .done g1
  else if k = "r" then fullReset h g
  else .done g

/-- The `keydown` listener.  `keys` is a set: a key already held is not added
again. -/
def keydown (h : Host α) (e : KeyEvent) (g : Game α) : Outcome (Game α) :=
  let k := e.key.toLower
  handleKey h e { g with keys := if k ∈ g.keys then g.keys else g.keys ++ [k] }

/-- The `keyup` listener. -/
def keyup (e : KeyEvent) (g : Game α) : Game α :=
  { g with keys := g.keys.filter (fun k => k != e.key.toLower) }

/-! ## Power-up effects (lines 194-231) -/

/-- One pass of the body of the `for (let i = 0; i < 2; i++)` loop of the
`MULTI` case: the ball `nb` that is pushed. -/
def multiBall (h : Host α) (g : Game α) (ref : Ball α) (i : Nat) : Ball α :=
  let nb := makeBall h g
  let nb := { nb with x := ref.x, y := ref.y, speed := ref.speed }
  let baseAngle := h.atan2 ref.vy ref.vx
  let offset : α := if i = 0 then -(7 / 20) else 7 / 20
  let angle := baseAngle + offset
  let nb := { nb with vx := h.cos angle * nb.speed }
  let nb := { nb with vy := h.sin angle * nb.speed }
  if nb.vy > 0 then { nb with vy := nb.vy * -1 } else nb

/-- `applyPowerUp(type)`; a `type` that is none of the four strings matches no
branch. -/
def applyPowerUp (h : Host α) (type : Option PType) (g : Game α) : Game α :=
  let now := h.now g.nNow
  let g := { g with nNow := g.nNow + 1 }
  match type with
  | some PType.WIDE =>
    let g := { g with paddle := { g.paddle with w := WIDE_PADDLE_W } }
    let g := { g with paddle := { g.paddle with x := clamp g.paddle.x 0 (h.width - g.paddle.w) } }
    { g with wideUntil := now + 9000 }
  | some PType.SLOW =>
    let g := { g with balls := g.balls.map (fun b => setBallSpeedForBall h b SLOW_BALL_SPEED) }
    { g with slowUntil := now + 7000 }
  | some PType.LIFE =>
    { g with lives := min (g.lives + 1) 9 }
  | some PType.MULTI =>
    match g.balls with
    | [] => g
    | ref :: _ =>
      (List.range 2).foldl (fun g i => { g with balls := g.balls ++ [multiBall h g ref i] }) g
  | none => g

/-! ## Update (lines 234-373) -/

/-- Screen x of the bricks of column `c`: `bricks.left + c * (bricks.w + bricks.pad)`. -/
def brickX (c : Nat) : α := bricksLeft + (c : α) * (bricksW + bricksPad)

/-- Screen y of the bricks of row `r`: `bricks.top + r * (bricks.h + bricks.pad)`. -/
def brickY (r : Nat) : α := bricksTop + (r : α) * (bricksH + bricksPad)

/-- The test of line 302 for the brick at row `r`, column `c`. -/
def ballHitsBrick (b : Ball α) (r c : Nat) : Bool :=
  circleRectCollision b.x b.y b.r (brickX c) (brickY r) bricksW bricksH

/-- The `grid` after `bricks.grid[r][c].alive = false`. -/
def killBrick (grid : Nat → Nat → Bool) (r c : Nat) : Nat → Nat → Bool :=
  fun r1 c1 => if r1 = r ∧ c1 = c then false else grid r1 c1

/-- The variables of the brick scan of one ball: the globals, the ball, and the
flag `hitBrickThisBall`. -/
structure Scan (α : Type) where
  game : Game α
  ball : Ball α
  hit : Bool

/-- The body of the inner loop (lines 296-310) for the cell `(r, c)`. -/
def brickCell (h : Host α) (r c : Nat) (s : Scan α) : Scan α :=
  if !s.game.grid r c then s
  else if ballHitsBrick s.ball r c then
    let g := { s.game with grid := killBrick s.game.grid r c }
    let g := { g with score := g.score + 10 }
    let g := spawnPowerUp h (brickX c + bricksW / 2) (brickY r + bricksH / 2) g
    { game := g, ball := { s.ball with vy := s.ball.vy * -1 }, hit := true }
  else s

/-- The inner loop `for (c = 0; c < bricks.cols && !hitBrickThisBall; c++)`: once
the flag is set no further cell is visited. -/
def brickRow (h : Host α) (r : Nat) (s : Scan α) : Scan α :=
  (List.range bricksCols).foldl (fun s c => if s.hit then s else brickCell h r c s) s

/-- The outer loop `for (r = 0; r < bricks.rows && !hitBrickThisBall; r++)`. -/
def brickScan (h : Host α) (s : Scan α) : Scan α :=
  (List.range bricksRows).foldl (fun s r => if s.hit then s else brickRow h r s) s

/-- The normalised hit offset of line 284. -/
def hitPos (p : Paddle α) (b : Ball α) : α :=
  (b.x - (p.x + p.w / 2)) / (p.w / 2)

/-- The condition of the paddle branch (lines 277-280). -/
def paddleHit (p : Paddle α) (b : Ball α) : Bool :=
  decide (b.vy > 0) && circleRectCollision b.x b.y b.r p.x p.y p.w p.h

/-- The body of the paddle branch (lines 281-288). -/
def paddleBounce (p : Paddle α) (b : Ball α) : Ball α :=
  let b := { b with y := p.y - b.r - 1 }
  let b := { b with vy := -|b.vy| }
  let b := { b with vx := hitPos p b * b.speed * (11 / 10) }
  let maxVX := b.speed * (7 / 5)
  { b with vx := clamp b.vx (-maxVX) maxVX }

/-- The paddle collision of lines 276-289. -/
def paddleStep (p : Paddle α) (b : Ball α) : Ball α :=
  if paddleHit p b then paddleBounce p b else b

/-- Integration and the three wall tests (lines 253-268). -/
def moveAndWalls (h : Host α) (b : Ball α) : Ball α :=
  let b := { b with x := b.x + b.vx }
  let b := { b with y := b.y + b.vy }
  let b := if b.x - b.r ≤ 0 then { b with x := b.r, vx := b.vx * -1 } else b
  let b := if b.x + b.r ≥ h.width then { b with x := h.width - b.r, vx := b.vx * -1 } else b
  if b.y - b.r ≤ 0 then { b with y := b.r, vy := b.vy * -1 } else b

/-- The test of line 271. -/
def exitsBottom (h : Host α) (b : Ball α) : Bool :=
  decide (b.y - b.r > h.height)

/-- The body of `for (const b of balls)` (lines 251-312) for one ball: the
globals and the ball after it. -/
def stepBall (h : Host α) (g : Game α) (b : Ball α) : Game α × Ball α :=
  if !b.alive then (g, b)
  else
    let b := moveAndWalls h b
    if exitsBottom h b then (g, { b with alive := false })
    else
      let b := paddleStep g.paddle b
      let s := brickScan h { game := g, ball := b, hit := false }
      (s.game, s.ball)

/-- The loop `for (const b of balls)` of lines 250-313 over the balls `bs`. -/
def moveBalls (h : Host α) : Game α → List (Ball α) → Game α × List (Ball α)
  | g, [] => (g, [])
  | g, b :: bs =>
    let r1 := stepBall h g b
    let r2 := moveBalls h r1.1 bs
    (r2.1, r1.2 :: r2.2)

/-- The body of `for (const p of powerUps)` (lines 344-352) for one power-up. -/
def stepPowerUp (h : Host α) (g : Game α) (p : PowerUp α) : Game α × PowerUp α :=
  if !p.alive then (g, p)
  else
    let p := { p with y := p.y + p.vy }
    let r1 : Game α × PowerUp α :=
      if circleRectCollision p.x p.y p.r g.paddle.x g.paddle.y g.paddle.w g.paddle.h then
        (applyPowerUp h p.type g, { p with alive := false })
      else (g, p)
    let p := r1.2
    (r1.1, if p.y - p.r > h.height then { p with alive := false } else p)

/-- The loop `for (const p of powerUps)` of lines 343-353 over the power-ups `ps`. -/
def movePowerUps (h : Host α) : Game α → List (PowerUp α) → Game α × List (PowerUp α)
  | g, [] => (g, [])
  | g, p :: ps =>
    let r1 := stepPowerUp h g p
    let r2 := movePowerUps h r1.1 ps
    (r2.1, r1.2 :: r2.2)

/-- Lines 235-241: the paddle follows the keys and is clamped. -/
def movePaddle (h : Host α) (g : Game α) : Game α :=
  let left := g.keys.contains "arrowleft" || g.keys.contains "a"
  let right := g.keys.contains "arrowright" || g.keys.contains "d"
  let g := { g with paddle := { g.paddle with dx := (if right then 1 else 0) - (if left then 1 else 0) } }
  let g := { g with paddle := { g.paddle with x := g.paddle.x + g.paddle.dx * g.paddle.speed } }
  { g with paddle := { g.paddle with x := clamp g.paddle.x 0 (h.width - g.paddle.w) } }

/-- Lines 250-318: every ball is stepped, then the dead ones are spliced out. -/
def ballPhase (h : Host α) (g : Game α) : Game α :=
  let r := moveBalls h g g.balls
  { r.1 with balls := r.2.filter (fun b => b.alive) }

/-- Lines 336-340: the check for victory. -/
def winCheck (g : Game α) : Game α :=
  if remainingBricks g = 0 then { g with gameOver := true, paused := true } else g

/-- Lines 342-358: every power-up is stepped, then the dead ones are spliced out. -/
def powerUpPhase (h : Host α) (g : Game α) : Game α :=
  let r := movePowerUps h g g.powerUps
  { r.1 with powerUps := r.2.filter (fun p => p.alive) }

/-- Lines 360-372: timed effects whose deadline has passed are undone. -/
def expireEffects (h : Host α) (g : Game α) : Game α :=
  let now := h.now g.nNow
  let g := { g with nNow := g.nNow + 1 }
  let g : Game α :=
    if g.wideUntil ≠ 0 ∧ now > g.wideUntil then
      let g := { g with paddle := { g.paddle with w := DEFAULT_PADDLE_W } }
      let g := { g with paddle := { g.paddle with x := clamp g.paddle.x 0 (h.width - g.paddle.w) } }
      { g with wideUntil := 0 }
    else g
  if g.slowUntil ≠ 0 ∧ now > g.slowUntil then
    let g := { g with balls := g.balls.map (fun b => setBallSpeedForBall h b DEFAULT_BALL_SPEED) }
    { g with slowUntil := 0 }
  else g

/-- Lines 320-334: the branch taken when no ball is left. -/
def loseLife (h : Host α) (g : Game α) : Outcome (Game α) :=
  let g := { g with lives := g.lives - 1 }
  if g.lives ≤ 0 then .done { g with gameOver := true, paused := true }
  else resetBallOnPaddle (clearPowerUpsAndEffects h (resetBallsToOne h g))

/-- `update()`. -/
def update (h : Host α) (g : Game α) : Outcome (Game α) :=
  let g := movePaddle h g
  if !g.started then resetBallOnPaddle g
  else
    let g := ballPhase h g
    if g.balls.length = 0 then loseLife h g
    else .done (expireEffects h (powerUpPhase h (winCheck g)))

/-! ## Loop (lines 465-470) -/

/-- One pass of `loop()`: `update` runs unless the game is paused (`draw` only
reads the globals). -/
def frame (h : Host α) (g : Game α) : Outcome (Game α) :=
  if !g.paused then update h g else .done g

/-- The states the globals can be in between two callbacks: the start-up state,
and what a frame or a key handler leaves behind.  A callback that raised leaves
its partial state, and the relation lets later callbacks act on it, so it
contains every state of the running program. -/
inductive Reachable (h : Host α) : Game α → Prop where
  | init : Reachable h (initGame h).state
  | frame (g : Game α) : Reachable h g → Reachable h (frame h g).state
  | keydown (e : KeyEvent) (g : Game α) : Reachable h g → Reachable h (keydown h e g).state
  | keyup (e : KeyEvent) (g : Game α) : Reachable h g → Reachable h (keyup e g)

/-! ## Notions used in the statements and proofs -/

/-- The cells of the grid in the order the nested loops visit them: row 0 first,
columns ascending inside a row. -/
def cells : List (Nat × Nat) :=
  (List.range bricksRows).flatMap (fun r => (List.range bricksCols).map (fun c => (r, c)))

/-- The guarded loop body of the brick scan, over an arbitrary list of cells. -/
def scanCells (h : Host α) (L : List (Nat × Nat)) (s : Scan α) : Scan α :=
  L.foldl (fun s p => if s.hit then s else brickCell h p.1 p.2 s) s

/-- The cell test of the scan: the brick is alive and the ball overlaps it. -/
def liveHit (g : Game α) (b : Ball α) (p : Nat × Nat) : Bool :=
  g.grid p.1 p.2 && ballHitsBrick b p.1 p.2

/-- What the scan does at the brick it destroys (lines 303-309). -/
def destroyAt (h : Host α) (g : Game α) (r c : Nat) : Game α :=
  spawnPowerUp h (brickX c + bricksW / 2) (brickY r + bricksH / 2)
    { g with grid := killBrick g.grid r c, score := g.score + 10 }

/-- Number of live cells among `L`. -/
def liveCount (grid : Nat → Nat → Bool) (L : List (Nat × Nat)) : Nat :=
  L.countP (fun p => grid p.1 p.2)

/-- The fields that the ball loop never writes are the same in both states. -/
structure SameOutsideScan (g1 g2 : Game α) : Prop where
  lives : g2.lives = g1.lives
  paused : g2.paused = g1.paused
  started : g2.started = g1.started
  gameOver : g2.gameOver = g1.gameOver
  paddle : g2.paddle = g1.paddle
  balls : g2.balls = g1.balls
  wideUntil : g2.wideUntil = g1.wideUntil
  slowUntil : g2.slowUntil = g1.slowUntil
  keys : g2.keys = g1.keys
  nNow : g2.nNow = g1.nNow

/-- The ball as the brick scan sees it: after integration, walls and paddle. -/
def resolved (h : Host α) (g : Game α) (b : Ball α) : Ball α :=
  paddleStep g.paddle (moveAndWalls h b)

/-- The conserved quantity of the points system: the score plus ten points for every
brick still standing. -/
def scorePlusBricks (g : Game α) : Int :=
  g.score + 10 * (liveCount g.grid cells : Int)

/-- The fields that neither the power-ups nor the resets of a life write. -/
structure SameBoard (g1 g2 : Game α) : Prop where
  score : g2.score = g1.score
  grid : g2.grid = g1.grid
  keys : g2.keys = g1.keys
  nRandom : g2.nRandom = g1.nRandom
  paddleY : g2.paddle.y = g1.paddle.y

/-- Row-major order on cells: a lower row first, then a lower column. -/
def rowMajorLE (p q : Nat × Nat) : Prop :=
  p.1 < q.1 ∨ (p.1 = q.1 ∧ p.2 ≤ q.2)

instance rowMajorLE.decidable (p q : Nat × Nat) : Decidable (rowMajorLE p q) := by
  unfold rowMajorLE
  exact inferInstance

/-- The ball that a lost life leaves on the paddle. -/
def restingBall (p : Paddle α) : Ball α :=
  { r := 7
    x := p.x + p.w / 2
    y := p.y - 7 - 1
    vx := 0
    vy := 0
    speed := DEFAULT_BALL_SPEED
    alive := true }

/-- The paddle after `clearPowerUpsAndEffects`. -/
def defaultPaddle (h : Host α) (p : Paddle α) : Paddle α :=
  { p with w := DEFAULT_PADDLE_W, x := clamp p.x 0 (h.width - DEFAULT_PADDLE_W) }

/-- The paddle has one of its two widths and lies inside the canvas. -/
def PaddleOK (h : Host α) (p : Paddle α) : Prop :=
  (p.w = DEFAULT_PADDLE_W ∨ p.w = WIDE_PADDLE_W) ∧ 0 ≤ p.x ∧ p.x ≤ h.width - p.w

/-- The centre of the ball is at least one radius away from the left, right and
top edges of the canvas. -/
def BallInBounds (h : Host α) (b : Ball α) : Prop :=
  b.r ≤ b.x ∧ b.x ≤ h.width - b.r ∧ b.r ≤ b.y

/-- Every ball has the radius `makeBall` gives it and is in bounds. -/
def BallsOK (h : Host α) (bs : List (Ball α)) : Prop :=
  ∀ b ∈ bs, b.r = 7 ∧ BallInBounds h b

/-- The paddle sits 30 below the bottom edge and every ball is in bounds. -/
def BallsInv (h : Host α) (g : Game α) : Prop :=
  g.paddle.y = h.height - 30 ∧ BallsOK h g.balls

/-- The invariant behind the paddle and ball bounds. -/
def BoundsInv (h : Host α) (g : Game α) : Prop :=
  PaddleOK h g.paddle ∧ BallsInv h g

/-- The ball that the `MULTI` case builds from the reference ball `ref` for the
angle offset `offset`, written out field by field. -/
def fanBall (h : Host α) (ref : Ball α) (offset : α) : Ball α :=
  { r := 7
    x := ref.x
    y := ref.y
    vx := h.cos (h.atan2 ref.vy ref.vx + offset) * ref.speed
    vy :=
      if h.sin (h.atan2 ref.vy ref.vx + offset) * ref.speed > 0 then
        h.sin (h.atan2 ref.vy ref.vx + offset) * ref.speed * -1
      else h.sin (h.atan2 ref.vy ref.vx + offset) * ref.speed
    speed := ref.speed
    alive := true }

/-- Lives stay between 0 and 9, reach 0 only when the game is over, and a game
that is over is paused. -/
def LivesInv (g : Game α) : Prop :=
  0 ≤ g.lives ∧ g.lives ≤ 9 ∧ (g.lives = 0 → g.gameOver = true) ∧
    (g.gameOver = true → g.paused = true)

/-- Before a launch there is exactly one ball; a started game that is not over
has at least one. -/
def BallCountInv (g : Game α) : Prop :=
  (g.started = false → g.balls.length = 1) ∧
    (g.started = true → g.gameOver = false → g.balls ≠ [])

/-- Every ball has the base speed that goes with the slow-down timer, and the
paddle has the width that goes with the widening timer. -/
def InStep (g : Game α) : Prop :=
  (∀ b ∈ g.balls, b.speed = if g.slowUntil = 0 then DEFAULT_BALL_SPEED else SLOW_BALL_SPEED) ∧
    g.paddle.w = if g.wideUntil = 0 then DEFAULT_PADDLE_W else WIDE_PADDLE_W

/-- Timed effects are in step with their modifiers, and no slow-down runs
before a launch. -/
def EffectsInv (g : Game α) : Prop :=
  (g.started = false → g.slowUntil = 0) ∧ InStep g

end Code

/-! ## Concrete hosts and states -/

/-- A host with a 480 by 640 canvas, used for concrete runs.  Its library
functions are placeholders: no statement below depends on their values. -/
def demoHost : Host ℚ :=
  { width := 480
    height := 640
    hypot := fun x y => max |x| |y|
    cos := fun _ => 0
    sin := fun _ => 1
    atan2 := fun _ _ => 0
    pi := 3
    random := fun _ => 1 / 2
    now := fun n => 1000 + n }

/-- A started, running game on the demo canvas with the paddle centred. -/
def demoGame (lives : Int) (over : Bool) (grid : Nat → Nat → Bool) (balls : List (Ball ℚ)) :
    Game ℚ :=
  { score := 0
    lives := lives
    paused := false
    started := true
    gameOver := over
    paddle := { w := 110, h := 14, x := 185, y := 610, speed := 7, dx := 0 }
    balls := balls
    grid := grid
    powerUps := []
    wideUntil := 0
    slowUntil := 0
    keys := []
    nRandom := 0
    nNow := 0 }

/-- A ball clipping the left corner of the centred paddle on its way down. -/
def cornerBall : Ball ℚ :=
  { r := 7, x := 180, y := 606, vx := 3, vy := 4, speed := 5, alive := true }

/-- The ball `cornerBall` one tick earlier. -/
def cornerStart : Ball ℚ :=
  { r := 7, x := 177, y := 602, vx := 3, vy := 4, speed := 5, alive := true }

/-- The demo game with all bricks standing and `cornerStart` as its only ball. -/
def cornerGame : Game ℚ := demoGame 3 false (fun _ _ => true) [cornerStart]

/-- A ball whose lower edge has crossed the bottom of the canvas while its upper
edge has not. -/
def lowBall : Ball ℚ :=
  { r := 7, x := 100, y := 630, vx := 0, vy := 5, speed := 5, alive := true }

/-- The demo game with all bricks standing and `lowBall` as its only ball. -/
def lowGame : Game ℚ := demoGame 3 false (fun _ _ => true) [lowBall]

/-- A ball that has fallen below the canvas. -/
def fallingBall : Ball ℚ :=
  { r := 7, x := 240, y := 650, vx := 0, vy := 4, speed := 5, alive := true }

/-- A ball rising into the gap between the first two bricks of the top row. -/
def gapBall : Ball ℚ :=
  { r := 7, x := 75, y := 96, vx := 0, vy := -4, speed := 5, alive := true }

/-- The demo game with all bricks standing and `gapBall` as its only ball. -/
def gapGame : Game ℚ := demoGame 3 false (fun _ _ => true) [gapBall]

/-- A ball rising into the top-left brick. -/
def lastBall : Ball ℚ :=
  { r := 7, x := 60, y := 97, vx := 0, vy := -4, speed := 5, alive := true }

/-- The demo game with only the top-left brick standing. -/
def lastGame : Game ℚ := demoGame 1 false (fun r c => r == 0 && c == 0) [lastBall]

/-- The exact host over the real numbers: `Math.hypot` is the Euclidean norm,
`Math.cos` and `Math.sin` are the real cosine and sine, `Math.atan2(y, x)` is the
argument of `x + y i` (in `(-π, π]`, with `atan2(0, 0) = 0`), `Math.PI` is `π`. -/
noncomputable def realHost (width height : ℝ) (random now : Nat → ℝ) : Host ℝ :=
  { width := width
    height := height
    hypot := fun x y => Real.sqrt (x * x + y * y)
    cos := Real.cos
    sin := Real.sin
    atan2 := fun y x => Complex.arg ⟨x, y⟩
    pi := Real.pi
    random := random
    now := now }

/-- A real host with a 480 by 640 canvas whose random source always returns `u`. -/
noncomputable def realDemo (u : ℝ) : Host ℝ :=
  realHost 480 640 (fun _ => u) (fun n => 1000 + n)

/-- A reference ball of base speed 5 travelling at the angle 0.35. -/
noncomputable def levelRef : Ball ℝ :=
  { r := 7
    x := 240
    y := 300
    vx := 5 * Real.cos (7 / 20)
    vy := 5 * Real.sin (7 / 20)
    speed := 5
    alive := true }

/-- A started game over the reals on the demo canvas, paddle centred. -/
noncomputable def realGame (started : Bool) (balls : List (Ball ℝ)) : Game ℝ :=
  { score := 0
    lives := 3
    paused := false
    started := started
    gameOver := false
    paddle := { w := 110, h := 14, x := 185, y := 610, speed := 7, dx := 0 }
    balls := balls
    grid := fun _ _ => true
    powerUps := []
    wideUntil := 0
    slowUntil := 0
    keys := []
    nRandom := 0
    nNow := 0 }

/-- A host whose canvas has height 0 (a legal size for a canvas element): the
paddle and the resting ball sit above the top edge, so a launched ball is
turned back by the top wall on the first frame and leaves through the bottom on
the second.  Its library functions are placeholders that launch the ball
straight up. -/
def flatHost : Host ℚ :=
  { width := 480
    height := 0
    hypot := fun x y => max |x| |y|
    cos := fun _ => 0
    sin := fun _ => 1
    atan2 := fun _ _ => 0
    pi := 3
    random := fun _ => 1 / 2
    now := fun n => 1000 + n }

/-- The globals after `n` passes of the loop on the flat canvas. -/
def framesOn (n : Nat) (g : Game ℚ) : Game ℚ :=
  Nat.rec g (fun _ acc => (frame flatHost acc).state) n

/-- The globals after a key has gone down on the flat canvas. -/
def pressOn (key code : String) (g : Game ℚ) : Game ℚ :=
  (keydown flatHost ⟨key, code⟩ g).state

/-- A lost game on the flat canvas: three launches, each ball lost after two
frames. -/
def lostGame : Game ℚ :=
  framesOn 2 (pressOn " " "Space" (framesOn 2 (pressOn " " "Space"
    (framesOn 2 (pressOn " " "Space" (initGame flatHost).state)))))

/-- A host whose canvas, 100 wide, is narrower than the paddle. -/
def narrowHost : Host ℚ :=
  { width := 100
    height := 640
    hypot := fun x y => max |x| |y|
    cos := fun _ => 0
    sin := fun _ => 1
    atan2 := fun _ _ => 0
    pi := 3
    random := fun _ => 1 / 2
    now := fun n => 1000 + n }

/-- The flat canvas one frame after the first launch: the ball has been turned
back by the top wall and leaves through the bottom on the next frame. -/
def firstDrop : Game ℚ :=
  framesOn 1 (pressOn " " "Space" (initGame flatHost).state)

/-- The flat canvas one frame after the third launch, two balls already lost. -/
def lastDrop : Game ℚ :=
  framesOn 1 (pressOn " " "Space" (framesOn 2 (pressOn " " "Space"
    (framesOn 2 (pressOn " " "Space" (initGame flatHost).state)))))

/-! ## Binary64 arithmetic

JavaScript numbers are IEEE 754 binary64 values, and every arithmetic operation
returns the exactly computed result rounded to the nearest such value, ties to
the one with an even significand.  For the functions whose contract speaks of
exact equality, `circleRectCollision`, `setBallSpeedForBall` and `launchBalls`,
the arithmetic is modelled with this rounding: a number is the rational it
denotes, and `fl` is the rounding.  There are no infinities in the model:
statements are made for operations whose result stays below `2^1024` in
magnitude (`Finite64`, `IsBinary64`, `Moderate64`).  NaN and the sign of zero
are outside the model too.  The library functions `Math.hypot`, `Math.cos` and
`Math.sin` and the constant `Math.PI` remain the host's. -/

/-- The position of the leading binary digit of `n`, for `n ≤ fuel`:
`2 ^ log2Fuel n n ≤ n < 2 ^ (log2Fuel n n + 1)` when `n` is positive. -/
def log2Fuel : Nat → Nat → Nat
  | 0, _ => 0
  | fuel + 1, n => if n < 2 then 0 else log2Fuel fuel (n / 2) + 1

/-- The power `2 ^ e` as a rational. -/
def pow2 (e : Int) : ℚ :=
  if 0 ≤ e then ((2 ^ e.toNat : Nat) : ℚ) else 1 / ((2 ^ (-e).toNat : Nat) : ℚ)

/-- The binary exponent of a non-zero rational: the `e` with
`2 ^ e ≤ |q| < 2 ^ (e + 1)`. -/
def ilog2 (q : ℚ) : Int :=
  let d : Int := (log2Fuel q.num.natAbs q.num.natAbs : Int) - (log2Fuel q.den q.den : Int)
  if pow2 d ≤ |q| then d else d - 1

/-- The integer nearest to `m`, the even one of the two when `m` lies half-way. -/
def roundEven (m : ℚ) : Int :=
  let f := ⌊m⌋
  if m - f < 1 / 2 then f else if 1 / 2 < m - f then f + 1 else if f % 2 = 0 then f else f + 1

/-- The binary64 value nearest to `q`, ties to even: the significand has 53
binary digits, and below `2 ^ (-1022)` the values are spaced `2 ^ (-1074)` apart
(subnormal numbers). -/
def fl (q : ℚ) : ℚ :=
  if q = 0 then 0
  else
    let ulp := pow2 (max (ilog2 q) (-1022) - 52)
    roundEven (q / ulp) * ulp

/-- The number `x` is a finite binary64 value: rounding leaves it as it is, and
its magnitude is below `2 ^ 1024`. -/
def IsBinary64 (x : ℚ) : Prop := fl x = x ∧ |x| < pow2 1024

/-- The operation whose exact result is `x` does not overflow: the rounded
result is finite. -/
def Finite64 (x : ℚ) : Prop := |fl x| < pow2 1024

/-- The number `x` is zero, or of magnitude between `2 ^ (-500)` and `2 ^ 500`:
neither it nor its square underflows or overflows. -/
def Moderate64 (x : ℚ) : Prop := x = 0 ∨ (pow2 (-500) ≤ |x| ∧ |x| ≤ pow2 500)

/-! ### The three functions in binary64 arithmetic -/

/-- `circleRectCollision(cx, cy, r, rx, ry, rw, rh)` in binary64 arithmetic:
`Math.max` and `Math.min` return one of their arguments, every sum, difference
and product is rounded. -/
def circleRectCollision64 (cx cy r rx ry rw rh : ℚ) : Bool :=
  let closestX := clamp cx rx (fl (rx + rw))
  let closestY := clamp cy ry (fl (ry + rh))
  let dx := fl (cx - closestX)
  let dy := fl (cy - closestY)
  decide (fl (fl (dx * dx) + fl (dy * dy)) ≤ fl (r * r))

/-- None of the eight arithmetic results of the collision test is changed by
rounding or overflows: each is a finite binary64 value already. -/
def ExactTest64 (cx cy r rx ry rw rh : ℚ) : Prop :=
  IsBinary64 (rx + rw) ∧ IsBinary64 (ry + rh) ∧
    IsBinary64 (cx - clamp cx rx (rx + rw)) ∧
    IsBinary64 (cy - clamp cy ry (ry + rh)) ∧
    IsBinary64 ((cx - clamp cx rx (rx + rw)) * (cx - clamp cx rx (rx + rw))) ∧
    IsBinary64 ((cy - clamp cy ry (ry + rh)) * (cy - clamp cy ry (ry + rh))) ∧
    IsBinary64 ((cx - clamp cx rx (rx + rw)) * (cx - clamp cx rx (rx + rw)) +
      (cy - clamp cy ry (ry + rh)) * (cy - clamp cy ry (ry + rh))) ∧
    IsBinary64 (r * r)

/-- `setBallSpeedForBall(b, newSpeed)` in binary64 arithmetic: `Math.hypot` is
the host's, `1e-6` is the binary64 value of that literal, the quotient and the
two products are rounded. -/
def setBallSpeedForBall64 (h : Host ℚ) (b : Ball ℚ) (newSpeed : ℚ) : Ball ℚ :=
  let mag := h.hypot b.vx b.vy
  if mag < fl (1 / 1000000) then
    { b with speed := newSpeed }
  else
    let scale := fl (newSpeed / mag)
    { b with vx := fl (b.vx * scale), vy := fl (b.vy * scale), speed := newSpeed }

/-- The `SLOW` case of `applyPowerUp` (lines 195 and 201-203) in binary64
arithmetic. -/
def applySlow64 (h : Host ℚ) (g : Game ℚ) : Game ℚ :=
  let now := h.now g.nNow
  let g := { g with nNow := g.nNow + 1 }
  let g : Game ℚ :=
    { g with balls := g.balls.map (fun b => setBallSpeedForBall64 h b SLOW_BALL_SPEED) }
  { g with slowUntil := fl (now + 7000) }

/-- The launch angle `(Math.random() * 0.9 + 0.15) * Math.PI` of line 155 in
binary64 arithmetic: the literals denote the nearest binary64 values, and the
product, the sum and the second product are rounded. -/
def launchAngle64 (h : Host ℚ) (g : Game ℚ) : ℚ :=
  fl (fl (fl (h.random g.nRandom * fl (9 / 10)) + fl (3 / 20)) * h.pi)

/-- `launchBalls()` in binary64 arithmetic; `Math.hypot`, `Math.cos`, `Math.sin`
and `Math.PI` are the host's. -/
def launchBalls64 (h : Host ℚ) (g : Game ℚ) : Outcome (Game ℚ) :=
  let g0 : Game ℚ := { g with started := true }
  match g0.balls with
  | [] => .threw g0
  | b :: rest =>
    if h.hypot b.vx b.vy < fl (1 / 1000000) then
      let angle := launchAngle64 h g
      let g1 : Game ℚ := { g0 with nRandom := g0.nRandom + 1 }
      let b := { b with vx := fl (h.cos angle * b.speed) }
      let b := { b with vy := -|fl (h.sin angle * b.speed)| }
      .done { g1 with balls := b :: rest }
    else .done g0

/-! ### Concrete binary64 inputs -/

/-- The number that the literal `84.2075253480889` denotes. -/
def grazeX : ℚ := fl (842075253480889 / 10000000000000)

/-- The number that the literal `91.06970263122912` denotes. -/
def grazeY : ℚ := fl (9106970263122912 / 100000000000000)

/-- The demo host with `Math.hypot` returning 5, the value of `Math.hypot(3, 4)`;
used only with a ball of velocity (3, 4). -/
def hypotHost : Host ℚ := { demoHost with hypot := fun _ _ => 5 }

/-- A ball moving with the velocity (3, 4), of Euclidean speed 5. -/
def fastBall : Ball ℚ :=
  { r := 7, x := 240, y := 300, vx := 3, vy := 4, speed := 5, alive := true }

/-- A host whose random source returns the binary64 value nearest to 17/18
(0.9444444444444444), for which the launch angle is `Math.PI` itself, with the
library values at that argument: `Math.PI = 3.141592653589793`,
`Math.cos(Math.PI) = -1` and `Math.sin(Math.PI) = 1.2246467991473532e-16`. -/
def piHost : Host ℚ :=
  { width := 480
    height := 640
    hypot := fun x y => max |x| |y|
    cos := fun _ => -1
    sin := fun _ => 4967757600021511 / 40564819207303340847894502572032
    atan2 := fun _ _ => 0
    pi := 884279719003555 / 281474976710656
    random := fun _ => fl (17 / 18)
    now := fun n => 1000 + n }

/-- The ball at rest on the centred paddle of the demo canvas. -/
def restBall : Ball ℚ :=
  { r := 7, x := 240, y := 602, vx := 0, vy := 0, speed := 5, alive := true }

/-- The demo game before the launch, the ball at rest on the paddle. -/
def restGame : Game ℚ :=
  { demoGame 3 false (fun _ _ => true) [restBall] with started := false }

/-! ## Theorems -/

section Proofs

set_option linter.unusedSectionVars false

variable {α : Type} [LinearOrderedField α] [FloorRing α]

theorem mem_cells (p : Nat × Nat) : p ∈ cells ↔ p.1 < bricksRows ∧ p.2 < bricksCols := by
  obtain ⟨r, c⟩ := p
  simp [cells, List.mem_flatMap, List.mem_map, List.mem_range]

theorem cells_nodup : cells.Nodup := by
  decide

theorem scanCells_of_hit (h : Host α) (L : List (Nat × Nat)) (s : Scan α) (hs : s.hit = true) :
    scanCells h L s = s := by
  induction L with
  | nil => rfl
  | cons p L ih => simpa [scanCells, hs] using ih

theorem brickRow_eq (h : Host α) (r : Nat) (s : Scan α) :
    brickRow h r s = scanCells h ((List.range bricksCols).map (fun c => (r, c))) s := by
  simp [brickRow, scanCells, List.foldl_map]

theorem scanCells_append (h : Host α) (L M : List (Nat × Nat)) (s : Scan α) :
    scanCells h (L ++ M) s = scanCells h M (scanCells h L s) := by
  simp [scanCells, List.foldl_append]

theorem brickScan_eq_aux (h : Host α) (R : List Nat) (s : Scan α) :
    R.foldl (fun s r => if s.hit then s else brickRow h r s) s =
      scanCells h (R.flatMap (fun r => (List.range bricksCols).map (fun c => (r, c)))) s := by
  induction R generalizing s with
  | nil => rfl
  | cons r R ih =>
    rw [List.foldl_cons, List.flatMap_cons, scanCells_append, ih]
    by_cases hs : s.hit = true
    · rw [if_pos hs, scanCells_of_hit h ((List.range bricksCols).map (fun c => (r, c))) s hs]
    · rw [if_neg hs, brickRow_eq]

/-- The nested loops are one guarded pass over the cells in row-major order. -/
theorem brickScan_eq (h : Host α) (s : Scan α) : brickScan h s = scanCells h cells s :=
  brickScan_eq_aux h _ s

theorem brickCell_of_liveHit (h : Host α) (g : Game α) (b : Ball α) (p : Nat × Nat)
    (hp : liveHit g b p = true) :
    brickCell h p.1 p.2 { game := g, ball := b, hit := false } =
      { game := destroyAt h g p.1 p.2, ball := { b with vy := b.vy * -1 }, hit := true } := by
  simp only [liveHit, Bool.and_eq_true] at hp
  simp [brickCell, hp.1, hp.2, destroyAt]

theorem brickCell_of_not_liveHit (h : Host α) (g : Game α) (b : Ball α) (p : Nat × Nat)
    (hp : liveHit g b p = false) :
    brickCell h p.1 p.2 { game := g, ball := b, hit := false } =
      { game := g, ball := b, hit := false } := by
  simp only [liveHit, Bool.and_eq_false_iff] at hp
  rcases hp with hp | hp <;> simp [brickCell, hp]

/-- The scan finds the first live overlapped cell of the list, if any, and
destroys exactly that one. -/
theorem scanCells_find (h : Host α) (g : Game α) (b : Ball α) (L : List (Nat × Nat)) :
    scanCells h L { game := g, ball := b, hit := false } =
      match L.find? (liveHit g b) with
      | none => { game := g, ball := b, hit := false }
      | some p =>
        { game := destroyAt h g p.1 p.2, ball := { b with vy := b.vy * -1 }, hit := true } := by
  induction L with
  | nil => rfl
  | cons p L ih =>
    by_cases hp : liveHit g b p = true
    · have h1 : scanCells h (p :: L) { game := g, ball := b, hit := false } =
          scanCells h L (brickCell h p.1 p.2 { game := g, ball := b, hit := false }) := by
        simp [scanCells]
      rw [h1, brickCell_of_liveHit h g b p hp, scanCells_of_hit _ _ _ rfl]
      simp [List.find?_cons, hp]
    · have hp2 : liveHit g b p = false := by simpa using hp
      have h1 : scanCells h (p :: L) { game := g, ball := b, hit := false } =
          scanCells h L (brickCell h p.1 p.2 { game := g, ball := b, hit := false }) := by
        simp [scanCells]
      rw [h1, brickCell_of_not_liveHit h g b p hp2, ih]
      simp [List.find?_cons, hp2]

theorem foldl_count (P : Nat → Bool) (C : List Nat) (n : Nat) :
    C.foldl (fun count c => if P c then count + 1 else count) n = n + C.countP P := by
  induction C generalizing n with
  | nil => simp
  | cons c C ih =>
    rw [List.foldl_cons, ih, List.countP_cons]
    by_cases hc : P c = true <;> simp [hc]; omega

theorem remainingBricks_aux (grid : Nat → Nat → Bool) (R : List Nat) (n : Nat) :
    R.foldl (fun count r =>
      (List.range bricksCols).foldl (fun count c => if grid r c then count + 1 else count) count) n
      = n + liveCount grid (R.flatMap (fun r => (List.range bricksCols).map (fun c => (r, c)))) := by
  induction R generalizing n with
  | nil => simp [liveCount]
  | cons r R ih =>
    rw [List.foldl_cons, ih, foldl_count (fun c => grid r c)]
    simp [liveCount, List.countP_append, List.countP_map, Function.comp_def]
    omega

theorem remainingBricks_eq (g : Game α) : remainingBricks g = liveCount g.grid cells := by
  simpa using remainingBricks_aux g.grid (List.range bricksRows) 0

theorem liveCount_kill_of_not_mem (grid : Nat → Nat → Bool) (r c : Nat) (L : List (Nat × Nat))
    (hp : (r, c) ∉ L) : liveCount (killBrick grid r c) L = liveCount grid L := by
  unfold liveCount
  apply List.countP_congr
  intro q hq
  have hne : ¬ (q.1 = r ∧ q.2 = c) := by
    rintro ⟨h1, h2⟩
    exact hp (by rw [← h1, ← h2]; exact hq)
  simp [killBrick, hne]

theorem liveCount_kill (grid : Nat → Nat → Bool) (r c : Nat) (L : List (Nat × Nat))
    (hnd : L.Nodup) (hp : (r, c) ∈ L) (hlive : grid r c = true) :
    liveCount grid L = liveCount (killBrick grid r c) L + 1 := by
  induction L with
  | nil => simp at hp
  | cons a L ih =>
    rw [List.nodup_cons] at hnd
    by_cases ha : a = (r, c)
    · subst ha
      have := liveCount_kill_of_not_mem grid r c L hnd.1
      simp only [liveCount, List.countP_cons] at this ⊢
      rw [this]
      simp [killBrick, hlive]
    · have hmem : (r, c) ∈ L := by
        rcases List.mem_cons.1 hp with h1 | h1
        · exact absurd h1.symm ha
        · exact h1
      have := ih hnd.2 hmem
      have hne : ¬ (a.1 = r ∧ a.2 = c) := by
        rintro ⟨h1, h2⟩
        exact ha (by rw [← h1, ← h2])
      simp only [liveCount, List.countP_cons] at this ⊢
      rw [this]
      simp [killBrick, hne]
      omega

theorem sameOutsideScan_refl (g : Game α) : SameOutsideScan g g :=
  ⟨rfl, rfl, rfl, rfl, rfl, rfl, rfl, rfl, rfl, rfl⟩

theorem sameOutsideScan_trans {g1 g2 g3 : Game α} (h12 : SameOutsideScan g1 g2)
    (h23 : SameOutsideScan g2 g3) : SameOutsideScan g1 g3 :=
  ⟨h23.lives.trans h12.lives, h23.paused.trans h12.paused, h23.started.trans h12.started,
    h23.gameOver.trans h12.gameOver, h23.paddle.trans h12.paddle, h23.balls.trans h12.balls,
    h23.wideUntil.trans h12.wideUntil, h23.slowUntil.trans h12.slowUntil,
    h23.keys.trans h12.keys, h23.nNow.trans h12.nNow⟩

theorem spawnPowerUp_same (h : Host α) (x y : α) (g : Game α) :
    SameOutsideScan g (spawnPowerUp h x y g) := by
  unfold spawnPowerUp
  dsimp only
  split <;> exact ⟨rfl, rfl, rfl, rfl, rfl, rfl, rfl, rfl, rfl, rfl⟩

theorem spawnPowerUp_score (h : Host α) (x y : α) (g : Game α) :
    (spawnPowerUp h x y g).score = g.score := by
  unfold spawnPowerUp
  dsimp only
  split <;> rfl

theorem spawnPowerUp_grid (h : Host α) (x y : α) (g : Game α) :
    (spawnPowerUp h x y g).grid = g.grid := by
  unfold spawnPowerUp
  dsimp only
  split <;> rfl

theorem destroyAt_same (h : Host α) (g : Game α) (r c : Nat) :
    SameOutsideScan g (destroyAt h g r c) := by
  have h1 := spawnPowerUp_same h (brickX c + bricksW / 2) (brickY r + bricksH / 2)
    { g with grid := killBrick g.grid r c, score := g.score + 10 }
  exact ⟨h1.lives, h1.paused, h1.started, h1.gameOver, h1.paddle, h1.balls, h1.wideUntil,
    h1.slowUntil, h1.keys, h1.nNow⟩

theorem destroyAt_score (h : Host α) (g : Game α) (r c : Nat) :
    (destroyAt h g r c).score = g.score + 10 := by
  simp [destroyAt, spawnPowerUp_score]

theorem destroyAt_grid (h : Host α) (g : Game α) (r c : Nat) :
    (destroyAt h g r c).grid = killBrick g.grid r c := by
  simp [destroyAt, spawnPowerUp_grid]

theorem moveAndWalls_alive (h : Host α) (b : Ball α) : (moveAndWalls h b).alive = b.alive := by
  unfold moveAndWalls
  dsimp only
  split_ifs <;> rfl

theorem paddleStep_alive (p : Paddle α) (b : Ball α) : (paddleStep p b).alive = b.alive := by
  unfold paddleStep paddleBounce
  split <;> rfl

/-- A live ball that stays above the bottom is stepped by resolving it and
destroying the first live brick it overlaps, if there is one. -/
theorem stepBall_eq (h : Host α) (g : Game α) (b : Ball α) (ha : b.alive = true)
    (hx : exitsBottom h (moveAndWalls h b) = false) :
    stepBall h g b =
      match cells.find? (liveHit g (resolved h g b)) with
      | none => (g, resolved h g b)
      | some p =>
        (destroyAt h g p.1 p.2, { resolved h g b with vy := (resolved h g b).vy * -1 }) := by
  simp only [stepBall, ha, hx, brickScan_eq, scanCells_find, resolved]
  simp only [Bool.not_true, Bool.false_eq_true, if_false]
  cases cells.find? (liveHit g (paddleStep g.paddle (moveAndWalls h b))) <;> rfl

theorem stepBall_dead (h : Host α) (g : Game α) (b : Ball α) (ha : b.alive = false) :
    stepBall h g b = (g, b) := by
  simp [stepBall, ha]

theorem stepBall_exit (h : Host α) (g : Game α) (b : Ball α) (ha : b.alive = true)
    (hx : exitsBottom h (moveAndWalls h b) = true) :
    stepBall h g b = (g, { moveAndWalls h b with alive := false }) := by
  simp [stepBall, ha, hx]

/-- One ball either leaves the globals alone, or survives and destroys one live
brick of the grid. -/
theorem stepBall_cases (h : Host α) (g : Game α) (b : Ball α) :
    (stepBall h g b).1 = g ∨
      (b.alive = true ∧ (stepBall h g b).2.alive = true ∧
        ∃ p ∈ cells, g.grid p.1 p.2 = true ∧ (stepBall h g b).1 = destroyAt h g p.1 p.2) := by
  by_cases ha : b.alive = true
  · by_cases hx : exitsBottom h (moveAndWalls h b) = true
    · left; rw [stepBall_exit h g b ha hx]
    · have hx2 : exitsBottom h (moveAndWalls h b) = false := by simpa using hx
      rw [stepBall_eq h g b ha hx2]
      cases hf : cells.find? (liveHit g (resolved h g b)) with
      | none => left; rfl
      | some p =>
        right
        have hmem := List.mem_of_find?_eq_some hf
        have hp := List.find?_some hf
        simp only [liveHit, Bool.and_eq_true] at hp
        refine ⟨ha, ?_, p, hmem, hp.1, rfl⟩
        simp [resolved, paddleStep_alive, moveAndWalls_alive, ha]
  · left
    have ha2 : b.alive = false := by simpa using ha
    rw [stepBall_dead h g b ha2]

theorem destroyAt_count (h : Host α) (g : Game α) (p : Nat × Nat) (hp : p ∈ cells)
    (hlive : g.grid p.1 p.2 = true) :
    liveCount g.grid cells = liveCount (destroyAt h g p.1 p.2).grid cells + 1 := by
  rw [destroyAt_grid]
  exact liveCount_kill g.grid p.1 p.2 cells cells_nodup hp hlive

theorem stepBall_same (h : Host α) (g : Game α) (b : Ball α) :
    SameOutsideScan g (stepBall h g b).1 := by
  rcases stepBall_cases h g b with h1 | ⟨_, _, p, _, _, h1⟩
  · rw [h1]; exact sameOutsideScan_refl g
  · rw [h1]; exact destroyAt_same h g p.1 p.2

theorem stepBall_conserves (h : Host α) (g : Game α) (b : Ball α) :
    scorePlusBricks (stepBall h g b).1 = scorePlusBricks g := by
  rcases stepBall_cases h g b with h1 | ⟨_, _, p, hp, hlive, h1⟩
  · rw [h1]
  · rw [h1]
    unfold scorePlusBricks
    rw [destroyAt_score, destroyAt_count h g p hp hlive]
    push_cast
    ring

theorem stepBall_count (h : Host α) (g : Game α) (b : Ball α) :
    liveCount (stepBall h g b).1.grid cells ≤ liveCount g.grid cells ∧
      liveCount g.grid cells ≤
        liveCount (stepBall h g b).1.grid cells + (if b.alive = true then 1 else 0) := by
  rcases stepBall_cases h g b with h1 | ⟨ha, _, p, hp, hlive, h1⟩
  · rw [h1]
    constructor
    · exact le_refl _
    · omega
  · rw [h1, if_pos ha]
    have := destroyAt_count h g p hp hlive
    omega

theorem moveBalls_same (h : Host α) (bs : List (Ball α)) (g : Game α) :
    SameOutsideScan g (moveBalls h g bs).1 := by
  induction bs generalizing g with
  | nil => exact sameOutsideScan_refl g
  | cons b bs ih => exact sameOutsideScan_trans (stepBall_same h g b) (ih _)

theorem moveBalls_conserves (h : Host α) (bs : List (Ball α)) (g : Game α) :
    scorePlusBricks (moveBalls h g bs).1 = scorePlusBricks g := by
  induction bs generalizing g with
  | nil => rfl
  | cons b bs ih =>
    show scorePlusBricks (moveBalls h (stepBall h g b).1 bs).1 = _
    rw [ih, stepBall_conserves]

theorem moveBalls_count (h : Host α) (bs : List (Ball α)) (g : Game α) :
    liveCount (moveBalls h g bs).1.grid cells ≤ liveCount g.grid cells ∧
      liveCount g.grid cells ≤
        liveCount (moveBalls h g bs).1.grid cells + (bs.filter (fun b => b.alive)).length := by
  induction bs generalizing g with
  | nil => simp [moveBalls]
  | cons b bs ih =>
    have h1 := stepBall_count h g b
    have h2 := ih (stepBall h g b).1
    show liveCount (moveBalls h (stepBall h g b).1 bs).1.grid cells ≤ _ ∧
      _ ≤ liveCount (moveBalls h (stepBall h g b).1 bs).1.grid cells + _
    by_cases ha : b.alive = true
    · rw [if_pos ha] at h1
      simp only [List.filter_cons, ha, if_true, List.length_cons]
      omega
    · rw [if_neg ha] at h1
      simp only [List.filter_cons, ha, Bool.false_eq_true, if_false]
      omega

/-- If no ball is alive after the loop, the loop has not touched the globals. -/
theorem moveBalls_all_dead (h : Host α) (bs : List (Ball α)) (g : Game α)
    (hd : ∀ b ∈ (moveBalls h g bs).2, b.alive = false) : (moveBalls h g bs).1 = g := by
  induction bs generalizing g with
  | nil => rfl
  | cons b bs ih =>
    have h1 : (stepBall h g b).2.alive = false := hd _ (List.mem_cons_self _ _)
    have h2 : (stepBall h g b).1 = g := by
      rcases stepBall_cases h g b with h3 | ⟨_, h3, _⟩
      · exact h3
      · rw [h1] at h3; exact absurd h3 (by simp)
    have h4 := ih (stepBall h g b).1 (fun b1 hb1 => hd b1 (List.mem_cons_of_mem _ hb1))
    show (moveBalls h (stepBall h g b).1 bs).1 = g
    rw [h4, h2]

theorem moveBalls_cons (h : Host α) (b : Ball α) (bs : List (Ball α)) (g : Game α) :
    moveBalls h g (b :: bs) =
      ((moveBalls h (stepBall h g b).1 bs).1,
        (stepBall h g b).2 :: (moveBalls h (stepBall h g b).1 bs).2) :=
  rfl

theorem moveBalls_append (h : Host α) (pre post : List (Ball α)) (g : Game α) :
    moveBalls h g (pre ++ post) =
      ((moveBalls h (moveBalls h g pre).1 post).1,
        (moveBalls h g pre).2 ++ (moveBalls h (moveBalls h g pre).1 post).2) := by
  induction pre generalizing g with
  | nil => rfl
  | cons b pre ih =>
    rw [List.cons_append, moveBalls_cons, ih, moveBalls_cons]
    rfl

theorem sameBoard_refl (g : Game α) : SameBoard g g :=
  ⟨rfl, rfl, rfl, rfl, rfl⟩

theorem sameBoard_trans {g1 g2 g3 : Game α} (h12 : SameBoard g1 g2) (h23 : SameBoard g2 g3) :
    SameBoard g1 g3 :=
  ⟨h23.score.trans h12.score, h23.grid.trans h12.grid, h23.keys.trans h12.keys,
    h23.nRandom.trans h12.nRandom, h23.paddleY.trans h12.paddleY⟩

theorem sameBoard_remaining {g1 g2 : Game α} (hb : SameBoard g1 g2) :
    remainingBricks g2 = remainingBricks g1 := by
  rw [remainingBricks_eq, remainingBricks_eq, hb.grid]

theorem multi_range : List.range 2 = [0, 1] := rfl

theorem applyPowerUp_board (h : Host α) (t : Option PType) (g : Game α) :
    SameBoard g (applyPowerUp h t g) := by
  unfold applyPowerUp
  dsimp only
  split
  · exact ⟨rfl, rfl, rfl, rfl, rfl⟩
  · exact ⟨rfl, rfl, rfl, rfl, rfl⟩
  · exact ⟨rfl, rfl, rfl, rfl, rfl⟩
  · split
    · exact ⟨rfl, rfl, rfl, rfl, rfl⟩
    · rw [multi_range]
      exact ⟨rfl, rfl, rfl, rfl, rfl⟩
  · exact ⟨rfl, rfl, rfl, rfl, rfl⟩

/-- Power-ups never touch the game flags. -/
theorem applyPowerUp_flags (h : Host α) (t : Option PType) (g : Game α) :
    (applyPowerUp h t g).paused = g.paused ∧ (applyPowerUp h t g).started = g.started ∧
      (applyPowerUp h t g).gameOver = g.gameOver := by
  unfold applyPowerUp
  dsimp only
  split
  · exact ⟨rfl, rfl, rfl⟩
  · exact ⟨rfl, rfl, rfl⟩
  · exact ⟨rfl, rfl, rfl⟩
  · split
    · exact ⟨rfl, rfl, rfl⟩
    · rw [multi_range]
      exact ⟨rfl, rfl, rfl⟩
  · exact ⟨rfl, rfl, rfl⟩

theorem stepPowerUp_board (h : Host α) (g : Game α) (p : PowerUp α) :
    SameBoard g (stepPowerUp h g p).1 := by
  unfold stepPowerUp
  dsimp only
  split
  · exact sameBoard_refl g
  · split
    · exact applyPowerUp_board h _ g
    · exact sameBoard_refl g

theorem stepPowerUp_flags (h : Host α) (g : Game α) (p : PowerUp α) :
    (stepPowerUp h g p).1.paused = g.paused ∧ (stepPowerUp h g p).1.started = g.started ∧
      (stepPowerUp h g p).1.gameOver = g.gameOver := by
  unfold stepPowerUp
  dsimp only
  split
  · exact ⟨rfl, rfl, rfl⟩
  · split
    · exact applyPowerUp_flags h _ g
    · exact ⟨rfl, rfl, rfl⟩

theorem movePowerUps_board (h : Host α) (ps : List (PowerUp α)) (g : Game α) :
    SameBoard g (movePowerUps h g ps).1 := by
  induction ps generalizing g with
  | nil => exact sameBoard_refl g
  | cons p ps ih => exact sameBoard_trans (stepPowerUp_board h g p) (ih _)

theorem movePowerUps_flags (h : Host α) (ps : List (PowerUp α)) (g : Game α) :
    (movePowerUps h g ps).1.paused = g.paused ∧ (movePowerUps h g ps).1.started = g.started ∧
      (movePowerUps h g ps).1.gameOver = g.gameOver := by
  induction ps generalizing g with
  | nil => exact ⟨rfl, rfl, rfl⟩
  | cons p ps ih =>
    have h1 := stepPowerUp_flags h g p
    have h2 := ih (stepPowerUp h g p).1
    exact ⟨h2.1.trans h1.1, h2.2.1.trans h1.2.1, h2.2.2.trans h1.2.2⟩

theorem powerUpPhase_board (h : Host α) (g : Game α) : SameBoard g (powerUpPhase h g) := by
  have h1 := movePowerUps_board h g.powerUps g
  exact ⟨h1.score, h1.grid, h1.keys, h1.nRandom, h1.paddleY⟩

theorem powerUpPhase_flags (h : Host α) (g : Game α) :
    (powerUpPhase h g).paused = g.paused ∧ (powerUpPhase h g).started = g.started ∧
      (powerUpPhase h g).gameOver = g.gameOver :=
  movePowerUps_flags h g.powerUps g

theorem expireEffects_board (h : Host α) (g : Game α) : SameBoard g (expireEffects h g) := by
  unfold expireEffects
  dsimp only
  split_ifs <;> exact ⟨rfl, rfl, rfl, rfl, rfl⟩

theorem expireEffects_flags (h : Host α) (g : Game α) :
    (expireEffects h g).paused = g.paused ∧ (expireEffects h g).started = g.started ∧
      (expireEffects h g).gameOver = g.gameOver := by
  unfold expireEffects
  dsimp only
  split_ifs <;> exact ⟨rfl, rfl, rfl⟩

theorem winCheck_board (g : Game α) : SameBoard g (winCheck g) := by
  unfold winCheck
  split <;> exact ⟨rfl, rfl, rfl, rfl, rfl⟩

theorem movePaddle_board (h : Host α) (g : Game α) : SameBoard g (movePaddle h g) :=
  ⟨rfl, rfl, rfl, rfl, rfl⟩

theorem resetBallOnPaddle_board (g : Game α) : SameBoard g (resetBallOnPaddle g).state := by
  unfold resetBallOnPaddle
  split <;> exact ⟨rfl, rfl, rfl, rfl, rfl⟩

theorem loseLife_board (h : Host α) (g : Game α) : SameBoard g (loseLife h g).state := by
  unfold loseLife
  dsimp only
  split
  · exact ⟨rfl, rfl, rfl, rfl, rfl⟩
  · have h1 := resetBallOnPaddle_board
      (clearPowerUpsAndEffects h (resetBallsToOne h { g with lives := g.lives - 1 }))
    exact ⟨h1.score, h1.grid, h1.keys, h1.nRandom, h1.paddleY⟩

theorem ballPhase_eq (h : Host α) (g : Game α) :
    ballPhase h g =
      { (moveBalls h g g.balls).1 with
        balls := (moveBalls h g g.balls).2.filter (fun b => b.alive) } :=
  rfl

/-- The value of `update` on a started state, phase by phase. -/
theorem update_started (h : Host α) (g : Game α) (hs : g.started = true) :
    update h g =
      if (ballPhase h (movePaddle h g)).balls.length = 0 then
        loseLife h (ballPhase h (movePaddle h g))
      else
        .done (expireEffects h (powerUpPhase h (winCheck (ballPhase h (movePaddle h g))))) := by
  have h1 : (movePaddle h g).started = true := hs
  simp [update, h1]

theorem update_not_started (h : Host α) (g : Game α) (hs : g.started = false) :
    update h g = resetBallOnPaddle (movePaddle h g) := by
  have h1 : (movePaddle h g).started = false := hs
  simp [update, h1]

/-- After the ball loop nothing in `update` writes the score or the bricks. -/
theorem update_board (h : Host α) (g : Game α) (hs : g.started = true) :
    SameBoard (ballPhase h (movePaddle h g)) (update h g).state := by
  rw [update_started h g hs]
  split
  · exact loseLife_board h _
  · exact sameBoard_trans (winCheck_board _)
      (sameBoard_trans (powerUpPhase_board h _) (expireEffects_board h _))

theorem update_board_not_started (h : Host α) (g : Game α) (hs : g.started = false) :
    SameBoard g (update h g).state := by
  rw [update_not_started h g hs]
  exact sameBoard_trans (movePaddle_board h g) (resetBallOnPaddle_board _)

/-- Scoring is conserved by every call of `update`. -/
theorem update_conserves (h : Host α) (g : Game α) :
    scorePlusBricks (update h g).state = scorePlusBricks g := by
  by_cases hs : g.started = true
  · have h1 := update_board h g hs
    have h2 := moveBalls_conserves h (movePaddle h g).balls (movePaddle h g)
    unfold scorePlusBricks at *
    rw [h1.score, h1.grid]
    exact h2
  · have hs2 : g.started = false := by simpa using hs
    have h1 := update_board_not_started h g hs2
    unfold scorePlusBricks
    rw [h1.score, h1.grid]

theorem cells_sorted : cells.Pairwise rowMajorLE := by
  decide

/-- The first cell of `cells` that passes a test precedes, in row-major order,
every cell that passes it. -/
theorem cells_find_first (P : Nat × Nat → Bool) (p0 : Nat × Nat)
    (hf : cells.find? P = some p0) (q : Nat × Nat) (hq : q ∈ cells) (hP : P q = true) :
    rowMajorLE p0 q := by
  obtain ⟨_, pre, post, hsplit, hpre⟩ := List.find?_eq_some.1 hf
  have hsorted := cells_sorted
  rw [hsplit] at hq hsorted
  rcases List.mem_append.1 hq with h1 | h1
  · have := hpre q h1
    simp [hP] at this
  · rcases List.mem_cons.1 h1 with h2 | h2
    · rw [h2]
      right
      exact ⟨rfl, le_refl _⟩
    · have h3 := (List.pairwise_append.1 hsorted).2.1
      exact (List.pairwise_cons.1 h3).1 q h2

/-- C1: in a tick on a started state, a live ball that stays in play either
overlaps no live brick after its move, wall and paddle resolution, and then
leaves the globals as they were, or destroys exactly the first live brick it
overlaps in row-major order and no other: that brick, alive before the ball's
scan, is dead after it, every other brick is as it was, and the number of live
bricks has dropped by exactly one; the grid after `update` is the grid after
the remaining balls have had their turn, and the number of bricks destroyed in
the tick is at most the number of live balls. -/
theorem single_hit_per_tick (h : Host α) (g : Game α) (pre post : List (Ball α)) (b : Ball α)
    (hs : g.started = true) (hb : g.balls = pre ++ b :: post) (ha : b.alive = true)
    (hx : exitsBottom h (moveAndWalls h b) = false) :
    (update h g).state.grid =
        (moveBalls h (stepBall h (moveBalls h (movePaddle h g) pre).1 b).1 post).1.grid ∧
      ((∀ p ∈ cells, liveHit (moveBalls h (movePaddle h g) pre).1
            (resolved h (moveBalls h (movePaddle h g) pre).1 b) p = false) →
          (stepBall h (moveBalls h (movePaddle h g) pre).1 b).1 =
            (moveBalls h (movePaddle h g) pre).1) ∧
      ((∃ p ∈ cells, liveHit (moveBalls h (movePaddle h g) pre).1
            (resolved h (moveBalls h (movePaddle h g) pre).1 b) p = true) →
          ∃ p0 ∈ cells,
            liveHit (moveBalls h (movePaddle h g) pre).1
                (resolved h (moveBalls h (movePaddle h g) pre).1 b) p0 = true ∧
              (∀ q ∈ cells, liveHit (moveBalls h (movePaddle h g) pre).1
                  (resolved h (moveBalls h (movePaddle h g) pre).1 b) q = true →
                rowMajorLE p0 q) ∧
              (stepBall h (moveBalls h (movePaddle h g) pre).1 b).1.grid =
                killBrick (moveBalls h (movePaddle h g) pre).1.grid p0.1 p0.2 ∧
              (stepBall h (moveBalls h (movePaddle h g) pre).1 b).1.score =
                (moveBalls h (movePaddle h g) pre).1.score + 10 ∧
              (moveBalls h (movePaddle h g) pre).1.grid p0.1 p0.2 = true ∧
              (stepBall h (moveBalls h (movePaddle h g) pre).1 b).1.grid p0.1 p0.2 = false ∧
              (∀ r c : Nat, ¬ (r = p0.1 ∧ c = p0.2) →
                (stepBall h (moveBalls h (movePaddle h g) pre).1 b).1.grid r c =
                  (moveBalls h (movePaddle h g) pre).1.grid r c) ∧
              remainingBricks (stepBall h (moveBalls h (movePaddle h g) pre).1 b).1 + 1 =
                remainingBricks (moveBalls h (movePaddle h g) pre).1) ∧
      remainingBricks (update h g).state ≤ remainingBricks g ∧
      remainingBricks g ≤
        remainingBricks (update h g).state + (g.balls.filter (fun b => b.alive)).length := by
  have hboard := update_board h g hs
  have hcount := moveBalls_count h g.balls (movePaddle h g)
  have hgrid : (ballPhase h (movePaddle h g)).grid =
      (moveBalls h (movePaddle h g) g.balls).1.grid := rfl
  refine ⟨?_, ?_, ?_, ?_, ?_⟩
  · rw [hboard.grid, hgrid, hb, moveBalls_append, moveBalls_cons]
  · intro hnone
    rw [stepBall_eq h _ b ha hx, List.find?_eq_none.2 (fun p hp => by simp [hnone p hp])]
  · rintro ⟨p, hp, hhit⟩
    cases hf : cells.find?
        (liveHit (moveBalls h (movePaddle h g) pre).1
          (resolved h (moveBalls h (movePaddle h g) pre).1 b)) with
    | none =>
      have := List.find?_eq_none.1 hf p hp
      exact absurd hhit this
    | some p0 =>
      have hmem : p0 ∈ cells := List.mem_of_find?_eq_some hf
      have hlive : (moveBalls h (movePaddle h g) pre).1.grid p0.1 p0.2 = true := by
        have h1 := List.find?_some hf
        unfold liveHit at h1
        exact (Bool.and_eq_true _ _ ▸ h1).1
      have hstep : (stepBall h (moveBalls h (movePaddle h g) pre).1 b).1 =
          destroyAt h (moveBalls h (movePaddle h g) pre).1 p0.1 p0.2 := by
        rw [stepBall_eq h _ b ha hx, hf]
      refine ⟨p0, hmem, List.find?_some hf, cells_find_first _ p0 hf, ?_, ?_, hlive, ?_, ?_, ?_⟩
      · rw [hstep]
        exact destroyAt_grid h _ _ _
      · rw [hstep]
        exact destroyAt_score h _ _ _
      · rw [hstep, destroyAt_grid]
        simp [killBrick]
      · intro r c hne
        rw [hstep, destroyAt_grid]
        simp only [killBrick, if_neg hne]
      · rw [remainingBricks_eq, remainingBricks_eq, hstep]
        exact (destroyAt_count h _ p0 hmem hlive).symm
  · rw [remainingBricks_eq, remainingBricks_eq, hboard.grid, hgrid]
    exact hcount.1
  · rw [remainingBricks_eq, remainingBricks_eq, hboard.grid, hgrid]
    exact hcount.2

/-- C2: every call of `update` changes the score by exactly ten points per
brick it destroys, and never lowers it. -/
theorem scoring_exact (h : Host α) (g : Game α) :
    (update h g).state.score =
        g.score + 10 * ((remainingBricks g : Int) - (remainingBricks (update h g).state : Int)) ∧
      g.score ≤ (update h g).state.score := by
  have h1 := update_conserves h g
  unfold scorePlusBricks at h1
  rw [← remainingBricks_eq, ← remainingBricks_eq] at h1
  have h2 : remainingBricks (update h g).state ≤ remainingBricks g := by
    by_cases hs : g.started = true
    · have hboard := update_board h g hs
      have hcount := moveBalls_count h g.balls (movePaddle h g)
      rw [remainingBricks_eq, remainingBricks_eq, hboard.grid]
      exact hcount.1
    · have hs2 : g.started = false := by simpa using hs
      rw [sameBoard_remaining (update_board_not_started h g hs2)]
  constructor
  · linarith
  · have h3 : (remainingBricks (update h g).state : Int) ≤ (remainingBricks g : Int) := by
      exact_mod_cast h2
    linarith

/-- A tick after which no ball is left has not touched the score or the bricks
during the ball loop. -/
theorem ballPhase_empty (h : Host α) (g : Game α) (hdead : (ballPhase h g).balls = []) :
    (ballPhase h g).score = g.score ∧ (ballPhase h g).grid = g.grid := by
  have h1 : ∀ b ∈ (moveBalls h g g.balls).2, b.alive = false := by
    intro b hb
    have h2 : (moveBalls h g g.balls).2.filter (fun b => b.alive) = [] := hdead
    have h3 := List.filter_eq_nil_iff.1 h2 b hb
    simpa using h3
  have h4 := moveBalls_all_dead h g.balls g h1
  constructor
  · show (moveBalls h g g.balls).1.score = g.score
    rw [h4]
  · show (moveBalls h g g.balls).1.grid = g.grid
    rw [h4]

/-- C5: when a tick on a started state leaves no ball, `update` takes the
life-loss branch, and the score and every brick are as before the call. -/
theorem empty_tick_keeps_board (h : Host α) (g : Game α) (hs : g.started = true)
    (hdead : (ballPhase h (movePaddle h g)).balls = []) :
    update h g = loseLife h (ballPhase h (movePaddle h g)) ∧
      (update h g).state.score = g.score ∧
      (∀ r c, (update h g).state.grid r c = g.grid r c) := by
  have h1 := update_board h g hs
  have h2 := ballPhase_empty h (movePaddle h g) hdead
  refine ⟨?_, ?_, ?_⟩
  · rw [update_started h g hs, hdead]
    simp
  · rw [h1.score, h2.1]
    rfl
  · intro r c
    rw [h1.grid, h2.2]
    rfl

/-- C3: if a tick on a started state with a live brick leaves no live brick,
then it did not end with an empty ball collection, and after the call the game
is over and paused, whatever the lives and the number of balls. -/
theorem win_on_last_brick (h : Host α) (g : Game α) (hs : g.started = true)
    (hlive : 1 ≤ remainingBricks g)
    (hlast : remainingBricks (update h g).state = 0) :
    (ballPhase h (movePaddle h g)).balls ≠ [] ∧
      (update h g).state.gameOver = true ∧ (update h g).state.paused = true := by
  have h1 := update_board h g hs
  have hne : (ballPhase h (movePaddle h g)).balls ≠ [] := by
    intro hdead
    have h2 := ballPhase_empty h (movePaddle h g) hdead
    have h3 : remainingBricks (update h g).state = remainingBricks g := by
      rw [remainingBricks_eq, remainingBricks_eq, h1.grid, h2.2]
      rfl
    omega
  have h4 : remainingBricks (ballPhase h (movePaddle h g)) = 0 := by
    rw [← sameBoard_remaining h1]
    exact hlast
  have h5 : update h g =
      .done (expireEffects h (powerUpPhase h (winCheck (ballPhase h (movePaddle h g))))) := by
    rw [update_started h g hs, if_neg]
    simpa using hne
  have h6 : (winCheck (ballPhase h (movePaddle h g))).gameOver = true ∧
      (winCheck (ballPhase h (movePaddle h g))).paused = true := by
    simp [winCheck, h4]
  have h7 := powerUpPhase_flags h (winCheck (ballPhase h (movePaddle h g)))
  have h8 := expireEffects_flags h (powerUpPhase h (winCheck (ballPhase h (movePaddle h g))))
  refine ⟨hne, ?_, ?_⟩
  · rw [h5]
    show (expireEffects h _).gameOver = true
    rw [h8.2.2, h7.2.2, h6.1]
  · rw [h5]
    show (expireEffects h _).paused = true
    rw [h8.1, h7.1, h6.2]

theorem ballPhase_same (h : Host α) (g : Game α) :
    (ballPhase h g).lives = g.lives ∧ (ballPhase h g).paused = g.paused ∧
      (ballPhase h g).started = g.started ∧ (ballPhase h g).gameOver = g.gameOver ∧
      (ballPhase h g).paddle = g.paddle ∧ (ballPhase h g).wideUntil = g.wideUntil ∧
      (ballPhase h g).slowUntil = g.slowUntil ∧ (ballPhase h g).keys = g.keys ∧
      (ballPhase h g).nNow = g.nNow := by
  have h1 := moveBalls_same h g.balls g
  exact ⟨h1.lives, h1.paused, h1.started, h1.gameOver, h1.paddle, h1.wideUntil, h1.slowUntil,
    h1.keys, h1.nNow⟩

theorem loseLife_over (h : Host α) (g : Game α) (hl : g.lives ≤ 1) :
    loseLife h g = .done { g with lives := g.lives - 1, gameOver := true, paused := true } := by
  have h1 : g.lives - 1 ≤ 0 := by omega
  simp [loseLife, h1]

theorem resting_speed (h : Host α) (b : Ball α) (hvx : b.vx = 0) (hvy : b.vy = 0) :
    setBallSpeedForBall h b DEFAULT_BALL_SPEED = { b with speed := DEFAULT_BALL_SPEED } := by
  unfold setBallSpeedForBall
  dsimp only
  split
  · rfl
  · simp [hvx, hvy]

theorem loseLife_reset (h : Host α) (g : Game α) (hl : 2 ≤ g.lives) :
    loseLife h g =
      .done { g with
        lives := g.lives - 1
        balls := [restingBall (defaultPaddle h g.paddle)]
        powerUps := []
        wideUntil := 0
        slowUntil := 0
        paddle := defaultPaddle h g.paddle
        started := false } := by
  have h1 : ¬ g.lives - 1 ≤ 0 := by omega
  simp only [loseLife, h1, if_false, resetBallsToOne, clearPowerUpsAndEffects, List.map_cons,
    List.map_nil, resetBallOnPaddle]
  rw [resting_speed h _ rfl rfl]
  rfl

/-- What `update` does on a started state when the ball loop leaves no ball. -/
theorem update_no_ball (h : Host α) (g : Game α) (hs : g.started = true)
    (hdead : (ballPhase h (movePaddle h g)).balls = []) :
    (update h g).state.lives = g.lives - 1 ∧
      (g.lives ≤ 1 →
        (update h g).state.gameOver = true ∧ (update h g).state.paused = true ∧
          (update h g).state.balls = []) ∧
      (2 ≤ g.lives →
        (update h g).ok = true ∧
        (update h g).state.balls = [restingBall (update h g).state.paddle] ∧
          (update h g).state.powerUps = [] ∧ (update h g).state.wideUntil = 0 ∧
          (update h g).state.slowUntil = 0 ∧
          (update h g).state.paddle.w = DEFAULT_PADDLE_W ∧
          (update h g).state.started = false ∧
          (update h g).state.gameOver = g.gameOver ∧
          (update h g).state.paused = g.paused) := by
  have h1 : update h g = loseLife h (ballPhase h (movePaddle h g)) := by
    rw [update_started h g hs, hdead]
    simp
  have h2 := ballPhase_same h (movePaddle h g)
  have h3 : (ballPhase h (movePaddle h g)).lives = g.lives := h2.1
  refine ⟨?_, ?_, ?_⟩
  · rw [h1]
    by_cases hl : g.lives ≤ 1
    · rw [loseLife_over h _ (by rw [h3]; exact hl)]
      simp [Outcome.state, h3]
    · rw [loseLife_reset h _ (by rw [h3]; omega)]
      simp [Outcome.state, h3]
  · intro hl
    rw [h1, loseLife_over h _ (by rw [h3]; exact hl)]
    simp [Outcome.state, hdead]
  · intro hl
    rw [h1, loseLife_reset h _ (by rw [h3]; exact hl)]
    refine ⟨rfl, rfl, rfl, rfl, rfl, rfl, rfl, ?_, ?_⟩
    · exact h2.2.2.2.1
    · exact h2.2.1

theorem clamp_mem (v lo hi : α) (hle : lo ≤ hi) : lo ≤ clamp v lo hi ∧ clamp v lo hi ≤ hi := by
  unfold clamp
  exact ⟨le_max_left _ _, max_le hle (min_le_left _ _)⟩

/-- The clamped coordinate is at least as close to `v` as any point of the
interval. -/
theorem clamp_closest (v lo hi p : α) (h1 : lo ≤ p) (h2 : p ≤ hi) :
    (v - clamp v lo hi) * (v - clamp v lo hi) ≤ (v - p) * (v - p) := by
  unfold clamp
  rcases le_total hi v with h3 | h3
  · rw [min_eq_left h3, max_eq_right (le_trans h1 h2)]
    nlinarith
  · rw [min_eq_right h3]
    rcases le_total lo v with h4 | h4
    · rw [max_eq_right h4]
      nlinarith
    · rw [max_eq_left h4]
      nlinarith

/-- In exact arithmetic the collision test is true exactly when some point of
the rectangle lies within distance `r` of the centre: the clamped point is the
closest point of the rectangle. -/
theorem circleRect_closest_point (cx cy r rx ry rw rh : α) (hw : 0 ≤ rw) (hh : 0 ≤ rh) :
    circleRectCollision cx cy r rx ry rw rh = true ↔
      ∃ px py : α, rx ≤ px ∧ px ≤ rx + rw ∧ ry ≤ py ∧ py ≤ ry + rh ∧
        (cx - px) * (cx - px) + (cy - py) * (cy - py) ≤ r * r := by
  constructor
  · intro hc
    have hx := clamp_mem cx rx (rx + rw) (by linarith)
    have hy := clamp_mem cy ry (ry + rh) (by linarith)
    refine ⟨clamp cx rx (rx + rw), clamp cy ry (ry + rh), hx.1, hx.2, hy.1, hy.2, ?_⟩
    simpa [circleRectCollision] using hc
  · rintro ⟨px, py, h1, h2, h3, h4, h5⟩
    have hx := clamp_closest cx rx (rx + rw) px h1 h2
    have hy := clamp_closest cy ry (ry + rh) py h3 h4
    simp only [circleRectCollision, decide_eq_true_eq]
    linarith

/-- A ball whose upper edge is below the last row of bricks overlaps no brick. -/
theorem no_brick_below (b : Ball α) (r c : Nat) (hr : r < bricksRows) (h0 : 0 ≤ b.r)
    (hlow : 256 + b.r < b.y) : ballHitsBrick b r c = false := by
  have h1 : (r : α) ≤ 6 := by
    have : r ≤ 6 := by unfold bricksRows at hr; omega
    exact_mod_cast this
  have h2 := clamp_mem b.y (brickY r) (brickY r + bricksH) (by unfold bricksH; linarith)
  have h3 : brickY r + bricksH ≤ (256 : α) := by
    unfold brickY bricksTop bricksH bricksPad
    linarith
  have h4 : b.r < b.y - clamp b.y (brickY r) (brickY r + bricksH) := by linarith [h2.2]
  have h5 : b.r * b.r <
      (b.y - clamp b.y (brickY r) (brickY r + bricksH)) *
        (b.y - clamp b.y (brickY r) (brickY r + bricksH)) := by nlinarith
  simp only [ballHitsBrick, circleRectCollision, decide_eq_false_iff_not, not_le]
  nlinarith [mul_self_nonneg (b.x - clamp b.x (brickX c) (brickX c + bricksW))]

/-- A live ball that stays in play below the bricks goes through its turn
without touching the globals. -/
theorem stepBall_below (h : Host α) (g : Game α) (b : Ball α) (ha : b.alive = true)
    (hx : exitsBottom h (moveAndWalls h b) = false) (h0 : 0 ≤ (resolved h g b).r)
    (hlow : 256 + (resolved h g b).r < (resolved h g b).y) :
    stepBall h g b = (g, resolved h g b) := by
  rw [stepBall_eq h g b ha hx, List.find?_eq_none.2]
  intro p hp
  have h1 := no_brick_below (resolved h g b) p.1 p.2 ((mem_cells p).1 hp).1 h0 hlow
  simp [liveHit, h1]

/-- With no power-up falling and no slow-down running, the phases after the ball
loop leave the balls alone. -/
theorem quiet_tail_balls (h : Host α) (g : Game α) (hp : g.powerUps = [])
    (hslow : g.slowUntil = 0) :
    (expireEffects h (powerUpPhase h (winCheck g))).balls = g.balls := by
  have h1 : (winCheck g).powerUps = [] ∧ (winCheck g).slowUntil = 0 ∧
      (winCheck g).balls = g.balls := by
    unfold winCheck
    split <;> exact ⟨hp, hslow, rfl⟩
  have h2 : (powerUpPhase h (winCheck g)).slowUntil = 0 ∧
      (powerUpPhase h (winCheck g)).balls = g.balls := by
    simp [powerUpPhase, h1.1, movePowerUps, h1.2.1, h1.2.2]
  unfold expireEffects
  dsimp only
  split_ifs <;> simp_all

/-- C9: a ball that clips the left corner of the paddle takes the paddle branch
with a hit offset of -12/11, outside [-1, 1], and leaves its turn of the ball
loop with `vx = -6`, beyond `1.1 * speed`. -/
theorem hitPos_outside_unit_interval :
    moveAndWalls demoHost cornerStart = cornerBall ∧
      paddleHit cornerGame.paddle cornerBall = true ∧
      hitPos cornerGame.paddle cornerBall = -(12 / 11) ∧
      hitPos cornerGame.paddle cornerBall < -1 ∧
      (stepBall demoHost cornerGame cornerStart).2.vx = -6 := by
  have hm : moveAndWalls demoHost cornerStart = cornerBall := by
    simp [moveAndWalls, cornerStart, cornerBall, demoHost]
    norm_num
  have h1 : paddleHit cornerGame.paddle cornerBall = true := by
    norm_num [paddleHit, circleRectCollision, clamp, cornerGame, demoGame, cornerBall]
  have hx : exitsBottom demoHost (moveAndWalls demoHost cornerStart) = false := by
    rw [hm]
    norm_num [exitsBottom, cornerBall, demoHost]
  have hr : resolved demoHost cornerGame cornerStart =
      { cornerBall with y := 602, vy := -4, vx := -6 } := by
    rw [resolved, hm, paddleStep, if_pos h1]
    norm_num [paddleBounce, hitPos, clamp, cornerGame, demoGame, cornerBall]
  refine ⟨hm, h1, ?_, ?_, ?_⟩
  · norm_num [hitPos, cornerGame, demoGame, cornerBall]
  · norm_num [hitPos, cornerGame, demoGame, cornerBall]
  · rw [stepBall_below demoHost cornerGame cornerStart rfl hx, hr]
    · rw [hr]; norm_num [cornerBall]
    · rw [hr]; norm_num [cornerBall]

theorem demo_movePaddle (lives : Int) (over : Bool) (grid : Nat → Nat → Bool)
    (balls : List (Ball ℚ)) :
    movePaddle demoHost (demoGame lives over grid balls) = demoGame lives over grid balls := by
  simp [movePaddle, demoGame, clamp, demoHost]
  norm_num

theorem lowBall_step (g : Game ℚ) (hg : g.paddle = lowGame.paddle) :
    stepBall demoHost g lowBall = (g, { lowBall with y := 635 }) := by
  have hm : moveAndWalls demoHost lowBall = { lowBall with y := 635 } := by
    simp [moveAndWalls, lowBall, demoHost]
    norm_num
  have hx : exitsBottom demoHost (moveAndWalls demoHost lowBall) = false := by
    rw [hm]
    norm_num [exitsBottom, lowBall, demoHost]
  have hp : resolved demoHost g lowBall = { lowBall with y := 635 } := by
    rw [resolved, hm, hg, paddleStep, if_neg]
    norm_num [paddleHit, circleRectCollision, clamp, lowGame, demoGame, lowBall]
  rw [← hp]
  apply stepBall_below demoHost g lowBall rfl hx
  · rw [hp]; norm_num [lowBall]
  · rw [hp]; norm_num [lowBall]

/-- A ball at `y = 635` with radius 7 on a canvas of height 640 has its lower edge
past the bottom, yet its turn leaves it alive and it is still in the collection
after the tick. -/
theorem low_ball_survives :
    (moveAndWalls demoHost lowBall).y + (moveAndWalls demoHost lowBall).r > demoHost.height ∧
      (stepBall demoHost lowGame lowBall).2.alive = true ∧
      (update demoHost lowGame).state.balls = [{ lowBall with y := 635 }] := by
  refine ⟨?_, ?_, ?_⟩
  · norm_num [moveAndWalls, lowBall, demoHost]
  · rw [lowBall_step lowGame rfl]; rfl
  · have hmb : moveBalls demoHost lowGame [lowBall] = (lowGame, [{ lowBall with y := 635 }]) := by
      rw [moveBalls_cons, lowBall_step lowGame rfl]
      rfl
    have hb : ballPhase demoHost lowGame = { lowGame with balls := [{ lowBall with y := 635 }] } := by
      show ({ (moveBalls demoHost lowGame [lowBall]).1 with
        balls := (moveBalls demoHost lowGame [lowBall]).2.filter (fun b => b.alive) } : Game ℚ) = _
      rw [hmb]
      rfl
    rw [update_started _ _ rfl, show movePaddle demoHost lowGame = lowGame from demo_movePaddle _ _ _ _,
      hb]
    rw [if_neg (by simp)]
    have hq := quiet_tail_balls demoHost
      ({ lowGame with balls := [{ lowBall with y := 635 }] } : Game ℚ) rfl rfl
    rw [Outcome.state, hq]

/-- C10 (amended): in a tick on a started state, a live ball whose upper edge
`y - r` is past the bottom of the canvas after integration and wall resolution
is marked dead; its turn applies no paddle and no brick check (the globals and
the rest of the ball are left as they were), and the pruning pass keeps only
what the other balls' turns leave alive. -/
theorem bottom_exit (h : Host α) (g : Game α) (pre post : List (Ball α)) (b : Ball α)
    (hs : g.started = true) (hb : g.balls = pre ++ b :: post) (ha : b.alive = true)
    (hx : (moveAndWalls h b).y - (moveAndWalls h b).r > h.height) :
    (∀ g1 : Game α, stepBall h g1 b = (g1, { moveAndWalls h b with alive := false })) ∧
      (update h g =
        if (ballPhase h (movePaddle h g)).balls.length = 0 then
          loseLife h (ballPhase h (movePaddle h g))
        else
          .done (expireEffects h (powerUpPhase h (winCheck (ballPhase h (movePaddle h g)))))) ∧
      (ballPhase h (movePaddle h g)).balls =
        (moveBalls h (movePaddle h g) pre).2.filter (fun b => b.alive) ++
          (moveBalls h (moveBalls h (movePaddle h g) pre).1 post).2.filter (fun b => b.alive) := by
  have hx2 : exitsBottom h (moveAndWalls h b) = true := by
    simpa [exitsBottom] using hx
  refine ⟨fun g1 => stepBall_exit h g1 b ha hx2, update_started h g hs, ?_⟩
  have h1 : (movePaddle h g).balls = pre ++ b :: post := hb
  rw [ballPhase_eq, h1, moveBalls_append, moveBalls_cons, stepBall_exit h _ b ha hx2]
  simp

theorem fallingBall_exits : (moveAndWalls demoHost fallingBall).y -
    (moveAndWalls demoHost fallingBall).r > demoHost.height := by
  norm_num [moveAndWalls, fallingBall, demoHost]

theorem fallingBall_alone (lives : Int) (over : Bool) :
    (ballPhase demoHost
      (movePaddle demoHost (demoGame lives over (fun _ _ => true) [fallingBall]))).balls = [] := by
  have hx : exitsBottom demoHost (moveAndWalls demoHost fallingBall) = true := by
    simpa [exitsBottom] using fallingBall_exits
  rw [demo_movePaddle, ballPhase_eq]
  show List.filter _ (moveBalls demoHost _ [fallingBall]).2 = []
  rw [moveBalls_cons, stepBall_exit demoHost _ fallingBall rfl hx]
  rfl

/-- A single ball that has fallen below the canvas is pruned. -/
theorem bottom_exit_witness :
    (demoGame 3 false (fun _ _ => true) [fallingBall]).started = true ∧
      fallingBall.alive = true ∧
      (moveAndWalls demoHost fallingBall).y - (moveAndWalls demoHost fallingBall).r >
        demoHost.height ∧
      (ballPhase demoHost
        (movePaddle demoHost (demoGame 3 false (fun _ _ => true) [fallingBall]))).balls = [] := by
  refine ⟨rfl, rfl, fallingBall_exits, ?_⟩
  rw [(bottom_exit demoHost (demoGame 3 false (fun _ _ => true) [fallingBall]) [] [] fallingBall
    rfl rfl rfl fallingBall_exits).2.2]
  rfl

/-- Losing the only ball with two lives left leaves the score at 0. -/
theorem empty_tick_keeps_board_witness :
    (demoGame 2 false (fun _ _ => true) [fallingBall]).started = true ∧
      (ballPhase demoHost
        (movePaddle demoHost (demoGame 2 false (fun _ _ => true) [fallingBall]))).balls = [] ∧
      (update demoHost (demoGame 2 false (fun _ _ => true) [fallingBall])).state.score = 0 :=
  ⟨rfl, fallingBall_alone 2 false,
    (empty_tick_keeps_board demoHost _ rfl (fallingBall_alone 2 false)).2.1⟩

theorem cells_head : cells = (0, 0) :: cells.tail := rfl

/-- If the ball overlaps the live top-left brick, that is the brick the scan
finds. -/
theorem find_top_left (P : Nat × Nat → Bool) (hP : P (0, 0) = true) :
    cells.find? P = some (0, 0) := by
  rw [cells_head, List.find?_cons_of_pos _ hP]

theorem gapBall_resolved (g : Game ℚ) (hg : g.paddle = gapGame.paddle) :
    resolved demoHost g gapBall = { gapBall with y := 92 } := by
  have hm : moveAndWalls demoHost gapBall = { gapBall with y := 92 } := by
    simp [moveAndWalls, gapBall, demoHost]
    norm_num
  rw [resolved, hm, hg, paddleStep, if_neg]
  norm_num [paddleHit, gapBall]

theorem gapBall_stays : exitsBottom demoHost (moveAndWalls demoHost gapBall) = false := by
  norm_num [exitsBottom, moveAndWalls, gapBall, demoHost]

/-- A ball that overlaps the first two bricks of the top row destroys the first
one only: after its scan brick (0, 0) is dead, brick (0, 1) is alive, and one
brick less is standing. -/
theorem single_hit_per_tick_witness :
    gapGame.started = true ∧ gapGame.balls = [] ++ gapBall :: [] ∧ gapBall.alive = true ∧
      exitsBottom demoHost (moveAndWalls demoHost gapBall) = false ∧
      liveHit gapGame (resolved demoHost gapGame gapBall) (0, 0) = true ∧
      liveHit gapGame (resolved demoHost gapGame gapBall) (0, 1) = true ∧
      (stepBall demoHost gapGame gapBall).1.grid = killBrick gapGame.grid 0 0 ∧
      (stepBall demoHost gapGame gapBall).1.grid 0 0 = false ∧
      (stepBall demoHost gapGame gapBall).1.grid 0 1 = true ∧
      remainingBricks (stepBall demoHost gapGame gapBall).1 + 1 = remainingBricks gapGame ∧
      remainingBricks (update demoHost gapGame).state ≤ remainingBricks gapGame := by
  have h00 : liveHit gapGame (resolved demoHost gapGame gapBall) (0, 0) = true := by
    rw [gapBall_resolved gapGame rfl]
    norm_num [liveHit, gapGame, demoGame, ballHitsBrick, circleRectCollision, clamp, brickX, brickY,
      bricksLeft, bricksTop, bricksW, bricksH, bricksPad, gapBall]
  have h01 : liveHit gapGame (resolved demoHost gapGame gapBall) (0, 1) = true := by
    rw [gapBall_resolved gapGame rfl]
    norm_num [liveHit, gapGame, demoGame, ballHitsBrick, circleRectCollision, clamp, brickX, brickY,
      bricksLeft, bricksTop, bricksW, bricksH, bricksPad, gapBall]
  have hmp : movePaddle demoHost gapGame = gapGame := demo_movePaddle _ _ _ _
  have hthm := single_hit_per_tick demoHost gapGame [] [] gapBall rfl rfl rfl gapBall_stays
  have h3 := hthm.2.2.1
  simp only [moveBalls, hmp] at h3
  obtain ⟨p0, _, _, hfirst, hgrid, _, _, hdead, hrest, hcount⟩ := h3 ⟨(0, 0), by decide, h00⟩
  have hp0 : p0 = (0, 0) := by
    rcases hfirst (0, 0) (by decide) h00 with h4 | ⟨h4, h5⟩
    · exact absurd h4 (Nat.not_lt_zero _)
    · exact Prod.ext h4 (Nat.le_zero.1 h5)
  subst hp0
  refine ⟨rfl, rfl, rfl, gapBall_stays, h00, h01, hgrid, hdead, ?_, hcount, hthm.2.2.2.1⟩
  rw [hrest 0 1 (by decide)]
  rfl

theorem lastGame_cleared : remainingBricks (update demoHost lastGame).state = 0 := by
  have hm : moveAndWalls demoHost lastBall = { lastBall with y := 93 } := by
    simp [moveAndWalls, lastBall, demoHost]
    norm_num
  have hx : exitsBottom demoHost (moveAndWalls demoHost lastBall) = false := by
    norm_num [exitsBottom, moveAndWalls, lastBall, demoHost]
  have hr : resolved demoHost lastGame lastBall = { lastBall with y := 93 } := by
    rw [resolved, hm, paddleStep, if_neg]
    norm_num [paddleHit, lastBall]
  have h00 : liveHit lastGame (resolved demoHost lastGame lastBall) (0, 0) = true := by
    rw [hr]
    norm_num [liveHit, lastGame, demoGame, ballHitsBrick, circleRectCollision, clamp, brickX,
      brickY, bricksLeft, bricksTop, bricksW, bricksH, bricksPad, lastBall]
  have hstep : (stepBall demoHost lastGame lastBall).1.grid = killBrick lastGame.grid 0 0 := by
    rw [stepBall_eq demoHost lastGame lastBall rfl hx, find_top_left _ h00]
    exact destroyAt_grid demoHost lastGame 0 0
  have hboard := update_board demoHost lastGame rfl
  rw [remainingBricks_eq, hboard.grid, show movePaddle demoHost lastGame = lastGame from
    demo_movePaddle _ _ _ _]
  show liveCount (stepBall demoHost lastGame lastBall).1.grid cells = 0
  rw [hstep]
  decide

/-- Hitting the only brick left ends the game. -/
theorem win_on_last_brick_witness :
    lastGame.started = true ∧ 1 ≤ remainingBricks lastGame ∧
      remainingBricks (update demoHost lastGame).state = 0 ∧
      (update demoHost lastGame).state.gameOver = true ∧
      (update demoHost lastGame).state.paused = true :=
  ⟨rfl, by decide, lastGame_cleared,
    (win_on_last_brick demoHost lastGame rfl (by decide) lastGame_cleared).2⟩

theorem paddleOK_clamp (h : Host α) (p : Paddle α) (hW : 170 ≤ h.width)
    (hw : p.w = DEFAULT_PADDLE_W ∨ p.w = WIDE_PADDLE_W) (v : α) :
    PaddleOK h { p with x := clamp v 0 (h.width - p.w) } := by
  have h1 : (0 : α) ≤ h.width - p.w := by
    rcases hw with h2 | h2 <;> rw [h2] <;> simp only [DEFAULT_PADDLE_W, WIDE_PADDLE_W] <;>
      linarith
  exact ⟨hw, (clamp_mem v 0 _ h1).1, (clamp_mem v 0 _ h1).2⟩

theorem movePaddle_paddleOK (h : Host α) (g : Game α) (hW : 170 ≤ h.width)
    (hw : g.paddle.w = DEFAULT_PADDLE_W ∨ g.paddle.w = WIDE_PADDLE_W) :
    PaddleOK h (movePaddle h g).paddle :=
  paddleOK_clamp h _ hW hw _

theorem applyPowerUp_paddleOK (h : Host α) (t : Option PType) (g : Game α) (hW : 170 ≤ h.width)
    (hp : PaddleOK h g.paddle) : PaddleOK h (applyPowerUp h t g).paddle := by
  unfold applyPowerUp
  dsimp only
  split
  · exact paddleOK_clamp h { g.paddle with w := WIDE_PADDLE_W } hW (Or.inr rfl) _
  · exact hp
  · exact hp
  · split
    · exact hp
    · rw [multi_range]
      exact hp
  · exact hp

theorem stepPowerUp_paddleOK (h : Host α) (g : Game α) (p : PowerUp α) (hW : 170 ≤ h.width)
    (hp : PaddleOK h g.paddle) : PaddleOK h (stepPowerUp h g p).1.paddle := by
  unfold stepPowerUp
  dsimp only
  split
  · exact hp
  · split
    · exact applyPowerUp_paddleOK h _ g hW hp
    · exact hp

theorem movePowerUps_paddleOK (h : Host α) (ps : List (PowerUp α)) (g : Game α)
    (hW : 170 ≤ h.width) (hp : PaddleOK h g.paddle) :
    PaddleOK h (movePowerUps h g ps).1.paddle := by
  induction ps generalizing g with
  | nil => exact hp
  | cons p ps ih => exact ih _ (stepPowerUp_paddleOK h g p hW hp)

theorem powerUpPhase_paddleOK (h : Host α) (g : Game α) (hW : 170 ≤ h.width)
    (hp : PaddleOK h g.paddle) : PaddleOK h (powerUpPhase h g).paddle :=
  movePowerUps_paddleOK h g.powerUps g hW hp

theorem expireEffects_paddleOK (h : Host α) (g : Game α) (hW : 170 ≤ h.width)
    (hp : PaddleOK h g.paddle) : PaddleOK h (expireEffects h g).paddle := by
  unfold expireEffects
  dsimp only
  split_ifs
  · exact paddleOK_clamp h { g.paddle with w := DEFAULT_PADDLE_W } hW (Or.inl rfl) _
  · exact paddleOK_clamp h { g.paddle with w := DEFAULT_PADDLE_W } hW (Or.inl rfl) _
  · exact hp
  · exact hp

theorem winCheck_paddle (g : Game α) : (winCheck g).paddle = g.paddle := by
  unfold winCheck
  split <;> rfl

theorem resetBallOnPaddle_paddle (g : Game α) :
    (resetBallOnPaddle g).state.paddle = g.paddle := by
  unfold resetBallOnPaddle
  split <;> rfl

theorem defaultPaddle_OK (h : Host α) (p : Paddle α) (hW : 170 ≤ h.width) :
    PaddleOK h (defaultPaddle h p) :=
  paddleOK_clamp h { p with w := DEFAULT_PADDLE_W } hW (Or.inl rfl) _

theorem loseLife_paddleOK (h : Host α) (g : Game α) (hW : 170 ≤ h.width)
    (hp : PaddleOK h g.paddle) : PaddleOK h (loseLife h g).state.paddle := by
  by_cases hl : g.lives ≤ 1
  · rw [loseLife_over h g hl]
    exact hp
  · rw [loseLife_reset h g (by omega)]
    exact defaultPaddle_OK h g.paddle hW

theorem update_paddleOK (h : Host α) (g : Game α) (hW : 170 ≤ h.width)
    (hw : g.paddle.w = DEFAULT_PADDLE_W ∨ g.paddle.w = WIDE_PADDLE_W) :
    PaddleOK h (update h g).state.paddle := by
  have h1 := movePaddle_paddleOK h g hW hw
  by_cases hs : g.started = true
  · rw [update_started h g hs]
    have h2 : PaddleOK h (ballPhase h (movePaddle h g)).paddle := by
      rw [(ballPhase_same h (movePaddle h g)).2.2.2.2.1]
      exact h1
    split
    · exact loseLife_paddleOK h _ hW h2
    · apply expireEffects_paddleOK h _ hW
      apply powerUpPhase_paddleOK h _ hW
      rw [winCheck_paddle]
      exact h2
  · have hs2 : g.started = false := by simpa using hs
    rw [update_not_started h g hs2, resetBallOnPaddle_paddle]
    exact h1

theorem fullReset_eq (h : Host α) (g : Game α) :
    fullReset h g =
      .done { g with
        score := 0
        lives := 3
        paused := false
        started := false
        gameOver := false
        paddle :=
          { g.paddle with
            w := DEFAULT_PADDLE_W
            x := clamp ((h.width - DEFAULT_PADDLE_W) / 2) 0 (h.width - DEFAULT_PADDLE_W)
            dx := 0 }
        grid := fun _ _ => true
        balls :=
          [restingBall
            { g.paddle with
              w := DEFAULT_PADDLE_W
              x := clamp ((h.width - DEFAULT_PADDLE_W) / 2) 0 (h.width - DEFAULT_PADDLE_W)
              dx := 0 }]
        powerUps := []
        wideUntil := 0
        slowUntil := 0 } := by
  simp only [fullReset, resetBricks, resetBallsToOne, clearPowerUpsAndEffects, List.map_cons,
    List.map_nil, resetBallOnPaddle]
  rw [resting_speed h _ rfl rfl]
  rfl

theorem fullReset_paddleOK (h : Host α) (g : Game α) (hW : 170 ≤ h.width) :
    PaddleOK h (fullReset h g).state.paddle := by
  rw [fullReset_eq]
  exact paddleOK_clamp h { g.paddle with w := DEFAULT_PADDLE_W, dx := 0 } hW (Or.inl rfl) _

theorem launchBalls_paddle (h : Host α) (g : Game α) :
    (launchBalls h g).state.paddle = g.paddle := by
  unfold launchBalls
  dsimp only
  split
  · rfl
  · split <;> rfl

/-- A property of the globals that survives a change of `keys`, a launch, a
pause toggle and a full reset survives the `keydown` listener. -/
theorem keydown_preserves (P : Game α → Prop) (h : Host α) (e : KeyEvent) (g : Game α)
    (hkeys : ∀ (g1 : Game α) (ks : List String), P g1 → P { g1 with keys := ks })
    (hlaunch : ∀ g1 : Game α, P g1 → P (launchBalls h g1).state)
    (hpause : ∀ g1 : Game α, P g1 → P { g1 with paused := !g1.paused })
    (hreset : ∀ g1 : Game α, P g1 → P (fullReset h g1).state)
    (hg : P g) : P (keydown h e g).state := by
  have h0 : P { g with keys := if e.key.toLower ∈ g.keys then g.keys
      else g.keys ++ [e.key.toLower] } := hkeys g _ hg
  unfold keydown
  dsimp only
  generalize ({ g with keys := if e.key.toLower ∈ g.keys then g.keys
      else g.keys ++ [e.key.toLower] } : Game α) = g0 at h0
  unfold handleKey
  dsimp only
  split_ifs with h1 h2 h3 h4 h5
  · exact h0
  · have h6 := hlaunch g0 h0
    cases hl : launchBalls h g0 with
    | done g1 => rw [hl] at h6; exact hreset g1 h6
    | threw g1 => rw [hl] at h6; exact h6
  · have h6 := hlaunch g0 h0
    cases hl : launchBalls h g0 with
    | done g1 => rw [hl] at h6; exact h6
    | threw g1 => rw [hl] at h6; exact h6
  · exact hreset _ (hpause g0 h0)
  · exact hpause g0 h0
  · exact hreset g0 h0
  · exact h0

theorem restingBall_ok (h : Host α) (p : Paddle α) (hH : 7 ≤ h.height - 30 - 7 - 1)
    (hp : PaddleOK h p) (hy : p.y = h.height - 30) :
    (restingBall p).r = 7 ∧ BallInBounds h (restingBall p) := by
  obtain ⟨hw, h0, h1⟩ := hp
  refine ⟨rfl, ?_, ?_, ?_⟩
  · show (7 : α) ≤ p.x + p.w / 2
    rcases hw with h2 | h2 <;> rw [h2] <;> simp only [DEFAULT_PADDLE_W, WIDE_PADDLE_W] <;>
      linarith
  · show p.x + p.w / 2 ≤ h.width - 7
    rcases hw with h2 | h2 <;> rw [h2] at h1 ⊢ <;>
      simp only [DEFAULT_PADDLE_W, WIDE_PADDLE_W] at h1 ⊢ <;> linarith
  · show (7 : α) ≤ p.y - 7 - 1
    rw [hy]
    exact hH

theorem resetBallOnPaddle_ballsInv (h : Host α) (g : Game α) (hH : 7 ≤ h.height - 30 - 7 - 1)
    (hp : PaddleOK h g.paddle) (hb : BallsInv h g) : BallsInv h (resetBallOnPaddle g).state := by
  obtain ⟨hy, hbs⟩ := hb
  unfold resetBallOnPaddle
  split
  · exact ⟨hy, hbs⟩
  · rename_i b rest hbr
    refine ⟨hy, ?_⟩
    intro b1 hb1
    rw [hbr] at hbs
    rcases List.mem_cons.1 hb1 with h1 | h1
    · have hr : b.r = 7 := (hbs b (List.mem_cons_self _ _)).1
      have h2 := restingBall_ok h g.paddle hH hp hy
      rw [h1]
      refine ⟨hr, ?_, ?_, ?_⟩
      · show b.r ≤ g.paddle.x + g.paddle.w / 2
        rw [hr]; exact h2.2.1
      · show g.paddle.x + g.paddle.w / 2 ≤ h.width - b.r
        rw [hr]; exact h2.2.2.1
      · show b.r ≤ g.paddle.y - b.r - 1
        rw [hr]; exact h2.2.2.2
    · exact hbs b1 (List.mem_cons_of_mem _ h1)

theorem moveAndWalls_ok (h : Host α) (b : Ball α) (hW : 170 ≤ h.width) (hr : b.r = 7) :
    (moveAndWalls h b).r = 7 ∧ BallInBounds h (moveAndWalls h b) := by
  unfold moveAndWalls BallInBounds
  dsimp only
  split_ifs <;> simp_all <;> (try constructor) <;> (try constructor) <;> linarith

theorem paddleStep_ok (h : Host α) (p : Paddle α) (b : Ball α)
    (hH : 7 ≤ h.height - 30 - 7 - 1) (hy : p.y = h.height - 30)
    (hb : b.r = 7 ∧ BallInBounds h b) : (paddleStep p b).r = 7 ∧ BallInBounds h (paddleStep p b) := by
  unfold paddleStep
  split
  · obtain ⟨hr, h1, h2, _⟩ := hb
    refine ⟨hr, h1, h2, ?_⟩
    show b.r ≤ p.y - b.r - 1
    rw [hr, hy]
    exact hH
  · exact hb

theorem stepBall_ok (h : Host α) (g : Game α) (b : Ball α) (hW : 170 ≤ h.width)
    (hH : 7 ≤ h.height - 30 - 7 - 1) (hy : g.paddle.y = h.height - 30) (hr : b.r = 7)
    (hlive : (stepBall h g b).2.alive = true) :
    (stepBall h g b).2.r = 7 ∧ BallInBounds h (stepBall h g b).2 := by
  by_cases ha : b.alive = true
  · by_cases hx : exitsBottom h (moveAndWalls h b) = true
    · rw [stepBall_exit h g b ha hx] at hlive
      exact absurd hlive (by simp)
    · have hx2 : exitsBottom h (moveAndWalls h b) = false := by simpa using hx
      have h1 : (resolved h g b).r = 7 ∧ BallInBounds h (resolved h g b) :=
        paddleStep_ok h g.paddle _ hH hy (moveAndWalls_ok h b hW hr)
      rw [stepBall_eq h g b ha hx2]
      cases cells.find? (liveHit g (resolved h g b)) with
      | none => exact h1
      | some p => exact h1
  · have ha2 : b.alive = false := by simpa using ha
    rw [stepBall_dead h g b ha2] at hlive
    exact absurd hlive (by simp [ha2])

theorem moveBalls_ok (h : Host α) (bs : List (Ball α)) (g : Game α) (hW : 170 ≤ h.width)
    (hH : 7 ≤ h.height - 30 - 7 - 1) (hy : g.paddle.y = h.height - 30)
    (hr : ∀ b ∈ bs, b.r = 7) :
    ∀ b1 ∈ (moveBalls h g bs).2, b1.alive = true → b1.r = 7 ∧ BallInBounds h b1 := by
  induction bs generalizing g with
  | nil => intro b1 hb1; simp [moveBalls] at hb1
  | cons b bs ih =>
    intro b1 hb1 hlive
    rw [moveBalls_cons] at hb1
    rcases List.mem_cons.1 hb1 with h1 | h1
    · rw [h1] at hlive ⊢
      exact stepBall_ok h g b hW hH hy (hr b (List.mem_cons_self _ _)) hlive
    · have hy2 : (stepBall h g b).1.paddle.y = h.height - 30 := by
        rw [(stepBall_same h g b).paddle]
        exact hy
      exact ih _ hy2 (fun b2 hb2 => hr b2 (List.mem_cons_of_mem _ hb2)) b1 h1 hlive

theorem ballPhase_ballsInv (h : Host α) (g : Game α) (hW : 170 ≤ h.width)
    (hH : 7 ≤ h.height - 30 - 7 - 1) (hb : BallsInv h g) : BallsInv h (ballPhase h g) := by
  obtain ⟨hy, hbs⟩ := hb
  refine ⟨?_, ?_⟩
  · rw [(ballPhase_same h g).2.2.2.2.1]
    exact hy
  · intro b1 hb1
    have h1 : b1 ∈ (moveBalls h g g.balls).2.filter (fun b => b.alive) := hb1
    rw [List.mem_filter] at h1
    exact moveBalls_ok h g.balls g hW hH hy (fun b hb => (hbs b hb).1) b1 h1.1 h1.2

theorem setBallSpeedForBall_ok (h : Host α) (b : Ball α) (v : α)
    (hb : b.r = 7 ∧ BallInBounds h b) :
    (setBallSpeedForBall h b v).r = 7 ∧ BallInBounds h (setBallSpeedForBall h b v) := by
  unfold setBallSpeedForBall
  dsimp only
  split <;> exact hb

theorem map_speed_ok (h : Host α) (bs : List (Ball α)) (v : α) (hb : BallsOK h bs) :
    BallsOK h (bs.map (fun b => setBallSpeedForBall h b v)) := by
  intro b1 hb1
  obtain ⟨b, hb2, rfl⟩ := List.mem_map.1 hb1
  exact setBallSpeedForBall_ok h b v (hb b hb2)

theorem multiBall_ok (h : Host α) (g : Game α) (ref : Ball α) (i : Nat)
    (hb : ref.r = 7 ∧ BallInBounds h ref) :
    (multiBall h g ref i).r = 7 ∧ BallInBounds h (multiBall h g ref i) := by
  obtain ⟨hr, h1, h2, h3⟩ := hb
  rw [hr] at h1 h2 h3
  have h4 : (multiBall h g ref i).r = 7 ∧ (multiBall h g ref i).x = ref.x ∧
      (multiBall h g ref i).y = ref.y := by
    unfold multiBall
    dsimp only
    split_ifs <;> exact ⟨rfl, rfl, rfl⟩
  unfold BallInBounds
  rw [h4.1, h4.2.1, h4.2.2]
  exact ⟨rfl, h1, h2, h3⟩

theorem applyPowerUp_ballsInv (h : Host α) (t : Option PType) (g : Game α)
    (hb : BallsInv h g) : BallsInv h (applyPowerUp h t g) := by
  obtain ⟨hy, hbs⟩ := hb
  refine ⟨(applyPowerUp_board h t g).paddleY.trans hy, ?_⟩
  unfold applyPowerUp
  dsimp only
  split
  · exact hbs
  · exact map_speed_ok h g.balls _ hbs
  · exact hbs
  · split
    · exact hbs
    · rename_i ref rest hbr
      rw [multi_range]
      have href := hbs ref (by rw [hbr]; exact List.mem_cons_self _ _)
      intro b1 hb1
      simp only [List.foldl_cons, List.foldl_nil, List.mem_append, List.mem_singleton] at hb1
      rcases hb1 with (h1 | h1) | h1
      · exact hbs b1 h1
      · rw [h1]; exact multiBall_ok h _ ref 0 href
      · rw [h1]; exact multiBall_ok h _ ref 1 href
  · exact hbs

theorem stepPowerUp_ballsInv (h : Host α) (g : Game α) (p : PowerUp α) (hb : BallsInv h g) :
    BallsInv h (stepPowerUp h g p).1 := by
  unfold stepPowerUp
  dsimp only
  split
  · exact hb
  · split
    · exact applyPowerUp_ballsInv h _ g hb
    · exact hb

theorem movePowerUps_ballsInv (h : Host α) (ps : List (PowerUp α)) (g : Game α)
    (hb : BallsInv h g) : BallsInv h (movePowerUps h g ps).1 := by
  induction ps generalizing g with
  | nil => exact hb
  | cons p ps ih => exact ih _ (stepPowerUp_ballsInv h g p hb)

theorem powerUpPhase_ballsInv (h : Host α) (g : Game α) (hb : BallsInv h g) :
    BallsInv h (powerUpPhase h g) :=
  movePowerUps_ballsInv h g.powerUps g hb

theorem expireEffects_ballsInv (h : Host α) (g : Game α) (hb : BallsInv h g) :
    BallsInv h (expireEffects h g) := by
  obtain ⟨hy, hbs⟩ := hb
  refine ⟨(expireEffects_board h g).paddleY.trans hy, ?_⟩
  unfold expireEffects
  dsimp only
  split_ifs
  · exact map_speed_ok h g.balls _ hbs
  · exact hbs
  · exact map_speed_ok h g.balls _ hbs
  · exact hbs

theorem winCheck_ballsInv (h : Host α) (g : Game α) (hb : BallsInv h g) :
    BallsInv h (winCheck g) := by
  unfold winCheck
  split <;> exact hb

theorem loseLife_ballsInv (h : Host α) (g : Game α) (hW : 170 ≤ h.width)
    (hH : 7 ≤ h.height - 30 - 7 - 1) (hb : BallsInv h g) : BallsInv h (loseLife h g).state := by
  obtain ⟨hy, hbs⟩ := hb
  by_cases hl : g.lives ≤ 1
  · rw [loseLife_over h g hl]
    exact ⟨hy, hbs⟩
  · rw [loseLife_reset h g (by omega)]
    refine ⟨hy, ?_⟩
    intro b1 hb1
    have h1 : b1 = restingBall (defaultPaddle h g.paddle) := List.mem_singleton.1 hb1
    rw [h1]
    exact restingBall_ok h _ hH (defaultPaddle_OK h g.paddle hW) hy

theorem update_ballsInv (h : Host α) (g : Game α) (hW : 170 ≤ h.width)
    (hH : 7 ≤ h.height - 30 - 7 - 1)
    (hw : g.paddle.w = DEFAULT_PADDLE_W ∨ g.paddle.w = WIDE_PADDLE_W) (hb : BallsInv h g) :
    BallsInv h (update h g).state := by
  have h1 : BallsInv h (movePaddle h g) := hb
  by_cases hs : g.started = true
  · rw [update_started h g hs]
    have h2 := ballPhase_ballsInv h _ hW hH h1
    split
    · exact loseLife_ballsInv h _ hW hH h2
    · exact expireEffects_ballsInv h _ (powerUpPhase_ballsInv h _ (winCheck_ballsInv h _ h2))
  · have hs2 : g.started = false := by simpa using hs
    rw [update_not_started h g hs2]
    exact resetBallOnPaddle_ballsInv h _ hH (movePaddle_paddleOK h g hW hw) h1

theorem fullReset_ballsInv (h : Host α) (g : Game α) (hW : 170 ≤ h.width)
    (hH : 7 ≤ h.height - 30 - 7 - 1) (hy : g.paddle.y = h.height - 30) :
    BallsInv h (fullReset h g).state := by
  have hp := fullReset_paddleOK h g hW
  rw [fullReset_eq] at hp ⊢
  refine ⟨hy, ?_⟩
  intro b1 hb1
  have h1 := List.mem_singleton.1 hb1
  rw [h1]
  exact restingBall_ok h _ hH hp hy

theorem launchBalls_ballsInv (h : Host α) (g : Game α) (hb : BallsInv h g) :
    BallsInv h (launchBalls h g).state := by
  obtain ⟨hy, hbs⟩ := hb
  unfold launchBalls
  dsimp only
  split
  · exact ⟨hy, hbs⟩
  · rename_i b rest hbr
    have hbr2 : g.balls = b :: rest := hbr
    rw [hbr2] at hbs
    split
    · refine ⟨hy, ?_⟩
      intro b1 hb1
      rcases List.mem_cons.1 hb1 with h1 | h1
      · rw [h1]
        exact hbs b (List.mem_cons_self _ _)
      · exact hbs b1 (List.mem_cons_of_mem _ h1)
    · refine ⟨hy, ?_⟩
      show BallsOK h g.balls
      rw [hbr2]
      exact hbs

theorem initGame_boundsInv (h : Host α) (hW : 170 ≤ h.width) (hH : 7 ≤ h.height - 30 - 7 - 1) :
    BoundsInv h (initGame h).state := by
  have hp : PaddleOK h (declaredGame h).paddle := by
    refine ⟨Or.inl rfl, ?_, ?_⟩
    · show (0 : α) ≤ (h.width - DEFAULT_PADDLE_W) / 2
      simp only [DEFAULT_PADDLE_W]
      linarith
    · show (h.width - DEFAULT_PADDLE_W) / 2 ≤ h.width - DEFAULT_PADDLE_W
      simp only [DEFAULT_PADDLE_W]
      linarith
  have h1 : initGame h = .done { declaredGame h with
      grid := fun _ _ => true
      balls := [restingBall (declaredGame h).paddle] } := rfl
  rw [h1]
  refine ⟨hp, rfl, ?_⟩
  intro b1 hb1
  have h2 := List.mem_singleton.1 hb1
  rw [h2]
  exact restingBall_ok h _ hH hp rfl

theorem frame_boundsInv (h : Host α) (g : Game α) (hW : 170 ≤ h.width)
    (hH : 7 ≤ h.height - 30 - 7 - 1) (hi : BoundsInv h g) : BoundsInv h (frame h g).state := by
  unfold frame
  split
  · exact ⟨update_paddleOK h g hW hi.1.1, update_ballsInv h g hW hH hi.1.1 hi.2⟩
  · exact hi

theorem keydown_boundsInv (h : Host α) (e : KeyEvent) (g : Game α) (hW : 170 ≤ h.width)
    (hH : 7 ≤ h.height - 30 - 7 - 1) (hi : BoundsInv h g) :
    BoundsInv h (keydown h e g).state := by
  apply keydown_preserves (BoundsInv h) h e g _ _ _ _ hi
  · intro g1 ks h1; exact h1
  · intro g1 h1
    exact ⟨by rw [launchBalls_paddle]; exact h1.1, launchBalls_ballsInv h g1 h1.2⟩
  · intro g1 h1; exact h1
  · intro g1 h1
    exact ⟨fullReset_paddleOK h g1 hW, fullReset_ballsInv h g1 hW hH h1.2.1⟩

/-- Every reachable state has its paddle on screen and its balls in bounds. -/
theorem reachable_boundsInv (h : Host α) (hW : 170 ≤ h.width) (hH : 7 ≤ h.height - 30 - 7 - 1)
    (g : Game α) (hr : Reachable h g) : BoundsInv h g := by
  induction hr with
  | init => exact initGame_boundsInv h hW hH
  | frame g _ ih => exact frame_boundsInv h g hW hH ih
  | keydown e g _ ih => exact keydown_boundsInv h e g hW hH ih
  | keyup e g _ ih => exact ih

theorem frame_paddleOK (h : Host α) (g : Game α) (hW : 170 ≤ h.width)
    (hp : PaddleOK h g.paddle) : PaddleOK h (frame h g).state.paddle := by
  unfold frame
  split
  · exact update_paddleOK h g hW hp.1
  · exact hp

theorem keydown_paddleOK (h : Host α) (e : KeyEvent) (g : Game α) (hW : 170 ≤ h.width)
    (hp : PaddleOK h g.paddle) : PaddleOK h (keydown h e g).state.paddle := by
  apply keydown_preserves (fun g1 => PaddleOK h g1.paddle) h e g _ _ _ _ hp
  · intro g1 ks h1; exact h1
  · intro g1 h1
    show PaddleOK h (launchBalls h g1).state.paddle
    rw [launchBalls_paddle]
    exact h1
  · intro g1 h1; exact h1
  · intro g1 _
    exact fullReset_paddleOK h g1 hW

theorem initGame_paddleOK (h : Host α) (hW : 170 ≤ h.width) :
    PaddleOK h (initGame h).state.paddle := by
  refine ⟨Or.inl rfl, ?_, ?_⟩
  · show (0 : α) ≤ (h.width - DEFAULT_PADDLE_W) / 2
    simp only [DEFAULT_PADDLE_W]
    linarith
  · show (h.width - DEFAULT_PADDLE_W) / 2 ≤ h.width - DEFAULT_PADDLE_W
    simp only [DEFAULT_PADDLE_W]
    linarith

/-- On a canvas at least as wide as the wide paddle, every reachable state has
its paddle on screen. -/
theorem reachable_paddleOK (h : Host α) (hW : 170 ≤ h.width) (g : Game α)
    (hr : Reachable h g) : PaddleOK h g.paddle := by
  induction hr with
  | init => exact initGame_paddleOK h hW
  | frame g _ ih => exact frame_paddleOK h g hW ih
  | keydown e g _ ih => exact keydown_paddleOK h e g hW ih
  | keyup e g _ ih => exact ih

theorem movePaddle_both_keys (h : Host α) (g : Game α) (hl : "arrowleft" ∈ g.keys)
    (hr : "arrowright" ∈ g.keys) : (movePaddle h g).paddle.dx = 0 := by
  simp [movePaddle, hl, hr]

/-- C6: on a canvas at least 170 wide and tall enough for a ball resting on the
paddle to be a radius below the top, every ball of every reachable state, and
every ball left by a tick from a reachable state, has its centre at least a
radius from the left, right and top edges. -/
theorem ball_bounds (h : Host α) (hW : 170 ≤ h.width) (hH : 7 ≤ h.height - 30 - 7 - 1)
    (g : Game α) (hr : Reachable h g) :
    (∀ b ∈ g.balls, b.r ≤ b.x ∧ b.x ≤ h.width - b.r ∧ b.r ≤ b.y) ∧
      (∀ b ∈ (update h g).state.balls, b.r ≤ b.x ∧ b.x ≤ h.width - b.r ∧ b.r ≤ b.y) := by
  have h1 := reachable_boundsInv h hW hH g hr
  have h2 := update_ballsInv h g hW hH h1.1.1 h1.2
  exact ⟨fun b hb => (h1.2.2 b hb).2, fun b hb => (h2.2 b hb).2⟩

/-- The bounds after a launch and one frame on the demo canvas. -/
theorem ball_bounds_witness :
    (170 : ℚ) ≤ demoHost.width ∧ (7 : ℚ) ≤ demoHost.height - 30 - 7 - 1 ∧
      Reachable demoHost
        (frame demoHost (keydown demoHost ⟨" ", "Space"⟩ (initGame demoHost).state).state).state ∧
      ∀ b ∈ (frame demoHost
          (keydown demoHost ⟨" ", "Space"⟩ (initGame demoHost).state).state).state.balls,
        b.r ≤ b.x ∧ b.x ≤ demoHost.width - b.r ∧ b.r ≤ b.y :=
  ⟨by norm_num [demoHost], by norm_num [demoHost],
    Reachable.frame _ (Reachable.keydown _ _ Reachable.init),
    (ball_bounds demoHost (by norm_num [demoHost]) (by norm_num [demoHost]) _
      (Reachable.frame _ (Reachable.keydown _ _ Reachable.init))).1⟩

/-- C8: on a canvas at least 170 wide, in every reachable state the paddle has
width 110 or 170 and satisfies `0 ≤ x ≤ width - w`; the same holds after a call
of `update` under any set of held keys (both directions held give direction 0),
after any applied power-up, after effect expiry, after the life-loss branch and
after `fullReset`. -/
theorem paddle_on_screen (h : Host α) (hW : 170 ≤ h.width) (g : Game α) (hr : Reachable h g) :
    ((g.paddle.w = 110 ∨ g.paddle.w = 170) ∧ 0 ≤ g.paddle.x ∧
        g.paddle.x ≤ h.width - g.paddle.w) ∧
      (∀ ks : List String, PaddleOK h (update h { g with keys := ks }).state.paddle) ∧
      (∀ ks : List String, "arrowleft" ∈ ks → "arrowright" ∈ ks →
        (movePaddle h { g with keys := ks }).paddle.dx = 0) ∧
      (∀ t : Option PType, PaddleOK h (applyPowerUp h t g).paddle) ∧
      PaddleOK h (expireEffects h g).paddle ∧
      PaddleOK h (loseLife h g).state.paddle ∧
      PaddleOK h (fullReset h g).state.paddle := by
  have h1 := reachable_paddleOK h hW g hr
  refine ⟨h1, ?_, ?_, ?_, ?_, ?_, ?_⟩
  · intro ks
    exact update_paddleOK h { g with keys := ks } hW h1.1
  · intro ks hl hr2
    exact movePaddle_both_keys h { g with keys := ks } hl hr2
  · intro t
    exact applyPowerUp_paddleOK h t g hW h1
  · exact expireEffects_paddleOK h g hW h1
  · exact loseLife_paddleOK h g hW h1
  · exact fullReset_paddleOK h g hW

/-- The paddle after a tick with both arrow keys held, from the start-up state. -/
theorem paddle_on_screen_witness :
    (170 : ℚ) ≤ demoHost.width ∧ Reachable demoHost (initGame demoHost).state ∧
      PaddleOK demoHost
        (update demoHost
          { (initGame demoHost).state with keys := ["arrowleft", "arrowright"] }).state.paddle :=
  ⟨by norm_num [demoHost], Reachable.init,
    (paddle_on_screen demoHost (by norm_num [demoHost]) _ Reachable.init).2.1 _⟩

theorem multiBall_eq (h : Host α) (g : Game α) (ref : Ball α) (i : Nat) :
    multiBall h g ref i = fanBall h ref (if i = 0 then -(7 / 20) else 7 / 20) := by
  unfold multiBall fanBall
  dsimp only
  split_ifs <;> rfl

theorem applyPowerUp_multi_nil (h : Host α) (g : Game α) (hb : g.balls = []) :
    applyPowerUp h (some PType.MULTI) g = { g with nNow := g.nNow + 1 } := by
  simp [applyPowerUp, hb]

theorem applyPowerUp_multi_cons (h : Host α) (g : Game α) (ref : Ball α) (rest : List (Ball α))
    (hb : g.balls = ref :: rest) :
    applyPowerUp h (some PType.MULTI) g =
      { g with
        nNow := g.nNow + 1
        balls := g.balls ++ [fanBall h ref (-(7 / 20)), fanBall h ref (7 / 20)] } := by
  simp [applyPowerUp, hb, multi_range, multiBall_eq]

/-- C11: `applyPowerUp("MULTI")` on an empty ball collection leaves every global
of the script as it was (only the clock has been read); on a collection whose
first ball is `ref`, with `theta = atan2(ref.vy, ref.vx)` and `s = ref.speed`,
it appends exactly two balls to the unchanged collection, each alive, at the
position of `ref`, with base speed `s`, horizontal velocity
`s * cos(theta - 0.35)` and `s * cos(theta + 0.35)`, and vertical velocity
`s * sin(angle)` with its sign flipped when positive. -/
theorem multiball_fan_out (h : Host α) (g : Game α) :
    (g.balls = [] → applyPowerUp h (some PType.MULTI) g = { g with nNow := g.nNow + 1 }) ∧
      (∀ (ref : Ball α) (rest : List (Ball α)), g.balls = ref :: rest →
        ∃ nb0 nb1 : Ball α,
          applyPowerUp h (some PType.MULTI) g =
              { g with nNow := g.nNow + 1, balls := g.balls ++ [nb0, nb1] } ∧
            (nb0.alive = true ∧ nb0.x = ref.x ∧ nb0.y = ref.y ∧ nb0.speed = ref.speed) ∧
            (nb1.alive = true ∧ nb1.x = ref.x ∧ nb1.y = ref.y ∧ nb1.speed = ref.speed) ∧
            nb0.vx = ref.speed * h.cos (h.atan2 ref.vy ref.vx - 7 / 20) ∧
            nb1.vx = ref.speed * h.cos (h.atan2 ref.vy ref.vx + 7 / 20) ∧
            nb0.vy =
              (if ref.speed * h.sin (h.atan2 ref.vy ref.vx - 7 / 20) > 0 then
                -(ref.speed * h.sin (h.atan2 ref.vy ref.vx - 7 / 20))
              else ref.speed * h.sin (h.atan2 ref.vy ref.vx - 7 / 20)) ∧
            nb1.vy =
              (if ref.speed * h.sin (h.atan2 ref.vy ref.vx + 7 / 20) > 0 then
                -(ref.speed * h.sin (h.atan2 ref.vy ref.vx + 7 / 20))
              else ref.speed * h.sin (h.atan2 ref.vy ref.vx + 7 / 20))) := by
  refine ⟨applyPowerUp_multi_nil h g, ?_⟩
  intro ref rest hb
  refine ⟨fanBall h ref (-(7 / 20)), fanBall h ref (7 / 20),
    applyPowerUp_multi_cons h g ref rest hb, ⟨rfl, rfl, rfl, rfl⟩, ⟨rfl, rfl, rfl, rfl⟩,
    ?_, ?_, ?_, ?_⟩
  · show h.cos (h.atan2 ref.vy ref.vx + -(7 / 20)) * ref.speed = _
    rw [← sub_eq_add_neg, mul_comm]
  · show h.cos (h.atan2 ref.vy ref.vx + 7 / 20) * ref.speed = _
    rw [mul_comm]
  · show (if h.sin (h.atan2 ref.vy ref.vx + -(7 / 20)) * ref.speed > 0 then
        h.sin (h.atan2 ref.vy ref.vx + -(7 / 20)) * ref.speed * -1
      else h.sin (h.atan2 ref.vy ref.vx + -(7 / 20)) * ref.speed) = _
    rw [← sub_eq_add_neg, mul_comm, mul_neg_one]
  · show (if h.sin (h.atan2 ref.vy ref.vx + 7 / 20) * ref.speed > 0 then
        h.sin (h.atan2 ref.vy ref.vx + 7 / 20) * ref.speed * -1
      else h.sin (h.atan2 ref.vy ref.vx + 7 / 20) * ref.speed) = _
    rw [mul_comm, mul_neg_one]

theorem fanBall_vy (h : Host α) (ref : Ball α) (offset : α) :
    (fanBall h ref offset).vy ≤ 0 ∧
      ((fanBall h ref offset).vy < 0 ↔
        h.sin (h.atan2 ref.vy ref.vx + offset) * ref.speed ≠ 0) := by
  show (if h.sin (h.atan2 ref.vy ref.vx + offset) * ref.speed > 0 then
        h.sin (h.atan2 ref.vy ref.vx + offset) * ref.speed * -1
      else h.sin (h.atan2 ref.vy ref.vx + offset) * ref.speed) ≤ 0 ∧
    ((if h.sin (h.atan2 ref.vy ref.vx + offset) * ref.speed > 0 then
        h.sin (h.atan2 ref.vy ref.vx + offset) * ref.speed * -1
      else h.sin (h.atan2 ref.vy ref.vx + offset) * ref.speed) < 0 ↔ _)
  generalize h.sin (h.atan2 ref.vy ref.vx + offset) * ref.speed = v
  split_ifs with hv
  · refine ⟨by linarith, ?_⟩
    constructor
    · intro _; exact ne_of_gt hv
    · intro _; linarith
  · have hv2 : v ≤ 0 := not_lt.1 hv
    refine ⟨hv2, ?_⟩
    constructor
    · intro h1; exact ne_of_lt h1
    · intro h1; exact lt_of_le_of_ne hv2 h1

/-- C12 (amended): each of the two balls that `applyPowerUp("MULTI")` creates
from the reference ball `ref` has a vertical velocity that is at most 0, and it
is strictly negative exactly when `sin(angle) * ref.speed` is not 0: a positive
component is flipped, a zero component stays zero. -/
theorem multiball_upward (h : Host α) (g : Game α) (ref : Ball α) (rest : List (Ball α))
    (hb : g.balls = ref :: rest) :
    (applyPowerUp h (some PType.MULTI) g).balls =
        g.balls ++ [fanBall h ref (-(7 / 20)), fanBall h ref (7 / 20)] ∧
      (fanBall h ref (-(7 / 20))).vy ≤ 0 ∧ (fanBall h ref (7 / 20)).vy ≤ 0 ∧
      ((fanBall h ref (-(7 / 20))).vy < 0 ↔
        h.sin (h.atan2 ref.vy ref.vx + -(7 / 20)) * ref.speed ≠ 0) ∧
      ((fanBall h ref (7 / 20)).vy < 0 ↔
        h.sin (h.atan2 ref.vy ref.vx + 7 / 20) * ref.speed ≠ 0) := by
  refine ⟨?_, (fanBall_vy h ref _).1, (fanBall_vy h ref _).1, (fanBall_vy h ref _).2,
    (fanBall_vy h ref _).2⟩
  rw [applyPowerUp_multi_cons h g ref rest hb]

theorem realHost_atan2_polar (width height : ℝ) (random now : Nat → ℝ) (s θ : ℝ) (hs : 0 < s)
    (hθ : θ ∈ Set.Ioc (-Real.pi) Real.pi) :
    (realHost width height random now).atan2 (s * Real.sin θ) (s * Real.cos θ) = θ := by
  show Complex.arg ⟨s * Real.cos θ, s * Real.sin θ⟩ = θ
  have h1 : (⟨s * Real.cos θ, s * Real.sin θ⟩ : ℂ) =
      (s : ℂ) * (Complex.cos θ + Complex.sin θ * Complex.I) := by
    apply Complex.ext
    · simp [← Complex.ofReal_cos, ← Complex.ofReal_sin]
    · simp [← Complex.ofReal_cos, ← Complex.ofReal_sin]
  rw [h1, Complex.arg_mul_cos_add_sin_mul_I hs hθ]

/-- A reference ball travelling at the angle 0.35 yields a first new ball whose
vertical velocity is exactly 0, not negative. -/
theorem multiball_level_counterexample :
    0 < levelRef.speed ∧
      (applyPowerUp (realDemo 0) (some PType.MULTI)
          (({ score := 0, lives := 3, paused := false, started := true, gameOver := false,
              paddle := { w := 110, h := 14, x := 185, y := 610, speed := 7, dx := 0 },
              balls := [levelRef], grid := fun _ _ => true, powerUps := [], wideUntil := 0,
              slowUntil := 0, keys := [], nRandom := 0, nNow := 0 } : Game ℝ))).balls =
        [levelRef, fanBall (realDemo 0) levelRef (-(7 / 20)),
          fanBall (realDemo 0) levelRef (7 / 20)] ∧
      (fanBall (realDemo 0) levelRef (-(7 / 20))).vy = 0 ∧
      ¬ (fanBall (realDemo 0) levelRef (-(7 / 20))).vy < 0 := by
  have hpi : (7 / 20 : ℝ) ∈ Set.Ioc (-Real.pi) Real.pi := by
    constructor <;> linarith [Real.pi_gt_three]
  have hat : (realDemo 0).atan2 levelRef.vy levelRef.vx = 7 / 20 :=
    realHost_atan2_polar 480 640 _ _ 5 (7 / 20) (by norm_num) hpi
  have hsin : (realDemo 0).sin ((realDemo 0).atan2 levelRef.vy levelRef.vx + -(7 / 20)) = 0 := by
    rw [hat, add_neg_cancel]
    exact Real.sin_zero
  have hvy : (fanBall (realDemo 0) levelRef (-(7 / 20))).vy = 0 := by
    show (if (realDemo 0).sin ((realDemo 0).atan2 levelRef.vy levelRef.vx + -(7 / 20)) *
          levelRef.speed > 0 then _ else _) = (0 : ℝ)
    rw [hsin]
    simp
  refine ⟨by norm_num [levelRef], ?_, hvy, ?_⟩
  · rw [applyPowerUp_multi_cons _ _ levelRef [] rfl]
    rfl
  · rw [hvy]
    exact lt_irrefl 0

/-- The second new ball of the level reference travels upward. -/
theorem multiball_upward_witness :
    (realGame true [levelRef]).balls = levelRef :: [] ∧
      (fanBall (realDemo 0) levelRef (7 / 20)).vy < 0 := by
  have hthm := multiball_upward (realDemo 0) (realGame true [levelRef]) levelRef [] rfl
  refine ⟨rfl, hthm.2.2.2.2.2 ?_⟩
  have hpi : (7 / 20 : ℝ) ∈ Set.Ioc (-Real.pi) Real.pi := by
    constructor <;> linarith [Real.pi_gt_three]
  have hat : (realDemo 0).atan2 levelRef.vy levelRef.vx = 7 / 20 :=
    realHost_atan2_polar 480 640 _ _ 5 (7 / 20) (by norm_num) hpi
  rw [hat]
  have hpos : 0 < Real.sin (7 / 20 + 7 / 20) :=
    Real.sin_pos_of_pos_of_lt_pi (by norm_num) (by linarith [Real.pi_gt_three])
  exact ne_of_gt (mul_pos hpos (by norm_num [levelRef]))

theorem applyPowerUp_slow (h : Host α) (g : Game α) :
    applyPowerUp h (some PType.SLOW) g =
      { g with
        nNow := g.nNow + 1
        balls := g.balls.map (fun b => setBallSpeedForBall h b SLOW_BALL_SPEED)
        slowUntil := h.now g.nNow + 7000 } :=
  rfl

theorem clamp_idem (v lo hi : α) : clamp (clamp v lo hi) lo hi = clamp v lo hi := by
  unfold clamp
  rcases le_total hi (max lo (min hi v)) with h1 | h1
  · rw [min_eq_left h1]
    rcases le_total lo hi with h2 | h2
    · have h3 : max lo (min hi v) ≤ hi := max_le h2 (min_le_left _ _)
      have h4 : max lo (min hi v) = hi := le_antisymm h3 h1
      rw [h4, max_eq_right h2]
    · have h3 : min hi v ≤ lo := le_trans (min_le_left _ _) h2
      rw [max_eq_left h3, max_eq_left h2]
  · rw [min_eq_right h1]
    exact max_eq_right (le_max_left _ _)

theorem applyPowerUp_wide (h : Host α) (g : Game α) :
    applyPowerUp h (some PType.WIDE) g =
      { g with
        nNow := g.nNow + 1
        paddle := { g.paddle with w := WIDE_PADDLE_W, x := clamp g.paddle.x 0 (h.width - WIDE_PADDLE_W) }
        wideUntil := h.now g.nNow + 9000 } :=
  rfl

/-- C15: applying `WIDE` twice in a row, with the clock reading `t1` at the
first application and `t2` at the second, gives the same paddle (width 170, same
x) as applying it once, changes nothing else, and leaves
`wideUntil = t2 + 9000`, which is the later deadline when `t1 ≤ t2`. -/
theorem widen_idempotent (h : Host α) (g : Game α) :
    (applyPowerUp h (some PType.WIDE) g).paddle.w = 170 ∧
      (applyPowerUp h (some PType.WIDE) (applyPowerUp h (some PType.WIDE) g)).paddle.w = 170 ∧
      (applyPowerUp h (some PType.WIDE) (applyPowerUp h (some PType.WIDE) g)).paddle.x =
        (applyPowerUp h (some PType.WIDE) g).paddle.x ∧
      (applyPowerUp h (some PType.WIDE) g).wideUntil = h.now g.nNow + 9000 ∧
      (applyPowerUp h (some PType.WIDE) (applyPowerUp h (some PType.WIDE) g)).wideUntil =
        h.now (g.nNow + 1) + 9000 ∧
      applyPowerUp h (some PType.WIDE) (applyPowerUp h (some PType.WIDE) g) =
        { applyPowerUp h (some PType.WIDE) g with
          nNow := g.nNow + 2
          wideUntil := h.now (g.nNow + 1) + 9000 } ∧
      (h.now g.nNow ≤ h.now (g.nNow + 1) →
        (applyPowerUp h (some PType.WIDE) g).wideUntil ≤
          (applyPowerUp h (some PType.WIDE) (applyPowerUp h (some PType.WIDE) g)).wideUntil) := by
  have h2 : applyPowerUp h (some PType.WIDE) (applyPowerUp h (some PType.WIDE) g) =
      { applyPowerUp h (some PType.WIDE) g with
        nNow := g.nNow + 2
        wideUntil := h.now (g.nNow + 1) + 9000 } := by
    rw [applyPowerUp_wide h (applyPowerUp h (some PType.WIDE) g), applyPowerUp_wide h g]
    simp only [clamp_idem]
  refine ⟨rfl, ?_, ?_, rfl, ?_, h2, ?_⟩
  · rw [h2]; rfl
  · rw [h2]
  · rw [h2]
  · intro hle
    rw [h2]
    show h.now g.nNow + 9000 ≤ h.now (g.nNow + 1) + 9000
    linarith

/-- The `keydown` listener launches only a game that is neither over nor
started, and toggles the pause only of a started game that is not over. -/
theorem keydown_guarded (P : Game α → Prop) (h : Host α) (e : KeyEvent) (g : Game α)
    (hkeys : ∀ (g1 : Game α) (ks : List String), P g1 → P { g1 with keys := ks })
    (hlaunch : ∀ g1 : Game α, P g1 → g1.gameOver = false → g1.started = false →
      P (launchBalls h g1).state)
    (hpause : ∀ g1 : Game α, P g1 → g1.gameOver = false → g1.started = true →
      P { g1 with paused := !g1.paused })
    (hreset : ∀ g1 : Game α, P g1 → P (fullReset h g1).state)
    (hg : P g) : P (keydown h e g).state := by
  have h0 : P { g with keys := if e.key.toLower ∈ g.keys then g.keys
      else g.keys ++ [e.key.toLower] } := hkeys g _ hg
  unfold keydown
  dsimp only
  generalize ({ g with keys := if e.key.toLower ∈ g.keys then g.keys
      else g.keys ++ [e.key.toLower] } : Game α) = g0 at h0
  unfold handleKey
  dsimp only
  split_ifs with h1 h2 h3 h4 h5
  · exact h0
  · have h6 := hlaunch g0 h0 (by simpa using h2) (by simpa using h3)
    cases hl : launchBalls h g0 with
    | done g1 => rw [hl] at h6; exact hreset g1 h6
    | threw g1 => rw [hl] at h6; exact h6
  · have h6 := hlaunch g0 h0 (by simpa using h2) (by simpa using h3)
    cases hl : launchBalls h g0 with
    | done g1 => rw [hl] at h6; exact h6
    | threw g1 => rw [hl] at h6; exact h6
  · exact hreset _ (hpause g0 h0 (by simpa using h2) (by simpa using h3))
  · exact hpause g0 h0 (by simpa using h2) (by simpa using h3)
  · exact hreset g0 h0
  · exact h0

/-- Induction over the reachable states, callback by callback: `update` runs
only while the game is not paused. -/
theorem reachable_induct (P : Game α → Prop) (h : Host α)
    (hinit : P (initGame h).state)
    (hupdate : ∀ g : Game α, P g → g.paused = false → P (update h g).state)
    (hkeys : ∀ (g1 : Game α) (ks : List String), P g1 → P { g1 with keys := ks })
    (hlaunch : ∀ g1 : Game α, P g1 → g1.gameOver = false → g1.started = false →
      P (launchBalls h g1).state)
    (hpause : ∀ g1 : Game α, P g1 → g1.gameOver = false → g1.started = true →
      P { g1 with paused := !g1.paused })
    (hreset : ∀ g1 : Game α, P g1 → P (fullReset h g1).state)
    (g : Game α) (hr : Reachable h g) : P g := by
  induction hr with
  | init => exact hinit
  | frame g _ ih =>
    unfold frame
    split
    · exact hupdate g ih (by simp_all)
    · exact ih
  | keydown e g _ ih => exact keydown_guarded P h e g hkeys hlaunch hpause hreset ih
  | keyup e g _ ih => exact hkeys g _ ih

theorem applyPowerUp_life (h : Host α) (g : Game α) :
    applyPowerUp h (some PType.LIFE) g =
      { g with nNow := g.nNow + 1, lives := min (g.lives + 1) 9 } :=
  rfl

theorem applyPowerUp_lives (h : Host α) (t : Option PType) (g : Game α)
    (hl : 1 ≤ g.lives ∧ g.lives ≤ 9) :
    1 ≤ (applyPowerUp h t g).lives ∧ (applyPowerUp h t g).lives ≤ 9 := by
  unfold applyPowerUp
  dsimp only
  split
  · exact hl
  · exact hl
  · exact ⟨le_min (by omega) (by norm_num), min_le_right _ _⟩
  · split
    · exact hl
    · rw [multi_range]
      exact hl
  · exact hl

theorem stepPowerUp_lives (h : Host α) (g : Game α) (p : PowerUp α)
    (hl : 1 ≤ g.lives ∧ g.lives ≤ 9) :
    1 ≤ (stepPowerUp h g p).1.lives ∧ (stepPowerUp h g p).1.lives ≤ 9 := by
  unfold stepPowerUp
  dsimp only
  split
  · exact hl
  · split
    · exact applyPowerUp_lives h _ g hl
    · exact hl

theorem movePowerUps_lives (h : Host α) (ps : List (PowerUp α)) (g : Game α)
    (hl : 1 ≤ g.lives ∧ g.lives ≤ 9) :
    1 ≤ (movePowerUps h g ps).1.lives ∧ (movePowerUps h g ps).1.lives ≤ 9 := by
  induction ps generalizing g with
  | nil => exact hl
  | cons p ps ih => exact ih _ (stepPowerUp_lives h g p hl)

theorem expireEffects_lives (h : Host α) (g : Game α) :
    (expireEffects h g).lives = g.lives := by
  unfold expireEffects
  dsimp only
  split_ifs <;> rfl

theorem winCheck_lives (g : Game α) : (winCheck g).lives = g.lives := by
  unfold winCheck
  split <;> rfl

theorem winCheck_flags (g : Game α) :
    (winCheck g).gameOver = true ∧ (winCheck g).paused = true ∨
      (winCheck g).gameOver = g.gameOver ∧ (winCheck g).paused = g.paused := by
  unfold winCheck
  split
  · exact Or.inl ⟨rfl, rfl⟩
  · exact Or.inr ⟨rfl, rfl⟩

theorem resetBallOnPaddle_flags (g : Game α) :
    (resetBallOnPaddle g).state.lives = g.lives ∧
      (resetBallOnPaddle g).state.paused = g.paused ∧
      (resetBallOnPaddle g).state.gameOver = g.gameOver := by
  unfold resetBallOnPaddle
  split <;> exact ⟨rfl, rfl, rfl⟩

theorem launchBalls_flags (h : Host α) (g : Game α) :
    (launchBalls h g).state.lives = g.lives ∧ (launchBalls h g).state.paused = g.paused ∧
      (launchBalls h g).state.gameOver = g.gameOver ∧
      (launchBalls h g).state.started = true := by
  unfold launchBalls
  dsimp only
  split
  · exact ⟨rfl, rfl, rfl, rfl⟩
  · split <;> exact ⟨rfl, rfl, rfl, rfl⟩

theorem update_livesInv (h : Host α) (g : Game α) (hi : LivesInv g) (hp : g.paused = false) :
    LivesInv (update h g).state := by
  obtain ⟨h0, h9, hz, hov⟩ := hi
  have hgo : g.gameOver = false := by
    cases hg : g.gameOver with
    | false => rfl
    | true => rw [hov hg] at hp; exact absurd hp (by simp)
  have h1 : 1 ≤ g.lives := by
    rcases lt_or_eq_of_le h0 with h2 | h2
    · omega
    · rw [hz h2.symm] at hgo; exact absurd hgo (by simp)
  by_cases hs : g.started = true
  · have hbp := ballPhase_same h (movePaddle h g)
    have hbl : (ballPhase h (movePaddle h g)).lives = g.lives := hbp.1
    have hbo : (ballPhase h (movePaddle h g)).gameOver = g.gameOver := hbp.2.2.2.1
    have hbpa : (ballPhase h (movePaddle h g)).paused = g.paused := hbp.2.1
    rw [update_started h g hs]
    split
    · by_cases hl : g.lives ≤ 1
      · rw [loseLife_over h _ (by rw [hbl]; exact hl)]
        refine ⟨?_, ?_, fun _ => rfl, fun _ => rfl⟩
        · show 0 ≤ (ballPhase h (movePaddle h g)).lives - 1
          rw [hbl]; omega
        · show (ballPhase h (movePaddle h g)).lives - 1 ≤ 9
          rw [hbl]; omega
      · rw [loseLife_reset h _ (by rw [hbl]; omega)]
        refine ⟨?_, ?_, ?_, ?_⟩
        · show 0 ≤ (ballPhase h (movePaddle h g)).lives - 1
          rw [hbl]; omega
        · show (ballPhase h (movePaddle h g)).lives - 1 ≤ 9
          rw [hbl]; omega
        · intro hz2
          have : (ballPhase h (movePaddle h g)).lives - 1 = 0 := hz2
          rw [hbl] at this
          omega
        · intro hg2
          have : (ballPhase h (movePaddle h g)).gameOver = true := hg2
          rw [hbo, hgo] at this
          exact absurd this (by simp)
    · have hw := winCheck_flags (ballPhase h (movePaddle h g))
      have hwl := winCheck_lives (ballPhase h (movePaddle h g))
      have hpf := powerUpPhase_flags h (winCheck (ballPhase h (movePaddle h g)))
      have hpl := movePowerUps_lives h (winCheck (ballPhase h (movePaddle h g))).powerUps
        (winCheck (ballPhase h (movePaddle h g))) (by rw [hwl, hbl]; exact ⟨h1, h9⟩)
      have hef := expireEffects_flags h (powerUpPhase h (winCheck (ballPhase h (movePaddle h g))))
      have hel := expireEffects_lives h (powerUpPhase h (winCheck (ballPhase h (movePaddle h g))))
      have hfl : 1 ≤ (expireEffects h (powerUpPhase h
          (winCheck (ballPhase h (movePaddle h g))))).lives ∧
          (expireEffects h (powerUpPhase h
            (winCheck (ballPhase h (movePaddle h g))))).lives ≤ 9 := by
        rw [hel]; exact hpl
      refine ⟨le_trans (by norm_num) hfl.1, hfl.2, ?_, ?_⟩
      · intro hz2
        have : (expireEffects h (powerUpPhase h
          (winCheck (ballPhase h (movePaddle h g))))).lives = 0 := hz2
        omega
      · intro hg2
        have hg3 : (expireEffects h (powerUpPhase h
          (winCheck (ballPhase h (movePaddle h g))))).gameOver = true := hg2
        show (expireEffects h (powerUpPhase h
          (winCheck (ballPhase h (movePaddle h g))))).paused = true
        rw [hef.1, hpf.1]
        rw [hef.2.2, hpf.2.2] at hg3
        rcases hw with hw1 | hw1
        · exact hw1.2
        · rw [hw1.1, hbo, hgo] at hg3
          exact absurd hg3 (by simp)
  · have hs2 : g.started = false := by simpa using hs
    rw [update_not_started h g hs2]
    have hf := resetBallOnPaddle_flags (movePaddle h g)
    refine ⟨?_, ?_, ?_, ?_⟩
    · rw [hf.1]; exact h0
    · rw [hf.1]; exact h9
    · intro hz2
      rw [hf.1] at hz2
      rw [hf.2.2]
      exact hz hz2
    · intro hg2
      rw [hf.2.2] at hg2
      rw [hf.2.1]
      exact hov hg2

theorem fullReset_livesInv (h : Host α) (g : Game α) : LivesInv (fullReset h g).state := by
  rw [fullReset_eq]
  exact ⟨by show (0 : Int) ≤ 3; norm_num, by show (3 : Int) ≤ 9; norm_num,
    fun hz => absurd (show (3 : Int) = 0 from hz) (by norm_num),
    fun hg => absurd (show false = true from hg) (by simp)⟩

theorem initGame_livesInv (h : Host α) : LivesInv (initGame h).state :=
  ⟨by show (0 : Int) ≤ 3; norm_num, by show (3 : Int) ≤ 9; norm_num,
    fun hz => absurd (show (3 : Int) = 0 from hz) (by norm_num),
    fun hg => absurd (show false = true from hg) (by simp)⟩

/-- Every reachable state satisfies the lives invariant. -/
theorem reachable_livesInv (h : Host α) (g : Game α) (hr : Reachable h g) : LivesInv g := by
  apply reachable_induct LivesInv h (initGame_livesInv h) (update_livesInv h) _ _ _ _ g hr
  · intro g1 ks h1; exact h1
  · intro g1 h1 hgo _
    have hf := launchBalls_flags h g1
    obtain ⟨h0, h9, hz, hov⟩ := h1
    refine ⟨by rw [hf.1]; exact h0, by rw [hf.1]; exact h9, ?_, ?_⟩
    · intro hz2; rw [hf.1] at hz2; rw [hf.2.2.1]; exact hz hz2
    · intro hg2; rw [hf.2.2.1, hgo] at hg2; exact absurd hg2 (by simp)
  · intro g1 h1 hgo _
    obtain ⟨h0, h9, hz, hov⟩ := h1
    refine ⟨h0, h9, hz, ?_⟩
    intro hg2
    have : g1.gameOver = true := hg2
    rw [hgo] at this
    exact absurd this (by simp)
  · intro g1 _
    exact fullReset_livesInv h g1

theorem applyPowerUp_nonempty (h : Host α) (t : Option PType) (g : Game α)
    (hb : g.balls ≠ []) : (applyPowerUp h t g).balls ≠ [] := by
  unfold applyPowerUp
  dsimp only
  split
  · exact hb
  · show List.map _ g.balls ≠ []
    simpa using hb
  · exact hb
  · split
    · exact hb
    · rw [multi_range]
      simp
  · exact hb

theorem stepPowerUp_nonempty (h : Host α) (g : Game α) (p : PowerUp α) (hb : g.balls ≠ []) :
    (stepPowerUp h g p).1.balls ≠ [] := by
  unfold stepPowerUp
  dsimp only
  split
  · exact hb
  · split
    · exact applyPowerUp_nonempty h _ g hb
    · exact hb

theorem movePowerUps_nonempty (h : Host α) (ps : List (PowerUp α)) (g : Game α)
    (hb : g.balls ≠ []) : (movePowerUps h g ps).1.balls ≠ [] := by
  induction ps generalizing g with
  | nil => exact hb
  | cons p ps ih => exact ih _ (stepPowerUp_nonempty h g p hb)

theorem expireEffects_nonempty (h : Host α) (g : Game α) (hb : g.balls ≠ []) :
    (expireEffects h g).balls ≠ [] := by
  unfold expireEffects
  dsimp only
  split_ifs
  · show List.map _ g.balls ≠ []
    simpa using hb
  · exact hb
  · show List.map _ g.balls ≠ []
    simpa using hb
  · exact hb

theorem winCheck_balls (g : Game α) : (winCheck g).balls = g.balls := by
  unfold winCheck
  split <;> rfl

/-- The phases after the ball loop keep a non-empty ball collection non-empty. -/
theorem tail_nonempty (h : Host α) (g : Game α) (hb : g.balls ≠ []) :
    (expireEffects h (powerUpPhase h (winCheck g))).balls ≠ [] := by
  apply expireEffects_nonempty
  apply movePowerUps_nonempty
  rw [winCheck_balls]
  exact hb

theorem resetBallOnPaddle_one (g : Game α) (hb : g.balls.length = 1) :
    (resetBallOnPaddle g).ok = true ∧ (resetBallOnPaddle g).state.balls.length = 1 ∧
      (resetBallOnPaddle g).state.started = false := by
  unfold resetBallOnPaddle
  split
  · rename_i hnil
    rw [hnil] at hb
    exact absurd hb (by simp)
  · rename_i b rest hbr
    rw [hbr] at hb
    exact ⟨rfl, hb, rfl⟩

theorem launchBalls_one (h : Host α) (g : Game α) (hb : g.balls.length = 1) :
    (launchBalls h g).ok = true ∧ (launchBalls h g).state.balls.length = 1 := by
  unfold launchBalls
  dsimp only
  split
  · rename_i hnil
    have : g.balls = [] := hnil
    rw [this] at hb
    exact absurd hb (by simp)
  · rename_i b rest hbr
    have hbr2 : g.balls = b :: rest := hbr
    rw [hbr2] at hb
    split
    · exact ⟨rfl, hb⟩
    · refine ⟨rfl, ?_⟩
      show g.balls.length = 1
      rw [hbr2]
      exact hb

theorem update_ballCountInv (h : Host α) (g : Game α) (hi : BallCountInv g) :
    (update h g).ok = true ∧ BallCountInv (update h g).state := by
  by_cases hs : g.started = true
  · have hbp := ballPhase_same h (movePaddle h g)
    rw [update_started h g hs]
    split
    · by_cases hl : (ballPhase h (movePaddle h g)).lives ≤ 1
      · rw [loseLife_over h _ hl]
        refine ⟨rfl, ?_, ?_⟩
        · intro hs2
          have : (ballPhase h (movePaddle h g)).started = false := hs2
          rw [hbp.2.2.1] at this
          rw [show (movePaddle h g).started = g.started from rfl, hs] at this
          exact absurd this (by simp)
        · intro _ hg2
          exact absurd (show true = false from hg2) (by simp)
      · rw [loseLife_reset h _ (by omega)]
        refine ⟨rfl, fun _ => rfl, ?_⟩
        intro hs2
        exact absurd (show false = true from hs2) (by simp)
    · rename_i hne
      have hne2 : (ballPhase h (movePaddle h g)).balls ≠ [] := by
        intro h0
        exact hne (by rw [h0]; rfl)
      have hst : (expireEffects h (powerUpPhase h
          (winCheck (ballPhase h (movePaddle h g))))).started = true := by
        rw [(expireEffects_flags h _).2.1, (powerUpPhase_flags h _).2.1]
        have : (winCheck (ballPhase h (movePaddle h g))).started =
            (ballPhase h (movePaddle h g)).started := by
          unfold winCheck
          split <;> rfl
        rw [this, hbp.2.2.1]
        exact hs
      refine ⟨rfl, ?_, ?_⟩
      · intro hs2
        have : (expireEffects h (powerUpPhase h
          (winCheck (ballPhase h (movePaddle h g))))).started = false := hs2
        rw [hst] at this
        exact absurd this (by simp)
      · intro _ _
        exact tail_nonempty h _ hne2
  · have hs2 : g.started = false := by simpa using hs
    rw [update_not_started h g hs2]
    have h1 := resetBallOnPaddle_one (movePaddle h g) (hi.1 hs2)
    refine ⟨h1.1, fun _ => h1.2.1, ?_⟩
    intro hs3
    rw [h1.2.2] at hs3
    exact absurd hs3 (by simp)

theorem fullReset_ballCountInv (h : Host α) (g : Game α) :
    (fullReset h g).ok = true ∧ BallCountInv (fullReset h g).state := by
  rw [fullReset_eq]
  exact ⟨rfl, fun _ => rfl, fun hs => absurd (show false = true from hs) (by simp)⟩

theorem initGame_ballCountInv (h : Host α) :
    (initGame h).ok = true ∧ BallCountInv (initGame h).state :=
  ⟨rfl, fun _ => rfl, fun hs => absurd (show false = true from hs) (by simp)⟩

theorem launchBalls_ballCountInv (h : Host α) (g : Game α) (hi : BallCountInv g)
    (hs : g.started = false) : BallCountInv (launchBalls h g).state := by
  have h1 := launchBalls_one h g (hi.1 hs)
  have h2 := launchBalls_flags h g
  refine ⟨?_, ?_⟩
  · intro hs2
    rw [h2.2.2.2] at hs2
    exact absurd hs2 (by simp)
  · intro _ _ hnil
    rw [hnil] at h1
    exact absurd h1.2 (by simp)

/-- Every reachable state satisfies the ball-count invariant. -/
theorem reachable_ballCountInv (h : Host α) (g : Game α) (hr : Reachable h g) :
    BallCountInv g := by
  apply reachable_induct BallCountInv h (initGame_ballCountInv h).2
    (fun g1 h1 _ => (update_ballCountInv h g1 h1).2) _ _ _ _ g hr
  · intro g1 ks h1; exact h1
  · intro g1 h1 _ hs
    exact launchBalls_ballCountInv h g1 h1 hs
  · intro g1 h1 _ _; exact h1
  · intro g1 _
    exact (fullReset_ballCountInv h g1).2

/-- From a state with the ball-count invariant the `keydown` listener runs to
completion. -/
theorem keydown_ok (h : Host α) (e : KeyEvent) (g : Game α) (hi : BallCountInv g) :
    (keydown h e g).ok = true := by
  have h0 : BallCountInv { g with keys := if e.key.toLower ∈ g.keys then g.keys
      else g.keys ++ [e.key.toLower] } := hi
  unfold keydown
  dsimp only
  generalize ({ g with keys := if e.key.toLower ∈ g.keys then g.keys
      else g.keys ++ [e.key.toLower] } : Game α) = g0 at h0
  unfold handleKey
  dsimp only
  split_ifs with h1 h2 h3 h4 h5
  · rfl
  · have h6 := launchBalls_one h g0 (h0.1 (by simpa using h3))
    cases hl : launchBalls h g0 with
    | done g1 => exact (fullReset_ballCountInv h g1).1
    | threw g1 => rw [hl] at h6; exact absurd h6.1 (by simp [Outcome.ok])
  · have h6 := launchBalls_one h g0 (h0.1 (by simpa using h3))
    cases hl : launchBalls h g0 with
    | done g1 => rfl
    | threw g1 => rw [hl] at h6; exact absurd h6.1 (by simp [Outcome.ok])
  · exact (fullReset_ballCountInv h _).1
  · rfl
  · exact (fullReset_ballCountInv h g0).1
  · rfl

theorem framesOn_reachable (n : Nat) (g : Game ℚ) (hr : Reachable flatHost g) :
    Reachable flatHost (framesOn n g) := by
  induction n with
  | zero => exact hr
  | succ n ih => exact Reachable.frame _ ih

theorem lostGame_reachable : Reachable flatHost lostGame :=
  framesOn_reachable _ _ (Reachable.keydown _ _ (framesOn_reachable _ _ (Reachable.keydown _ _
    (framesOn_reachable _ _ (Reachable.keydown _ _ Reachable.init)))))

theorem lostGame_over : lostGame.gameOver = true := by
  decide!

/-- C16: `applyPowerUp("LIFE")` sets `lives` to `min(lives + 1, 9)` and changes
no other global (the clock has been read once); and in every reachable state
`0 ≤ lives ≤ 9`, with `lives = 0` only when `gameOver` is true. -/
theorem lives_bounds (h : Host α) (g : Game α) (hr : Reachable h g) :
    (∀ g0 : Game α,
        applyPowerUp h (some PType.LIFE) g0 =
          { g0 with nNow := g0.nNow + 1, lives := min (g0.lives + 1) 9 }) ∧
      0 ≤ g.lives ∧ g.lives ≤ 9 ∧ (g.lives = 0 → g.gameOver = true) := by
  have h1 := reachable_livesInv h g hr
  exact ⟨fun g0 => applyPowerUp_life h g0, h1.1, h1.2.1, h1.2.2.1⟩

/-- The lives of the lost game on the flat canvas are within bounds. -/
theorem lives_bounds_witness :
    Reachable flatHost lostGame ∧ 0 ≤ lostGame.lives ∧ lostGame.lives ≤ 9 :=
  ⟨lostGame_reachable, (lives_bounds flatHost lostGame lostGame_reachable).2.1,
    (lives_bounds flatHost lostGame lostGame_reachable).2.2.1⟩

theorem handleKey_over (h : Host α) (e : KeyEvent) (g : Game α) (hgo : g.gameOver = true) :
    handleKey h e g = .done g ∨
      (e.key.toLower = "r" ∧ ¬ (e.key.toLower = " " ∨ e.code = "Space") ∧
        handleKey h e g = fullReset h g) := by
  unfold handleKey
  dsimp only
  split_ifs with h1 h2
  · exact Or.inl rfl
  · exact Or.inr ⟨h2, h1, rfl⟩
  · exact Or.inl rfl

theorem keydown_over (h : Host α) (e : KeyEvent) (g : Game α) (hgo : g.gameOver = true) :
    (keydown h e g =
        .done { g with keys := if e.key.toLower ∈ g.keys then g.keys
          else g.keys ++ [e.key.toLower] }) ∨
      (e.key.toLower = "r" ∧ ¬ (e.key.toLower = " " ∨ e.code = "Space") ∧
        keydown h e g =
          fullReset h { g with keys := if e.key.toLower ∈ g.keys then g.keys
            else g.keys ++ [e.key.toLower] }) :=
  handleKey_over h e { g with keys := if e.key.toLower ∈ g.keys then g.keys
    else g.keys ++ [e.key.toLower] } hgo

/-- C18: in every reachable state a game that is over is paused; from such a
state a frame of the loop changes nothing, a space press (like every key other
than the restart key) changes nothing but the set of held keys, a key release
changes nothing but that set, and the only callback that leaves a state with
`gameOver = false` is a press of the restart key, which runs `fullReset`. -/
theorem game_over_terminal (h : Host α) (g : Game α) (hr : Reachable h g)
    (hgo : g.gameOver = true) :
    g.paused = true ∧ frame h g = .done g ∧
      (∀ e : KeyEvent, e.key.toLower = " " ∨ e.code = "Space" →
        keydown h e g =
          .done { g with keys := if e.key.toLower ∈ g.keys then g.keys
            else g.keys ++ [e.key.toLower] }) ∧
      (∀ e : KeyEvent,
        keyup e g = { g with keys := g.keys.filter (fun k => k != e.key.toLower) }) ∧
      (∀ e : KeyEvent,
        keydown h e g =
            .done { g with keys := if e.key.toLower ∈ g.keys then g.keys
              else g.keys ++ [e.key.toLower] } ∨
          (e.key.toLower = "r" ∧
            keydown h e g =
              fullReset h { g with keys := if e.key.toLower ∈ g.keys then g.keys
                else g.keys ++ [e.key.toLower] })) ∧
      (∀ e : KeyEvent, (keydown h e g).state.gameOver = false → e.key.toLower = "r") ∧
      (∀ e : KeyEvent, e.key.toLower = "r" → ¬ (e.key.toLower = " " ∨ e.code = "Space") →
        (keydown h e g).state.gameOver = false) := by
  have hp : g.paused = true := (reachable_livesInv h g hr).2.2.2 hgo
  refine ⟨hp, ?_, ?_, fun e => rfl, ?_, ?_, ?_⟩
  · simp [frame, hp]
  · intro e hsp
    rcases keydown_over h e g hgo with h1 | ⟨_, h2, _⟩
    · exact h1
    · exact absurd hsp h2
  · intro e
    rcases keydown_over h e g hgo with h1 | ⟨h1, _, h3⟩
    · exact Or.inl h1
    · exact Or.inr ⟨h1, h3⟩
  · intro e hf
    rcases keydown_over h e g hgo with h1 | ⟨h1, _, _⟩
    · rw [h1] at hf
      have : g.gameOver = false := hf
      rw [hgo] at this
      exact absurd this (by simp)
    · exact h1
  · intro e hk hns
    have h1 : keydown h e g =
        fullReset h { g with keys := if e.key.toLower ∈ g.keys then g.keys
          else g.keys ++ [e.key.toLower] } := by
      show handleKey h e _ = _
      simp only [handleKey, if_neg hns, if_pos hk]
    rw [h1, fullReset_eq]
    rfl

/-- On the flat canvas the lost game is paused and a frame leaves it as it is. -/
theorem game_over_terminal_witness :
    Reachable flatHost lostGame ∧ lostGame.gameOver = true ∧ lostGame.paused = true ∧
      frame flatHost lostGame = .done lostGame :=
  ⟨lostGame_reachable, lostGame_over,
    (game_over_terminal flatHost lostGame lostGame_reachable lostGame_over).1,
    (game_over_terminal flatHost lostGame lostGame_reachable lostGame_over).2.1⟩

/-- C19: in every reachable state, `started = false` implies exactly one ball
and `started = true` with `gameOver = false` implies at least one; so from a
reachable state `update`, a frame of the loop, the `keydown` listener and
`fullReset` run to completion, as does start-up: no `balls[0]` access of
`resetBallOnPaddle` or `launchBalls` finds the array empty. -/
theorem balls_never_indexed_empty (h : Host α) (g : Game α) (hr : Reachable h g) :
    (g.started = false → g.balls.length = 1) ∧
      (g.started = true → g.gameOver = false → 1 ≤ g.balls.length) ∧
      (initGame h).ok = true ∧ (update h g).ok = true ∧ (frame h g).ok = true ∧
      (∀ e : KeyEvent, (keydown h e g).ok = true) ∧ (fullReset h g).ok = true ∧
      (g.started = false →
        (resetBallOnPaddle (movePaddle h g)).ok = true ∧ (launchBalls h g).ok = true) := by
  have h1 := reachable_ballCountInv h g hr
  have h2 := update_ballCountInv h g h1
  refine ⟨h1.1, ?_, (initGame_ballCountInv h).1, h2.1, ?_, fun e => keydown_ok h e g h1,
    (fullReset_ballCountInv h g).1, ?_⟩
  · intro hs hgo
    have := h1.2 hs hgo
    exact List.length_pos.2 this
  · unfold frame
    split
    · exact h2.1
    · rfl
  · intro hs
    exact ⟨(resetBallOnPaddle_one (movePaddle h g) (h1.1 hs)).1, (launchBalls_one h g (h1.1 hs)).1⟩

/-- After the third lost ball on the flat canvas every callback still runs to
completion. -/
theorem balls_never_indexed_empty_witness :
    Reachable flatHost lostGame ∧ (update flatHost lostGame).ok = true ∧
      ∀ e : KeyEvent, (keydown flatHost e lostGame).ok = true :=
  ⟨lostGame_reachable,
    (balls_never_indexed_empty flatHost lostGame lostGame_reachable).2.2.2.1,
    (balls_never_indexed_empty flatHost lostGame lostGame_reachable).2.2.2.2.2.1⟩

theorem clamp_of_mem (v lo hi : α) (h1 : lo ≤ v) (h2 : v ≤ hi) : clamp v lo hi = v := by
  unfold clamp
  rw [min_eq_right h2, max_eq_right h1]

theorem fullReset_idem (h : Host α) (g : Game α) :
    fullReset h (fullReset h g).state = fullReset h g := by
  rw [fullReset_eq h (fullReset h g).state, fullReset_eq h g]
  rfl

theorem fullReset_wide_eq (h : Host α) (hW : 110 ≤ h.width) (g : Game α) :
    fullReset h g =
      .done { g with
        score := 0
        lives := 3
        paused := false
        started := false
        gameOver := false
        paddle := { g.paddle with w := 110, x := (h.width - 110) / 2, dx := 0 }
        grid := fun _ _ => true
        balls :=
          [restingBall { g.paddle with w := 110, x := (h.width - 110) / 2, dx := 0 }]
        powerUps := []
        wideUntil := 0
        slowUntil := 0 } := by
  have hc : clamp ((h.width - DEFAULT_PADDLE_W) / 2) 0 (h.width - DEFAULT_PADDLE_W) =
      (h.width - 110) / 2 := by
    simp only [DEFAULT_PADDLE_W]
    apply clamp_of_mem <;> linarith
  rw [fullReset_eq h g, hc]
  rfl

/-- C17 (amended): on a canvas at least as wide as the paddle (110),
`fullReset` completes from every state with score 0, lives 3, the three flags
false, the paddle 110 wide at `x = (canvas.width - 110) / 2` with `dx = 0`, all
bricks alive, exactly one live ball at rest with base speed 5 at
`x = canvas.width / 2`, `y = paddle.y - 8`, no power-ups and both timers 0; when
the paddle has its declared height, y and speed (which are never assigned) this
is the start-up state, apart from the set of held keys and the read positions of
the random and clock sources; and `fullReset` is idempotent. -/
theorem full_reset_fresh (h : Host α) (hW : 110 ≤ h.width) (g : Game α) :
    (fullReset h g).ok = true ∧
      ((fullReset h g).state.score = 0 ∧ (fullReset h g).state.lives = 3 ∧
        (fullReset h g).state.paused = false ∧ (fullReset h g).state.started = false ∧
        (fullReset h g).state.gameOver = false) ∧
      ((fullReset h g).state.paddle.w = 110 ∧
        (fullReset h g).state.paddle.x = (h.width - 110) / 2 ∧
        (fullReset h g).state.paddle.dx = 0) ∧
      (∀ r c : Nat, (fullReset h g).state.grid r c = true) ∧
      (∃ b : Ball α, (fullReset h g).state.balls = [b] ∧ b.alive = true ∧ b.vx = 0 ∧ b.vy = 0 ∧
        b.speed = 5 ∧ b.x = h.width / 2 ∧ b.y = (fullReset h g).state.paddle.y - 8) ∧
      ((fullReset h g).state.powerUps = [] ∧ (fullReset h g).state.wideUntil = 0 ∧
        (fullReset h g).state.slowUntil = 0) ∧
      (g.paddle.h = 14 → g.paddle.y = h.height - 30 → g.paddle.speed = 7 →
        (fullReset h g).state =
          { (initGame h).state with keys := g.keys, nRandom := g.nRandom, nNow := g.nNow }) ∧
      fullReset h (fullReset h g).state = fullReset h g := by
  have hidem := fullReset_idem h g
  rw [fullReset_wide_eq h hW g] at hidem ⊢
  refine ⟨rfl, ⟨rfl, rfl, rfl, rfl, rfl⟩, ⟨rfl, rfl, rfl⟩, fun _ _ => rfl, ?_, ⟨rfl, rfl, rfl⟩,
    ?_, hidem⟩
  · refine ⟨_, rfl, rfl, rfl, rfl, rfl, ?_, ?_⟩
    · show (h.width - 110) / 2 + 110 / 2 = h.width / 2
      ring
    · show g.paddle.y - 7 - 1 = g.paddle.y - 8
      ring
  · intro hh hy hsp
    have h1 : initGame h = .done { declaredGame h with
        grid := fun _ _ => true
        balls := [restingBall (declaredGame h).paddle] } := rfl
    rw [h1]
    have hp : ({ g.paddle with w := 110, x := (h.width - 110) / 2, dx := 0 } : Paddle α) =
        (declaredGame h).paddle := by
      cases hg : g.paddle
      rw [hg] at hh hy hsp
      simp only at hh hy hsp
      simp [declaredGame, DEFAULT_PADDLE_W, hh, hy, hsp]
    show ({ g with
        score := 0, lives := 3, paused := false, started := false, gameOver := false,
        paddle := { g.paddle with w := 110, x := (h.width - 110) / 2, dx := 0 },
        grid := fun _ _ => true,
        balls := [restingBall { g.paddle with w := 110, x := (h.width - 110) / 2, dx := 0 }],
        powerUps := [], wideUntil := 0, slowUntil := 0 } : Game α) = _
    rw [hp]
    rfl

/-- On the demo canvas a restart from any state of the demo game gives score 0. -/
theorem full_reset_fresh_witness :
    (110 : ℚ) ≤ demoHost.width ∧ (fullReset demoHost lowGame).state.score = 0 ∧
      (fullReset demoHost lowGame).state.paddle.x = (demoHost.width - 110) / 2 :=
  ⟨by norm_num [demoHost], (full_reset_fresh demoHost (by norm_num [demoHost]) lowGame).2.1.1,
    (full_reset_fresh demoHost (by norm_num [demoHost]) lowGame).2.2.1.2.1⟩

/-- On a canvas 100 wide the program starts with the paddle at `x = -5` and
the ball at `x = 50`, but `fullReset` leaves the paddle at `x = 0` and the ball
at `x = 55`. -/
theorem narrow_reset_counterexample :
    (initGame narrowHost).state.paddle.x = -5 ∧
      (narrowHost.width - 110) / 2 = -5 ∧
      (fullReset narrowHost (initGame narrowHost).state).state.paddle.x = 0 ∧
      (initGame narrowHost).state.balls.map (fun b => b.x) = [50] ∧
      (fullReset narrowHost (initGame narrowHost).state).state.balls.map (fun b => b.x) =
        [55] := by
  have hi : initGame narrowHost = .done { declaredGame narrowHost with
      grid := fun _ _ => true
      balls := [restingBall (declaredGame narrowHost).paddle] } := rfl
  refine ⟨?_, ?_, ?_, ?_, ?_⟩
  · rw [hi]
    norm_num [Outcome.state, declaredGame, narrowHost, DEFAULT_PADDLE_W]
  · norm_num [narrowHost]
  · rw [fullReset_eq]
    norm_num [Outcome.state, clamp, narrowHost, DEFAULT_PADDLE_W]
  · rw [hi]
    norm_num [Outcome.state, declaredGame, narrowHost, DEFAULT_PADDLE_W, restingBall]
  · rw [fullReset_eq]
    norm_num [Outcome.state, clamp, narrowHost, DEFAULT_PADDLE_W, restingBall]

theorem setBallSpeedForBall_speed (h : Host α) (b : Ball α) (v : α) :
    (setBallSpeedForBall h b v).speed = v := by
  unfold setBallSpeedForBall
  dsimp only
  split <;> rfl

theorem applyPowerUp_inStep (h : Host α) (hclk : ∀ n, 0 < h.now n) (t : Option PType)
    (g : Game α) (hi : InStep g) : InStep (applyPowerUp h t g) := by
  obtain ⟨hsp, hw⟩ := hi
  unfold applyPowerUp
  dsimp only
  split
  · refine ⟨hsp, ?_⟩
    have hne : h.now g.nNow + 9000 ≠ 0 := ne_of_gt (by linarith [hclk g.nNow])
    show WIDE_PADDLE_W = if h.now g.nNow + 9000 = 0 then DEFAULT_PADDLE_W else WIDE_PADDLE_W
    rw [if_neg hne]
  · refine ⟨?_, hw⟩
    have hne : h.now g.nNow + 7000 ≠ 0 := ne_of_gt (by linarith [hclk g.nNow])
    intro b hb
    show b.speed = if h.now g.nNow + 7000 = 0 then DEFAULT_BALL_SPEED else SLOW_BALL_SPEED
    rw [if_neg hne]
    obtain ⟨b0, _, rfl⟩ := List.mem_map.1 hb
    exact setBallSpeedForBall_speed h b0 _
  · exact ⟨hsp, hw⟩
  · split
    · exact ⟨hsp, hw⟩
    · rename_i ref rest hbr
      rw [multi_range]
      refine ⟨?_, hw⟩
      have href := hsp ref (by rw [hbr]; exact List.mem_cons_self _ _)
      intro b hb
      simp only [List.foldl_cons, List.foldl_nil, List.mem_append, List.mem_singleton] at hb
      show b.speed = if g.slowUntil = 0 then DEFAULT_BALL_SPEED else SLOW_BALL_SPEED
      rcases hb with (h1 | h1) | h1
      · exact hsp b h1
      · rw [h1, multiBall_eq]; exact href
      · rw [h1, multiBall_eq]; exact href
  · exact ⟨hsp, hw⟩

theorem stepPowerUp_inStep (h : Host α) (hclk : ∀ n, 0 < h.now n) (g : Game α)
    (p : PowerUp α) (hi : InStep g) : InStep (stepPowerUp h g p).1 := by
  unfold stepPowerUp
  dsimp only
  split
  · exact hi
  · split
    · exact applyPowerUp_inStep h hclk _ g hi
    · exact hi

theorem movePowerUps_inStep (h : Host α) (hclk : ∀ n, 0 < h.now n) (ps : List (PowerUp α))
    (g : Game α) (hi : InStep g) : InStep (movePowerUps h g ps).1 := by
  induction ps generalizing g with
  | nil => exact hi
  | cons p ps ih => exact ih _ (stepPowerUp_inStep h hclk g p hi)

theorem expireEffects_inStep (h : Host α) (g : Game α) (hi : InStep g) :
    InStep (expireEffects h g) := by
  obtain ⟨hsp, hw⟩ := hi
  unfold expireEffects
  dsimp only
  split_ifs with h1 h2 h2
  · refine ⟨?_, ?_⟩
    · intro b hb
      obtain ⟨b0, _, rfl⟩ := List.mem_map.1 hb
      show (setBallSpeedForBall h b0 DEFAULT_BALL_SPEED).speed =
        if (0 : α) = 0 then DEFAULT_BALL_SPEED else SLOW_BALL_SPEED
      rw [if_pos rfl]
      exact setBallSpeedForBall_speed h b0 _
    · show DEFAULT_PADDLE_W = if (0 : α) = 0 then DEFAULT_PADDLE_W else WIDE_PADDLE_W
      rw [if_pos rfl]
  · refine ⟨hsp, ?_⟩
    show DEFAULT_PADDLE_W = if (0 : α) = 0 then DEFAULT_PADDLE_W else WIDE_PADDLE_W
    rw [if_pos rfl]
  · refine ⟨?_, hw⟩
    intro b hb
    obtain ⟨b0, _, rfl⟩ := List.mem_map.1 hb
    show (setBallSpeedForBall h b0 DEFAULT_BALL_SPEED).speed =
      if (0 : α) = 0 then DEFAULT_BALL_SPEED else SLOW_BALL_SPEED
    rw [if_pos rfl]
    exact setBallSpeedForBall_speed h b0 _
  · exact ⟨hsp, hw⟩

theorem winCheck_inStep (g : Game α) (hi : InStep g) : InStep (winCheck g) := by
  unfold winCheck
  split <;> exact hi

theorem paddleStep_speed (p : Paddle α) (b : Ball α) : (paddleStep p b).speed = b.speed := by
  unfold paddleStep paddleBounce
  split <;> rfl

theorem moveAndWalls_speed (h : Host α) (b : Ball α) : (moveAndWalls h b).speed = b.speed := by
  unfold moveAndWalls
  dsimp only
  split_ifs <;> rfl

theorem stepBall_speed (h : Host α) (g : Game α) (b : Ball α) :
    (stepBall h g b).2.speed = b.speed := by
  by_cases ha : b.alive = true
  · by_cases hx : exitsBottom h (moveAndWalls h b) = true
    · rw [stepBall_exit h g b ha hx]
      exact moveAndWalls_speed h b
    · have hx2 : exitsBottom h (moveAndWalls h b) = false := by simpa using hx
      have h1 : (resolved h g b).speed = b.speed := by
        rw [resolved, paddleStep_speed, moveAndWalls_speed]
      rw [stepBall_eq h g b ha hx2]
      cases cells.find? (liveHit g (resolved h g b)) with
      | none => exact h1
      | some p => exact h1
  · have ha2 : b.alive = false := by simpa using ha
    rw [stepBall_dead h g b ha2]

theorem moveBalls_speed (h : Host α) (c : α) (bs : List (Ball α)) (g : Game α)
    (hb : ∀ b ∈ bs, b.speed = c) : ∀ b ∈ (moveBalls h g bs).2, b.speed = c := by
  induction bs generalizing g with
  | nil => intro b hb1; simp [moveBalls] at hb1
  | cons b0 bs ih =>
    intro b hb1
    rw [moveBalls_cons] at hb1
    rcases List.mem_cons.1 hb1 with h1 | h1
    · rw [h1, stepBall_speed]
      exact hb b0 (List.mem_cons_self _ _)
    · exact ih _ (fun b2 hb2 => hb b2 (List.mem_cons_of_mem _ hb2)) b h1

theorem ballPhase_inStep (h : Host α) (g : Game α) (hi : InStep g) :
    InStep (ballPhase h g) := by
  obtain ⟨hsp, hw⟩ := hi
  have hs := ballPhase_same h g
  refine ⟨?_, ?_⟩
  · intro b hb
    have h1 : b ∈ (moveBalls h g g.balls).2.filter (fun b => b.alive) := hb
    rw [hs.2.2.2.2.2.2.1]
    exact moveBalls_speed h _ g.balls g hsp b (List.mem_filter.1 h1).1
  · rw [hs.2.2.2.2.1, hs.2.2.2.2.2.1]
    exact hw

theorem loseLife_effectsInv (h : Host α) (g : Game α) (hs : g.started = true)
    (hi : InStep g) : EffectsInv (loseLife h g).state := by
  by_cases hl : g.lives ≤ 1
  · rw [loseLife_over h g hl]
    refine ⟨?_, hi⟩
    intro hs2
    have : g.started = false := hs2
    rw [hs] at this
    exact absurd this (by simp)
  · rw [loseLife_reset h g (by omega)]
    refine ⟨fun _ => rfl, ?_, ?_⟩
    · intro b hb
      have hb1 : b = restingBall (defaultPaddle h g.paddle) := List.mem_singleton.1 hb
      rw [hb1]
      show DEFAULT_BALL_SPEED = if (0 : α) = 0 then DEFAULT_BALL_SPEED else SLOW_BALL_SPEED
      rw [if_pos rfl]
    · show DEFAULT_PADDLE_W = if (0 : α) = 0 then DEFAULT_PADDLE_W else WIDE_PADDLE_W
      rw [if_pos rfl]

theorem update_effectsInv (h : Host α) (hclk : ∀ n, 0 < h.now n) (g : Game α)
    (hi : EffectsInv g) : EffectsInv (update h g).state := by
  obtain ⟨hns, hstep⟩ := hi
  have h1 : InStep (movePaddle h g) := hstep
  by_cases hs : g.started = true
  · have hbp := ballPhase_same h (movePaddle h g)
    have h2 := ballPhase_inStep h _ h1
    have hst : (ballPhase h (movePaddle h g)).started = true := by
      rw [hbp.2.2.1]; exact hs
    rw [update_started h g hs]
    split
    · exact loseLife_effectsInv h _ hst h2
    · refine ⟨?_, expireEffects_inStep h _
        (movePowerUps_inStep h hclk _ _ (winCheck_inStep _ h2))⟩
      intro hs2
      have hs3 : (expireEffects h (powerUpPhase h
          (winCheck (ballPhase h (movePaddle h g))))).started = false := hs2
      rw [(expireEffects_flags h _).2.1, (powerUpPhase_flags h _).2.1] at hs3
      have : (winCheck (ballPhase h (movePaddle h g))).started =
          (ballPhase h (movePaddle h g)).started := by
        unfold winCheck
        split <;> rfl
      rw [this, hst] at hs3
      exact absurd hs3 (by simp)
  · have hs2 : g.started = false := by simpa using hs
    have hslow : g.slowUntil = 0 := hns hs2
    rw [update_not_started h g hs2]
    unfold resetBallOnPaddle
    split
    · exact ⟨fun _ => hslow, h1⟩
    · rename_i b rest hbr
      have hbr2 : g.balls = b :: rest := hbr
      refine ⟨fun _ => hslow, ?_, hstep.2⟩
      intro b1 hb1
      show b1.speed = if g.slowUntil = 0 then DEFAULT_BALL_SPEED else SLOW_BALL_SPEED
      rcases List.mem_cons.1 hb1 with h3 | h3
      · rw [h3, hslow, if_pos rfl]
      · exact hstep.1 b1 (by rw [hbr2]; exact List.mem_cons_of_mem _ h3)

theorem fullReset_effectsInv (h : Host α) (g : Game α) : EffectsInv (fullReset h g).state := by
  rw [fullReset_eq]
  refine ⟨fun _ => rfl, ?_, ?_⟩
  · intro b hb
    have hb1 := List.mem_singleton.1 hb
    rw [hb1]
    show DEFAULT_BALL_SPEED = if (0 : α) = 0 then DEFAULT_BALL_SPEED else SLOW_BALL_SPEED
    rw [if_pos rfl]
  · show DEFAULT_PADDLE_W = if (0 : α) = 0 then DEFAULT_PADDLE_W else WIDE_PADDLE_W
    rw [if_pos rfl]

theorem initGame_effectsInv (h : Host α) : EffectsInv (initGame h).state := by
  have h1 : initGame h = .done { declaredGame h with
      grid := fun _ _ => true
      balls := [restingBall (declaredGame h).paddle] } := rfl
  rw [h1]
  refine ⟨fun _ => rfl, ?_, ?_⟩
  · intro b hb
    have hb1 := List.mem_singleton.1 hb
    rw [hb1]
    show DEFAULT_BALL_SPEED = if (0 : α) = 0 then DEFAULT_BALL_SPEED else SLOW_BALL_SPEED
    rw [if_pos rfl]
  · show DEFAULT_PADDLE_W = if (0 : α) = 0 then DEFAULT_PADDLE_W else WIDE_PADDLE_W
    rw [if_pos rfl]

theorem launchBalls_effects (h : Host α) (g : Game α) :
    (launchBalls h g).state.slowUntil = g.slowUntil ∧
      (launchBalls h g).state.wideUntil = g.wideUntil ∧
      (launchBalls h g).state.paddle = g.paddle ∧
      (∀ c : α, (∀ b ∈ g.balls, b.speed = c) → ∀ b ∈ (launchBalls h g).state.balls, b.speed = c) := by
  unfold launchBalls
  dsimp only
  split
  · exact ⟨rfl, rfl, rfl, fun c hc => hc⟩
  · rename_i b0 rest hbr
    have hbr2 : g.balls = b0 :: rest := hbr
    split
    · refine ⟨rfl, rfl, rfl, ?_⟩
      intro c hc b hb
      rw [hbr2] at hc
      rcases List.mem_cons.1 hb with h1 | h1
      · rw [h1]
        exact hc b0 (List.mem_cons_self _ _)
      · exact hc b (List.mem_cons_of_mem _ h1)
    · exact ⟨rfl, rfl, rfl, fun c hc => hc⟩

/-- With a positive clock every reachable state has its timed effects in step. -/
theorem reachable_effectsInv (h : Host α) (hclk : ∀ n, 0 < h.now n) (g : Game α)
    (hr : Reachable h g) : EffectsInv g := by
  apply reachable_induct EffectsInv h (initGame_effectsInv h)
    (fun g1 h1 _ => update_effectsInv h hclk g1 h1) _ _ _ _ g hr
  · intro g1 ks h1; exact h1
  · intro g1 h1 _ hs
    have hl := launchBalls_effects h g1
    have hf := launchBalls_flags h g1
    refine ⟨?_, ?_, ?_⟩
    · intro hs2
      rw [hf.2.2.2] at hs2
      exact absurd hs2 (by simp)
    · rw [hl.1]
      exact hl.2.2.2 _ h1.2.1
    · rw [hl.2.2.1, hl.2.1]
      exact h1.2.2
  · intro g1 h1 _ _; exact h1
  · intro g1 _
    exact fullReset_effectsInv h g1

/-- C20: when the clock is positive, in every reachable state, and after a tick
from one, every ball has base speed 3.5 if `slowUntil` is non-zero and 5 if it
is 0, and the paddle has width 170 if `wideUntil` is non-zero and 110 if it is
0. -/
theorem effects_in_step (h : Host α) (hclk : ∀ n, 0 < h.now n) (g : Game α)
    (hr : Reachable h g) :
    ((∀ b ∈ g.balls, b.speed = if g.slowUntil = 0 then 5 else 7 / 2) ∧
        g.paddle.w = if g.wideUntil = 0 then 110 else 170) ∧
      ((∀ b ∈ (update h g).state.balls,
          b.speed = if (update h g).state.slowUntil = 0 then 5 else 7 / 2) ∧
        (update h g).state.paddle.w = if (update h g).state.wideUntil = 0 then 110 else 170) := by
  have h1 := reachable_effectsInv h hclk g hr
  exact ⟨h1.2, (update_effectsInv h hclk g h1).2⟩

/-- The lost game on the flat canvas, whose clock starts at 1000, has a paddle
of one of the two widths. -/
theorem effects_in_step_witness :
    (∀ n, (0 : ℚ) < flatHost.now n) ∧ Reachable flatHost lostGame ∧
      (lostGame.paddle.w = 110 ∨ lostGame.paddle.w = 170) := by
  have hclk : ∀ n, (0 : ℚ) < flatHost.now n := by
    intro n
    show (0 : ℚ) < 1000 + (n : ℚ)
    positivity
  have h1 := (effects_in_step flatHost hclk lostGame lostGame_reachable).1.2
  refine ⟨hclk, lostGame_reachable, ?_⟩
  split_ifs at h1
  · exact Or.inl h1
  · exact Or.inr h1

/-- On the exact host the level reference ball gets exactly two companions, and
an empty collection stays empty. -/
theorem multiball_fan_out_witness :
    (realGame true [levelRef]).balls = levelRef :: [] ∧
      (applyPowerUp (realDemo 0) (some PType.MULTI) (realGame true [levelRef])).balls.length = 3 ∧
      (realGame true []).balls = [] ∧
      (applyPowerUp (realDemo 0) (some PType.MULTI) (realGame true [])).balls = [] := by
  obtain ⟨nb0, nb1, heq, _⟩ :=
    (multiball_fan_out (realDemo 0) (realGame true [levelRef])).2 levelRef [] rfl
  refine ⟨rfl, ?_, rfl, ?_⟩
  · rw [heq]
    rfl
  · rw [(multiball_fan_out (realDemo 0) (realGame true [])).1 rfl]
    rfl

/-- Two pick-ups of `WIDE` on the demo host, whose clock reads 1000 and then
1001: the deadline is 10001. -/
theorem widen_idempotent_witness :
    demoHost.now lowGame.nNow ≤ demoHost.now (lowGame.nNow + 1) ∧
      (applyPowerUp demoHost (some PType.WIDE)
        (applyPowerUp demoHost (some PType.WIDE) lowGame)).wideUntil = 10001 := by
  refine ⟨by norm_num [demoHost, lowGame, demoGame], ?_⟩
  rw [(widen_idempotent demoHost lowGame).2.2.2.2.1]
  norm_num [demoHost, lowGame, demoGame]

theorem firstDrop_reachable : Reachable flatHost firstDrop :=
  framesOn_reachable _ _ (Reachable.keydown _ _ Reachable.init)

theorem lastDrop_reachable : Reachable flatHost lastDrop :=
  framesOn_reachable _ _ (Reachable.keydown _ _ (framesOn_reachable _ _ (Reachable.keydown _ _
    (framesOn_reachable _ _ (Reachable.keydown _ _ Reachable.init)))))

theorem firstDrop_facts :
    firstDrop.paused = false ∧ firstDrop.started = true ∧ firstDrop.lives = 3 ∧
      (ballPhase flatHost (movePaddle flatHost firstDrop)).balls.length = 0 := by
  decide!

theorem lastDrop_facts :
    lastDrop.paused = false ∧ lastDrop.started = true ∧ lastDrop.lives = 1 ∧
      (ballPhase flatHost (movePaddle flatHost lastDrop)).balls.length = 0 := by
  decide!

/-- C4: in every reachable state that is started and not paused (the loop calls
`update` only then), if the tick leaves no ball then `lives` was at least 1 and
drops by exactly one; the new value is 0 exactly when `lives` was 1, and then
the game is over and paused with `lives = 0` (no ball is put back); otherwise
the call completes with exactly one ball, alive, at rest, with base speed 5,
centred on the paddle just above it, no power-ups, both timers 0, the paddle at
its default width 110, `started = false` and `gameOver = false`. -/
theorem life_loss_step (h : Host α) (g : Game α) (hr : Reachable h g) (hp : g.paused = false)
    (hs : g.started = true) (hdead : (ballPhase h (movePaddle h g)).balls = []) :
    1 ≤ g.lives ∧ (update h g).state.lives = g.lives - 1 ∧
      ((update h g).state.lives = 0 ↔ g.lives = 1) ∧
      ((update h g).state.lives = 0 →
        (update h g).state.gameOver = true ∧ (update h g).state.paused = true ∧
          (update h g).state.balls = []) ∧
      ((update h g).state.lives ≠ 0 →
        (update h g).ok = true ∧
        (∃ b : Ball α, (update h g).state.balls = [b] ∧ b.alive = true ∧ b.vx = 0 ∧ b.vy = 0 ∧
          b.speed = 5 ∧
          b.x = (update h g).state.paddle.x + (update h g).state.paddle.w / 2 ∧
          b.y = (update h g).state.paddle.y - b.r - 1) ∧
        (update h g).state.powerUps = [] ∧ (update h g).state.wideUntil = 0 ∧
        (update h g).state.slowUntil = 0 ∧ (update h g).state.paddle.w = 110 ∧
        (update h g).state.started = false ∧ (update h g).state.gameOver = false ∧
        (update h g).state.paused = false) := by
  have hinv := reachable_livesInv h g hr
  have hgo : g.gameOver = false := by
    cases hg : g.gameOver with
    | false => rfl
    | true => rw [hinv.2.2.2 hg] at hp; exact absurd hp (by simp)
  have hl1 : 1 ≤ g.lives := by
    rcases lt_or_le g.lives 1 with h0 | h0
    · have h00 : g.lives = 0 := le_antisymm (by omega) hinv.1
      rw [hinv.2.2.1 h00] at hgo
      exact absurd hgo (by simp)
    · exact h0
  have h1 := update_no_ball h g hs hdead
  refine ⟨hl1, h1.1, ?_, ?_, ?_⟩
  · rw [h1.1]
    constructor <;> intro h3 <;> omega
  · intro h3
    have h4 : g.lives ≤ 1 := by rw [h1.1] at h3; omega
    exact h1.2.1 h4
  · intro h3
    have h4 : 2 ≤ g.lives := by rw [h1.1] at h3; omega
    have h2 := h1.2.2 h4
    refine ⟨h2.1, ⟨_, h2.2.1, rfl, rfl, rfl, rfl, rfl, rfl⟩, h2.2.2.1, h2.2.2.2.1, h2.2.2.2.2.1,
      h2.2.2.2.2.2.1, h2.2.2.2.2.2.2.1, ?_, ?_⟩
    · rw [h2.2.2.2.2.2.2.2.1, hgo]
    · rw [h2.2.2.2.2.2.2.2.2, hp]

/-- On the flat canvas the first lost ball takes the lives from 3 to 2 and puts
the game back before launch, and the third lost ball ends it with 0 lives. -/
theorem life_loss_step_witness :
    (Reachable flatHost firstDrop ∧ firstDrop.paused = false ∧ firstDrop.started = true ∧
      (ballPhase flatHost (movePaddle flatHost firstDrop)).balls = [] ∧
      firstDrop.lives = 3 ∧ (update flatHost firstDrop).state.lives = 2 ∧
      (update flatHost firstDrop).state.started = false ∧
      (update flatHost firstDrop).state.gameOver = false) ∧
    (Reachable flatHost lastDrop ∧ lastDrop.paused = false ∧ lastDrop.started = true ∧
      (ballPhase flatHost (movePaddle flatHost lastDrop)).balls = [] ∧
      lastDrop.lives = 1 ∧ (update flatHost lastDrop).state.lives = 0 ∧
      (update flatHost lastDrop).state.gameOver = true ∧
      (update flatHost lastDrop).state.paused = true) := by
  have d1 : (ballPhase flatHost (movePaddle flatHost firstDrop)).balls = [] :=
    List.length_eq_zero.1 firstDrop_facts.2.2.2
  have d3 : (ballPhase flatHost (movePaddle flatHost lastDrop)).balls = [] :=
    List.length_eq_zero.1 lastDrop_facts.2.2.2
  have t1 := life_loss_step flatHost firstDrop firstDrop_reachable firstDrop_facts.1
    firstDrop_facts.2.1 d1
  have t3 := life_loss_step flatHost lastDrop lastDrop_reachable lastDrop_facts.1
    lastDrop_facts.2.1 d3
  have l1 : (update flatHost firstDrop).state.lives = 2 := by
    rw [t1.2.1, firstDrop_facts.2.2.1]; rfl
  have l3 : (update flatHost lastDrop).state.lives = 0 := t3.2.2.1.2 lastDrop_facts.2.2.1
  have n1 : (update flatHost firstDrop).state.lives ≠ 0 := by rw [l1]; decide
  exact ⟨⟨firstDrop_reachable, firstDrop_facts.1, firstDrop_facts.2.1, d1, firstDrop_facts.2.2.1,
      l1, (t1.2.2.2.2 n1).2.2.2.2.2.2.1, (t1.2.2.2.2 n1).2.2.2.2.2.2.2.1⟩,
    lastDrop_reachable, lastDrop_facts.1, lastDrop_facts.2.1, d3, lastDrop_facts.2.2.1, l3,
    (t3.2.2.2.1 l3).1, (t3.2.2.2.1 l3).2.1⟩

theorem pow2_pos (e : Int) : 0 < pow2 e := by
  unfold pow2
  split_ifs
  · positivity
  · apply one_div_pos.2
    positivity

theorem roundEven_nonneg (m : ℚ) (hm : 0 ≤ m) : 0 ≤ roundEven m := by
  have hf : 0 ≤ ⌊m⌋ := Int.floor_nonneg.2 hm
  unfold roundEven
  dsimp only
  split_ifs <;> omega

theorem roundEven_nonpos (m : ℚ) (hm : m ≤ 0) : roundEven m ≤ 0 := by
  have hf : ⌊m⌋ ≤ 0 := Int.floor_nonpos hm
  unfold roundEven
  dsimp only
  split_ifs with h1 h2 h3
  · exact hf
  · have h4 : (⌊m⌋ : ℚ) < 0 := by linarith
    have h5 : ⌊m⌋ < 0 := by exact_mod_cast h4
    omega
  · exact hf
  · have h4 : (⌊m⌋ : ℚ) < 0 := by
      have : (1 : ℚ) / 2 ≤ m - ⌊m⌋ := not_lt.1 h1
      linarith
    have h5 : ⌊m⌋ < 0 := by exact_mod_cast h4
    omega

/-- Rounding never turns a non-negative number into a negative one. -/
theorem fl_nonneg (q : ℚ) (hq : 0 ≤ q) : 0 ≤ fl q := by
  unfold fl
  split_ifs
  · exact le_refl 0
  · dsimp only
    have h1 := pow2_pos (max (ilog2 q) (-1022) - 52)
    have h2 : (0 : ℚ) ≤ roundEven (q / pow2 (max (ilog2 q) (-1022) - 52)) := by
      exact_mod_cast roundEven_nonneg _ (div_nonneg hq (le_of_lt h1))
    exact mul_nonneg h2 (le_of_lt h1)

/-- Rounding never turns a non-positive number into a positive one. -/
theorem fl_nonpos (q : ℚ) (hq : q ≤ 0) : fl q ≤ 0 := by
  unfold fl
  split_ifs
  · exact le_refl 0
  · dsimp only
    have h1 := pow2_pos (max (ilog2 q) (-1022) - 52)
    have h2 : (roundEven (q / pow2 (max (ilog2 q) (-1022) - 52)) : ℚ) ≤ 0 := by
      exact_mod_cast roundEven_nonpos _ (div_nonpos_of_nonpos_of_nonneg hq (le_of_lt h1))
    exact mul_nonpos_of_nonpos_of_nonneg h2 (le_of_lt h1)

/-- When no operation rounds or overflows, the binary64 test is the exact test. -/
theorem circleRectCollision64_of_exact (cx cy r rx ry rw rh : ℚ)
    (hex : ExactTest64 cx cy r rx ry rw rh) :
    circleRectCollision64 cx cy r rx ry rw rh = circleRectCollision cx cy r rx ry rw rh := by
  obtain ⟨h1, h2, h3, h4, h5, h6, h7, h8⟩ := hex
  unfold circleRectCollision64 circleRectCollision
  dsimp only
  rw [h1.1, h2.1, h3.1, h4.1, h5.1, h6.1, h7.1, h8.1]

/-- A circle of radius 7 whose centre lies farther than 7 from the sample brick,
by less than the rounding error: the squared distance to the nearest corner
(90, 95) exceeds 49, the rounded sum of the rounded squares is 49, and the test
returns true although no point of the brick is within the radius. -/
theorem grazing_circle_counterexample :
    (0 : ℚ) ≤ 7 ∧ (0 : ℚ) ≤ 48 ∧ (0 : ℚ) ≤ 18 ∧
      circleRectCollision64 grazeX grazeY 7 90 95 48 18 = true ∧
      (49 : ℚ) < (grazeX - 90) * (grazeX - 90) + (grazeY - 95) * (grazeY - 95) ∧
      fl (fl (fl (grazeX - 90) * fl (grazeX - 90)) +
        fl (fl (grazeY - 95) * fl (grazeY - 95))) = 49 ∧
      ¬ ∃ px py : ℚ, 90 ≤ px ∧ px ≤ 90 + 48 ∧ 95 ≤ py ∧ py ≤ 95 + 18 ∧
        (grazeX - px) * (grazeX - px) + (grazeY - py) * (grazeY - py) ≤ 7 * 7 := by
  refine ⟨by norm_num, by norm_num, by norm_num, by decide!, by decide!, by decide!, ?_⟩
  rw [← circleRect_closest_point grazeX grazeY 7 90 95 48 18 (by norm_num) (by norm_num)]
  have hf : circleRectCollision grazeX grazeY 7 90 95 48 18 = false := by decide!
  rw [hf]
  simp

theorem log2Fuel_le (fuel n : Nat) (hn : n ≠ 0) (hf : n ≤ fuel) : 2 ^ log2Fuel fuel n ≤ n := by
  induction fuel generalizing n with
  | zero => omega
  | succ fuel ih =>
    unfold log2Fuel
    split_ifs with h2
    · simp
      omega
    · have h3 : n / 2 ≠ 0 := by omega
      have h4 : n / 2 ≤ fuel := by omega
      have h5 := ih (n / 2) h3 h4
      rw [pow_succ]
      omega

theorem log2Fuel_lt (fuel n : Nat) (hf : n ≤ fuel) : n < 2 ^ (log2Fuel fuel n + 1) := by
  induction fuel generalizing n with
  | zero =>
    have : n = 0 := by omega
    subst this
    simp
  | succ fuel ih =>
    unfold log2Fuel
    split_ifs with h2
    · simpa using h2
    · have h4 : n / 2 ≤ fuel := by omega
      have h5 := ih (n / 2) h4
      rw [pow_succ]
      omega

theorem pow2_eq_zpow (e : Int) : pow2 e = (2 : ℚ) ^ e := by
  unfold pow2
  split_ifs with h
  · obtain ⟨n, rfl⟩ := Int.eq_ofNat_of_zero_le h
    simp
  · have h1 : 0 ≤ -e := by omega
    obtain ⟨n, hn⟩ := Int.eq_ofNat_of_zero_le h1
    have he : e = -(n : Int) := by omega
    rw [hn, he]
    simp

theorem rat_abs_eq (q : ℚ) : |q| = (q.num.natAbs : ℚ) / (q.den : ℚ) := by
  have h1 : |q| = |(q.num : ℚ)| / (q.den : ℚ) := by
    conv_lhs => rw [← Rat.num_div_den q]
    rw [abs_div, abs_of_pos (by exact_mod_cast q.den_pos : (0 : ℚ) < q.den)]
  rw [h1, Nat.cast_natAbs, Int.cast_abs]

/-- The binary exponent is a lower bound: `2 ^ ilog2 q ≤ |q|`. -/
theorem pow2_ilog2_le (q : ℚ) (hq : q ≠ 0) : pow2 (ilog2 q) ≤ |q| := by
  unfold ilog2
  dsimp only
  split_ifs with h
  · exact h
  · have hnum : q.num.natAbs ≠ 0 := by
      simpa using (Rat.num_ne_zero.2 hq)
    have h1 := log2Fuel_le q.num.natAbs q.num.natAbs hnum (le_refl _)
    have h2 := log2Fuel_lt q.den q.den (le_refl _)
    rw [pow2_eq_zpow]
    have h3 : (2 : ℚ) ^ (log2Fuel q.num.natAbs q.num.natAbs) ≤ (q.num.natAbs : ℚ) := by
      exact_mod_cast h1
    have h5 : (q.den : ℚ) < 2 ^ (log2Fuel q.den q.den + 1) := by
      exact_mod_cast h2
    have hd : (0 : ℚ) < q.den := by exact_mod_cast q.den_pos
    rw [rat_abs_eq, le_div_iff₀ hd]
    have h6 : (2 : ℚ) ^ ((log2Fuel q.num.natAbs q.num.natAbs : Int) -
        (log2Fuel q.den q.den : Int) - 1) =
        2 ^ (log2Fuel q.num.natAbs q.num.natAbs) / 2 ^ (log2Fuel q.den q.den + 1) := by
      rw [sub_sub, zpow_sub₀ (by norm_num)]
      norm_cast
    rw [h6, div_mul_eq_mul_div, div_le_iff₀ (by positivity)]
    have h7 : (0 : ℚ) < 2 ^ (log2Fuel q.num.natAbs q.num.natAbs) := by positivity
    nlinarith

theorem roundEven_intCast (z : Int) : roundEven (z : ℚ) = z := by
  unfold roundEven
  simp

/-- A number `m * 2 ^ p` with `|m| < 2 ^ 53` and `p ≥ -1074` is a binary64 value:
rounding leaves it as it is. -/
theorem fl_scaled_int (m p : Int) (hm : |m| < 2 ^ 53) (hp : -1074 ≤ p) :
    fl ((m : ℚ) * pow2 p) = (m : ℚ) * pow2 p := by
  generalize hqdef : (m : ℚ) * pow2 p = q
  by_cases hq : q = 0
  · rw [hq]
    rfl
  · unfold fl
    rw [if_neg hq]
    dsimp only
    have hlow := pow2_ilog2_le q hq
    have hm2 : |(m : ℚ)| < 2 ^ (53 : Int) := by
      have h0 : ((|m| : Int) : ℚ) < ((2 ^ 53 : Int) : ℚ) := by exact_mod_cast hm
      have h1 : ((2 ^ 53 : Int) : ℚ) = 2 ^ (53 : Int) := by norm_num
      rw [h1, Int.cast_abs] at h0
      exact h0
    have hqabs : |q| = |(m : ℚ)| * 2 ^ p := by
      rw [← hqdef, abs_mul, pow2_eq_zpow, abs_of_pos (by positivity : (0 : ℚ) < 2 ^ p)]
    have h4 : (0 : ℚ) < 2 ^ p := by positivity
    have he : ilog2 q < 53 + p := by
      by_contra hcon
      push_neg at hcon
      have h1 : (2 : ℚ) ^ (53 + p) ≤ 2 ^ ilog2 q :=
        zpow_le_zpow_right₀ (by norm_num) hcon
      rw [pow2_eq_zpow, hqabs] at hlow
      have h3 : (2 : ℚ) ^ (53 + p) = 2 ^ (53 : Int) * 2 ^ p := zpow_add₀ (by norm_num) _ _
      have h5 : (2 : ℚ) ^ (53 : Int) * 2 ^ p ≤ |(m : ℚ)| * 2 ^ p := by
        rw [← h3]
        exact le_trans h1 hlow
      have h6 := le_of_mul_le_mul_right h5 h4
      linarith
    have hk : max (ilog2 q) (-1022) - 52 ≤ p := by
      rcases max_cases (ilog2 q) (-1022) with ⟨h1, _⟩ | ⟨h1, _⟩ <;> rw [h1] <;> omega
    generalize max (ilog2 q) (-1022) - 52 = k at hk ⊢
    obtain ⟨j, hj⟩ := Int.eq_ofNat_of_zero_le (sub_nonneg.2 hk)
    have hp2 : p = (j : Int) + k := by omega
    have hsplit : (2 : ℚ) ^ p = 2 ^ j * 2 ^ k := by
      rw [hp2, zpow_add₀ (by norm_num), zpow_natCast]
    have hk0 : (2 : ℚ) ^ k ≠ 0 := by positivity
    have hdiv : q / pow2 k = ((m * 2 ^ j : Int) : ℚ) := by
      rw [← hqdef, pow2_eq_zpow, pow2_eq_zpow, hsplit]
      push_cast
      field_simp
      ring
    rw [hdiv, roundEven_intCast, ← hqdef, pow2_eq_zpow, pow2_eq_zpow, hsplit]
    push_cast
    ring

/-- An integer of magnitude below `2 ^ 53` is a binary64 value. -/
theorem fl_intCast (m : Int) (hm : |m| < 2 ^ 53) : fl (m : ℚ) = m := by
  have h := fl_scaled_int m 0 hm (by norm_num)
  have h1 : pow2 0 = 1 := by decide
  rw [h1, mul_one] at h
  exact h

theorem isBinary64_intCast (m : Int) (hm : |m| < 2 ^ 53) : IsBinary64 (m : ℚ) := by
  refine ⟨fl_intCast m hm, ?_⟩
  rw [pow2_eq_zpow]
  have h0 : ((|m| : Int) : ℚ) < ((2 ^ 53 : Int) : ℚ) := by exact_mod_cast hm
  rw [Int.cast_abs] at h0
  have h1 : ((2 ^ 53 : Int) : ℚ) ≤ (2 : ℚ) ^ (1024 : Int) := by
    have : ((2 ^ 53 : Int) : ℚ) = (2 : ℚ) ^ (53 : Int) := by norm_num
    rw [this]
    exact zpow_le_zpow_right₀ (by norm_num) (by norm_num)
  exact lt_of_lt_of_le h0 h1

theorem clamp_intCast (a lo hi : Int) :
    clamp (a : ℚ) (lo : ℚ) (hi : ℚ) = ((max lo (min hi a) : Int) : ℚ) := by
  unfold clamp
  push_cast
  rfl

/-- On integer arguments of magnitude at most `2 ^ 24` no operation of the
collision test rounds or overflows. -/
theorem exactTest64_of_int (a b r x y w h : Int) (ha : |a| ≤ 2 ^ 24) (hb : |b| ≤ 2 ^ 24)
    (hr : |r| ≤ 2 ^ 24) (hx : |x| ≤ 2 ^ 24) (hy : |y| ≤ 2 ^ 24) (hw : |w| ≤ 2 ^ 24)
    (hh : |h| ≤ 2 ^ 24) :
    ExactTest64 (a : ℚ) (b : ℚ) (r : ℚ) (x : ℚ) (y : ℚ) (w : ℚ) (h : ℚ) := by
  rw [abs_le] at ha hb hr hx hy hw hh
  have e1 : (x : ℚ) + (w : ℚ) = ((x + w : Int) : ℚ) := by push_cast; rfl
  have e2 : (y : ℚ) + (h : ℚ) = ((y + h : Int) : ℚ) := by push_cast; rfl
  have cX : ∃ c : Int, |c| ≤ 2 ^ 25 ∧ clamp (a : ℚ) (x : ℚ) ((x : ℚ) + (w : ℚ)) = (c : ℚ) := by
    refine ⟨max x (min (x + w) a), ?_, ?_⟩
    · rw [abs_le]
      constructor
      · exact le_trans (by omega) (le_max_left _ _)
      · apply max_le (by omega)
        exact le_trans (min_le_right _ _) (by omega)
    · rw [e1, clamp_intCast]
  have cY : ∃ c : Int, |c| ≤ 2 ^ 25 ∧ clamp (b : ℚ) (y : ℚ) ((y : ℚ) + (h : ℚ)) = (c : ℚ) := by
    refine ⟨max y (min (y + h) b), ?_, ?_⟩
    · rw [abs_le]
      constructor
      · exact le_trans (by omega) (le_max_left _ _)
      · apply max_le (by omega)
        exact le_trans (min_le_right _ _) (by omega)
    · rw [e2, clamp_intCast]
  obtain ⟨c, hc, hcX⟩ := cX
  obtain ⟨d, hd, hcY⟩ := cY
  rw [abs_le] at hc hd
  unfold ExactTest64
  rw [hcX, hcY]
  have f1 : (a : ℚ) - (c : ℚ) = ((a - c : Int) : ℚ) := by push_cast; rfl
  have f2 : (b : ℚ) - (d : ℚ) = ((b - d : Int) : ℚ) := by push_cast; rfl
  have b1 : |a - c| ≤ 3 * 2 ^ 24 := by rw [abs_le]; constructor <;> omega
  have b2 : |b - d| ≤ 3 * 2 ^ 24 := by rw [abs_le]; constructor <;> omega
  have s1 : (a - c) * (a - c) ≤ 9 * 2 ^ 48 := by
    have := abs_mul_abs_self (a - c)
    nlinarith [abs_nonneg (a - c)]
  have s2 : (b - d) * (b - d) ≤ 9 * 2 ^ 48 := by
    have := abs_mul_abs_self (b - d)
    nlinarith [abs_nonneg (b - d)]
  have s3 : r * r ≤ 2 ^ 48 := by
    have := abs_mul_abs_self r
    have hr2 : |r| ≤ 2 ^ 24 := abs_le.2 hr
    nlinarith [abs_nonneg r]
  have n1 := mul_self_nonneg (a - c)
  have n2 := mul_self_nonneg (b - d)
  have n3 := mul_self_nonneg r
  have g1 : ((a - c : Int) : ℚ) * ((a - c : Int) : ℚ) = (((a - c) * (a - c) : Int) : ℚ) := by
    push_cast; rfl
  have g2 : ((b - d : Int) : ℚ) * ((b - d : Int) : ℚ) = (((b - d) * (b - d) : Int) : ℚ) := by
    push_cast; rfl
  have g3 : (((a - c) * (a - c) : Int) : ℚ) + (((b - d) * (b - d) : Int) : ℚ) =
      (((a - c) * (a - c) + (b - d) * (b - d) : Int) : ℚ) := by push_cast; rfl
  have g4 : (r : ℚ) * (r : ℚ) = ((r * r : Int) : ℚ) := by push_cast; rfl
  rw [e1, e2, f1, f2, g1, g2, g3, g4]
  refine ⟨isBinary64_intCast _ ?_, isBinary64_intCast _ ?_, isBinary64_intCast _ ?_,
    isBinary64_intCast _ ?_, isBinary64_intCast _ ?_, isBinary64_intCast _ ?_,
    isBinary64_intCast _ ?_, isBinary64_intCast _ ?_⟩
  · rw [abs_lt]; constructor <;> omega
  · rw [abs_lt]; constructor <;> omega
  · exact lt_of_le_of_lt b1 (by norm_num)
  · exact lt_of_le_of_lt b2 (by norm_num)
  · rw [abs_lt]; constructor <;> omega
  · rw [abs_lt]; constructor <;> omega
  · rw [abs_lt]; constructor <;> omega
  · rw [abs_lt]; constructor <;> omega

theorem fl_micro_pos : 0 < fl (1 / 1000000) := by decide!

/-- The ball of velocity (3, 4), of magnitude 5, rescaled to 3.5: the stored
velocity is (2.0999999999999996, 2.8) as binary64 values, which is no multiple
of (3, 4) and whose squared length is not 3.5². -/
theorem slow_rescale_counterexample :
    (0 : ℚ) < 7 / 2 ∧ fl (1 / 1000000) ≤ hypotHost.hypot fastBall.vx fastBall.vy ∧
      hypotHost.hypot fastBall.vx fastBall.vy * hypotHost.hypot fastBall.vx fastBall.vy =
        fastBall.vx * fastBall.vx + fastBall.vy * fastBall.vy ∧
      (setBallSpeedForBall64 hypotHost fastBall (7 / 2)).vx =
        1182194902184755 / 562949953421312 ∧
      (setBallSpeedForBall64 hypotHost fastBall (7 / 2)).vy =
        3152519739159347 / 1125899906842624 ∧
      (¬ ∃ k : ℚ, (setBallSpeedForBall64 hypotHost fastBall (7 / 2)).vx = k * fastBall.vx ∧
        (setBallSpeedForBall64 hypotHost fastBall (7 / 2)).vy = k * fastBall.vy) ∧
      (setBallSpeedForBall64 hypotHost fastBall (7 / 2)).vx *
          (setBallSpeedForBall64 hypotHost fastBall (7 / 2)).vx +
        (setBallSpeedForBall64 hypotHost fastBall (7 / 2)).vy *
          (setBallSpeedForBall64 hypotHost fastBall (7 / 2)).vy ≠ 7 / 2 * (7 / 2) := by
  have hx : (setBallSpeedForBall64 hypotHost fastBall (7 / 2)).vx =
      1182194902184755 / 562949953421312 := by decide!
  have hy : (setBallSpeedForBall64 hypotHost fastBall (7 / 2)).vy =
      3152519739159347 / 1125899906842624 := by decide!
  refine ⟨by norm_num, by decide!, by decide!, hx, hy, ?_, ?_⟩
  · rintro ⟨k, h1, h2⟩
    rw [hx] at h1
    rw [hy] at h2
    have h3 : fastBall.vx = 3 := rfl
    have h4 : fastBall.vy = 4 := rfl
    rw [h3] at h1
    rw [h4] at h2
    linarith
  · rw [hx, hy]
    norm_num

/-- Rounding to the nearest integer moves a number by at most one half. -/
theorem roundEven_error (m : ℚ) : |(roundEven m : ℚ) - m| ≤ 1 / 2 := by
  have h1 : (⌊m⌋ : ℚ) ≤ m := Int.floor_le m
  have h2 : m < ⌊m⌋ + 1 := Int.lt_floor_add_one m
  unfold roundEven
  dsimp only
  rw [abs_le]
  split_ifs with c1 c2 c3
  · constructor <;> linarith
  · push_cast
    constructor <;> linarith
  · have : m - ⌊m⌋ = 1 / 2 := le_antisymm (not_lt.1 c2) (not_lt.1 c1)
    constructor <;> linarith
  · have : m - ⌊m⌋ = 1 / 2 := le_antisymm (not_lt.1 c2) (not_lt.1 c1)
    push_cast
    constructor <;> linarith

/-- The binary exponent is sharp: `|q| < 2 ^ (ilog2 q + 1)`. -/
theorem abs_lt_pow2_ilog2_succ (q : ℚ) : |q| < pow2 (ilog2 q + 1) := by
  unfold ilog2
  dsimp only
  split_ifs with h
  · have h1 := log2Fuel_lt q.num.natAbs q.num.natAbs (le_refl _)
    have h2 := log2Fuel_le q.den q.den q.den_nz (le_refl _)
    rw [pow2_eq_zpow]
    have h3 : (q.num.natAbs : ℚ) < (2 : ℚ) ^ (log2Fuel q.num.natAbs q.num.natAbs + 1) := by
      exact_mod_cast h1
    have h5 : (2 : ℚ) ^ (log2Fuel q.den q.den) ≤ (q.den : ℚ) := by
      exact_mod_cast h2
    have hd : (0 : ℚ) < q.den := by exact_mod_cast q.den_pos
    rw [rat_abs_eq, div_lt_iff₀ hd]
    have h6 : (2 : ℚ) ^ ((log2Fuel q.num.natAbs q.num.natAbs : Int) -
        (log2Fuel q.den q.den : Int) + 1) =
        2 ^ (log2Fuel q.num.natAbs q.num.natAbs + 1) / 2 ^ (log2Fuel q.den q.den) := by
      rw [sub_add_eq_add_sub, zpow_sub₀ (by norm_num)]
      norm_cast
    rw [h6, div_mul_eq_mul_div, lt_div_iff₀ (by positivity)]
    have h7 : (0 : ℚ) < 2 ^ (log2Fuel q.num.natAbs q.num.natAbs + 1) := by positivity
    have h8 : (0 : ℚ) ≤ (q.num.natAbs : ℚ) := by positivity
    nlinarith
  · rw [sub_add_cancel]
    exact not_le.1 h

/-- Rounding moves a number by at most half the spacing of the binary64 values
around it. -/
theorem fl_abs_error (q : ℚ) :
    |fl q - q| ≤ pow2 (max (ilog2 q) (-1022) - 52) / 2 := by
  have hu := pow2_pos (max (ilog2 q) (-1022) - 52)
  unfold fl
  split_ifs with h0
  · rw [h0]
    simp only [sub_zero, abs_zero]
    exact le_of_lt (half_pos (pow2_pos _))
  · dsimp only
    have h1 := roundEven_error (q / pow2 (max (ilog2 q) (-1022) - 52))
    have h2 : (roundEven (q / pow2 (max (ilog2 q) (-1022) - 52)) : ℚ) *
        pow2 (max (ilog2 q) (-1022) - 52) - q =
        ((roundEven (q / pow2 (max (ilog2 q) (-1022) - 52)) : ℚ) -
          q / pow2 (max (ilog2 q) (-1022) - 52)) * pow2 (max (ilog2 q) (-1022) - 52) := by
      field_simp
    rw [h2, abs_mul, abs_of_pos hu]
    calc _ ≤ 1 / 2 * pow2 (max (ilog2 q) (-1022) - 52) :=
          mul_le_mul_of_nonneg_right h1 (le_of_lt hu)
      _ = _ := by ring

/-- In the normal range rounding has relative error at most `2 ^ (-53)`. -/
theorem fl_rel_error (q : ℚ) (hn : pow2 (-1022) ≤ |q|) : |fl q - q| ≤ |q| / 2 ^ 53 := by
  have hq : q ≠ 0 := by
    intro h0
    rw [h0, abs_zero] at hn
    exact absurd (pow2_pos (-1022)) (not_lt.2 hn)
  have he : -1022 ≤ ilog2 q := by
    by_contra hcon
    push_neg at hcon
    have h1 := abs_lt_pow2_ilog2_succ q
    rw [pow2_eq_zpow] at h1 hn
    have h2 : (2 : ℚ) ^ (ilog2 q + 1) ≤ 2 ^ (-1022 : Int) :=
      zpow_le_zpow_right₀ (by norm_num) (by omega)
    linarith
  have h3 := fl_abs_error q
  rw [max_eq_left he] at h3
  have h4 := pow2_ilog2_le q hq
  rw [pow2_eq_zpow] at h3 h4
  have h5 : (2 : ℚ) ^ (ilog2 q - 52) / 2 = 2 ^ ilog2 q / 2 ^ 53 := by
    rw [zpow_sub₀ (by norm_num)]
    norm_num
    ring
  rw [h5] at h3
  exact le_trans h3 (div_le_div_of_nonneg_right h4 (by positivity))

/-- Rounding a number that is zero or in the normal range has relative error at
most `2 ^ (-53)`. -/
theorem fl_near (q : ℚ) (hn : q = 0 ∨ pow2 (-1022) ≤ |q|) :
    q - |q| / 2 ^ 53 ≤ fl q ∧ fl q ≤ q + |q| / 2 ^ 53 := by
  rcases hn with h0 | hn
  · rw [h0]
    have : fl 0 = 0 := rfl
    rw [this]
    simp
  · have h1 := fl_rel_error q hn
    rw [abs_le] at h1
    constructor <;> linarith [h1.1, h1.2]

/-- The square of a nearby number is nearby. -/
theorem sq_near (x a u : ℚ) (hu1 : u ≤ 1) (h1 : x - |x| * u ≤ a)
    (h2 : a ≤ x + |x| * u) :
    x * x * ((1 - u) * (1 - u)) ≤ a * a ∧ a * a ≤ x * x * ((1 + u) * (1 + u)) := by
  have hx := abs_nonneg x
  have hd : |a - x| ≤ |x| * u := abs_le.2 ⟨by linarith, by linarith⟩
  have hup : |a| ≤ |x| * (1 + u) := by
    have := abs_sub_abs_le_abs_sub a x
    linarith
  have hlo : |x| * (1 - u) ≤ |a| := by
    have := abs_sub_abs_le_abs_sub x a
    rw [abs_sub_comm x a] at this
    linarith
  have hlo0 : 0 ≤ |x| * (1 - u) := mul_nonneg hx (by linarith)
  have e1 : a * a = |a| * |a| := (abs_mul_abs_self a).symm
  have e2 : x * x = |x| * |x| := (abs_mul_abs_self x).symm
  rw [e1, e2]
  constructor
  · calc |x| * |x| * ((1 - u) * (1 - u)) = (|x| * (1 - u)) * (|x| * (1 - u)) := by ring
      _ ≤ |a| * |a| := mul_le_mul hlo hlo hlo0 (abs_nonneg a)
  · calc |a| * |a| ≤ (|x| * (1 + u)) * (|x| * (1 + u)) :=
          mul_le_mul hup hup (abs_nonneg a) (le_trans (abs_nonneg a) hup)
      _ = |x| * |x| * ((1 + u) * (1 + u)) := by ring

/-- The rounded square of the rounded value of a moderate number `x` lies within
`x² (1 - u)³` and `x² (1 + u)³`, `u = 2 ^ (-53)`, and it is zero or at least
`2 ^ (-1010)`. -/
theorem fl_sq_near (x : ℚ) (hx : Moderate64 x) :
    x * x * ((1 - 1 / 2 ^ 53) * (1 - 1 / 2 ^ 53) * (1 - 1 / 2 ^ 53)) ≤ fl (fl x * fl x) ∧
      fl (fl x * fl x) ≤ x * x * ((1 + 1 / 2 ^ 53) * (1 + 1 / 2 ^ 53) * (1 + 1 / 2 ^ 53)) ∧
      (x = 0 ∨ pow2 (-1010) ≤ fl (fl x * fl x)) := by
  have hsmall : pow2 (-1022) ≤ pow2 (-500) := by decide!
  have hxn : x = 0 ∨ pow2 (-1022) ≤ |x| := by
    rcases hx with h0 | ⟨h1, _⟩
    · exact Or.inl h0
    · exact Or.inr (le_trans hsmall h1)
  have h1 := fl_near x hxn
  have h2 := sq_near x (fl x) (1 / 2 ^ 53) (by norm_num)
    (by rw [← div_eq_mul_one_div]; exact h1.1) (by rw [← div_eq_mul_one_div]; exact h1.2)
  have hxx : 0 ≤ x * x := mul_self_nonneg x
  have haa : 0 ≤ fl x * fl x := mul_self_nonneg (fl x)
  have hlow : x = 0 ∨ pow2 (-1001) ≤ fl x * fl x := by
    rcases hx with h0 | ⟨h3, _⟩
    · exact Or.inl h0
    · right
      have h4 : pow2 (-500) * pow2 (-500) ≤ x * x := by
        rw [← abs_mul_abs_self x]
        exact mul_le_mul h3 h3 (le_of_lt (pow2_pos _)) (abs_nonneg x)
      have h5 : pow2 (-1001) = pow2 (-500) * pow2 (-500) * (1 / 2) := by decide!
      have h6 : (1 : ℚ) / 2 ≤ (1 - 1 / 2 ^ 53) * (1 - 1 / 2 ^ 53) := by norm_num
      calc pow2 (-1001) = pow2 (-500) * pow2 (-500) * (1 / 2) := h5
        _ ≤ x * x * ((1 - 1 / 2 ^ 53) * (1 - 1 / 2 ^ 53)) :=
            mul_le_mul h4 h6 (by norm_num) hxx
        _ ≤ fl x * fl x := h2.1
  have hsn : fl x * fl x = 0 ∨ pow2 (-1022) ≤ |fl x * fl x| := by
    rcases hlow with h0 | h3
    · left
      have hz : fl 0 = 0 := rfl
      rw [h0, hz, mul_zero]
    · right
      rw [abs_of_nonneg haa]
      exact le_trans (by decide!) h3
  have h7 := fl_near (fl x * fl x) hsn
  rw [abs_of_nonneg haa] at h7
  have hp : (0 : ℚ) ≤ 1 + 1 / 2 ^ 53 := by norm_num
  have hm : (0 : ℚ) ≤ 1 - 1 / 2 ^ 53 := by norm_num
  refine ⟨?_, ?_, ?_⟩
  · have h8 := mul_le_mul_of_nonneg_right h2.1 hm
    linarith [h7.1]
  · have h8 := mul_le_mul_of_nonneg_right h2.2 hp
    linarith [h7.2]
  · rcases hlow with h0 | h3
    · exact Or.inl h0
    · right
      have h9 : pow2 (-1010) ≤ pow2 (-1001) * (1 - 1 / 2 ^ 53) := by
        have : pow2 (-1010) ≤ pow2 (-1001) * (1 / 2) := by decide!
        have h10 : (0 : ℚ) < pow2 (-1001) := pow2_pos _
        nlinarith
      have h11 := mul_le_mul_of_nonneg_right h3 hm
      linarith [h7.1]

/-- The rounded sum of the rounded squares of the rounded offsets `x` and `y`
lies within a factor `(1 ± u)⁴` of `x² + y²`, and the rounded square of the
radius within `(1 ± u)` of `r²`, `u = 2 ^ (-53)`. -/
theorem fl_sum_sq_near (x y r : ℚ) (hx : Moderate64 x) (hy : Moderate64 y) (hr : Moderate64 r) :
    (x * x + y * y) * ((1 - 1 / 2 ^ 53) * (1 - 1 / 2 ^ 53) * (1 - 1 / 2 ^ 53) * (1 - 1 / 2 ^ 53)) ≤
        fl (fl (fl x * fl x) + fl (fl y * fl y)) ∧
      fl (fl (fl x * fl x) + fl (fl y * fl y)) ≤
        (x * x + y * y) *
          ((1 + 1 / 2 ^ 53) * (1 + 1 / 2 ^ 53) * (1 + 1 / 2 ^ 53) * (1 + 1 / 2 ^ 53)) ∧
      r * r * (1 - 1 / 2 ^ 53) ≤ fl (r * r) ∧ fl (r * r) ≤ r * r * (1 + 1 / 2 ^ 53) := by
  have hz : fl 0 = 0 := rfl
  obtain ⟨a1, a2, a3⟩ := fl_sq_near x hx
  obtain ⟨b1, b2, b3⟩ := fl_sq_near y hy
  have hxx : 0 ≤ x * x := mul_self_nonneg x
  have hyy : 0 ≤ y * y := mul_self_nonneg y
  have hp : (0 : ℚ) ≤ 1 + 1 / 2 ^ 53 := by norm_num
  have hm : (0 : ℚ) ≤ 1 - 1 / 2 ^ 53 := by norm_num
  have hm3 : (0 : ℚ) ≤ (1 - 1 / 2 ^ 53) * (1 - 1 / 2 ^ 53) * (1 - 1 / 2 ^ 53) := by norm_num
  have sa0 : 0 ≤ fl (fl x * fl x) := le_trans (mul_nonneg hxx hm3) a1
  have sb0 : 0 ≤ fl (fl y * fl y) := le_trans (mul_nonneg hyy hm3) b1
  have hT0 : 0 ≤ fl (fl x * fl x) + fl (fl y * fl y) := add_nonneg sa0 sb0
  have hTn : fl (fl x * fl x) + fl (fl y * fl y) = 0 ∨
      pow2 (-1022) ≤ |fl (fl x * fl x) + fl (fl y * fl y)| := by
    rw [abs_of_nonneg hT0]
    have hs : pow2 (-1022) ≤ pow2 (-1010) := by decide!
    rcases a3 with h0 | h3
    · rcases b3 with h1 | h4
      · left
        rw [h0, h1, hz, mul_zero, hz, add_zero]
      · right
        linarith
    · right
      linarith
  have hS := fl_near _ hTn
  rw [abs_of_nonneg hT0] at hS
  have hrr : 0 ≤ r * r := mul_self_nonneg r
  have hRn : r * r = 0 ∨ pow2 (-1022) ≤ |r * r| := by
    rcases hr with h0 | ⟨h3, _⟩
    · left
      rw [h0, mul_zero]
    · right
      rw [abs_of_nonneg hrr, ← abs_mul_abs_self r]
      have h4 : pow2 (-500) * pow2 (-500) ≤ |r| * |r| :=
        mul_le_mul h3 h3 (le_of_lt (pow2_pos _)) (abs_nonneg r)
      exact le_trans (by decide!) h4
  have hR := fl_near _ hRn
  rw [abs_of_nonneg hrr] at hR
  refine ⟨?_, ?_, by linarith [hR.1], by linarith [hR.2]⟩
  · have h1 := mul_le_mul_of_nonneg_right (add_le_add a1 b1) hm
    linarith [hS.1]
  · have h1 := mul_le_mul_of_nonneg_right (add_le_add a2 b2) hp
    linarith [hS.2]

/-- Up to rounding the binary64 test is the exact test: with exact far edges
and moderate offsets and radius it is true when the squared distance of the
centre to the rectangle is at most `r² / (1 + 2 ^ (-50))`, and false when it
exceeds `r² (1 + 2 ^ (-50))`. -/
theorem circleRectCollision64_near (cx cy r rx ry rw rh : ℚ)
    (hX : IsBinary64 (rx + rw)) (hY : IsBinary64 (ry + rh))
    (hdx : Moderate64 (cx - clamp cx rx (rx + rw)))
    (hdy : Moderate64 (cy - clamp cy ry (ry + rh))) (hr : Moderate64 r) :
    (((cx - clamp cx rx (rx + rw)) * (cx - clamp cx rx (rx + rw)) +
          (cy - clamp cy ry (ry + rh)) * (cy - clamp cy ry (ry + rh))) * (1 + 1 / 2 ^ 50) ≤
        r * r → circleRectCollision64 cx cy r rx ry rw rh = true) ∧
      (r * r * (1 + 1 / 2 ^ 50) <
          (cx - clamp cx rx (rx + rw)) * (cx - clamp cx rx (rx + rw)) +
            (cy - clamp cy ry (ry + rh)) * (cy - clamp cy ry (ry + rh)) →
        circleRectCollision64 cx cy r rx ry rw rh = false) := by
  obtain ⟨s1, s2, r1, r2⟩ := fl_sum_sq_near _ _ r hdx hdy hr
  have hdef : circleRectCollision64 cx cy r rx ry rw rh =
      decide (fl (fl (fl (cx - clamp cx rx (rx + rw)) * fl (cx - clamp cx rx (rx + rw))) +
        fl (fl (cy - clamp cy ry (ry + rh)) * fl (cy - clamp cy ry (ry + rh)))) ≤ fl (r * r)) := by
    unfold circleRectCollision64
    dsimp only
    rw [hX.1, hY.1]
  rw [hdef]
  generalize cx - clamp cx rx (rx + rw) = dx at s1 s2 ⊢
  generalize cy - clamp cy ry (ry + rh) = dy at s1 s2 ⊢
  generalize fl (fl (fl dx * fl dx) + fl (fl dy * fl dy)) = S at s1 s2 ⊢
  generalize fl (r * r) = R at r1 r2 ⊢
  have hD : 0 ≤ dx * dx + dy * dy := add_nonneg (mul_self_nonneg dx) (mul_self_nonneg dy)
  have hrr : 0 ≤ r * r := mul_self_nonneg r
  have hm : (0 : ℚ) ≤ 1 - 1 / 2 ^ 53 := by norm_num
  constructor
  · intro h
    have n1 : (1 + 1 / 2 ^ 53) * (1 + 1 / 2 ^ 53) * (1 + 1 / 2 ^ 53) * (1 + 1 / 2 ^ 53) ≤
        ((1 : ℚ) + 1 / 2 ^ 50) * (1 - 1 / 2 ^ 53) := by norm_num
    have h1 := mul_le_mul_of_nonneg_left n1 hD
    have h2 := mul_le_mul_of_nonneg_right h hm
    rw [decide_eq_true_eq]
    linarith
  · intro h
    have n2 : (1 : ℚ) + 1 / 2 ^ 53 ≤ (1 + 1 / 2 ^ 50) *
        ((1 - 1 / 2 ^ 53) * (1 - 1 / 2 ^ 53) * (1 - 1 / 2 ^ 53) * (1 - 1 / 2 ^ 53)) := by
      norm_num
    have hm4 : (0 : ℚ) < (1 - 1 / 2 ^ 53) * (1 - 1 / 2 ^ 53) * (1 - 1 / 2 ^ 53) *
        (1 - 1 / 2 ^ 53) := by norm_num
    have h1 := mul_le_mul_of_nonneg_left n2 hrr
    have h2 := mul_lt_mul_of_pos_right h hm4
    rw [decide_eq_false_iff_not, not_le]
    linarith

/-- C7 (amended): in binary64 arithmetic, for a rectangle of non-negative width
and height, the collision test is the closest-point test up to rounding.  When
none of its eight operations rounds or overflows it is true exactly when some
point of the rectangle lies within distance `r` of the centre (squared distance
at most `r * r`, so touching counts); that is so whenever the seven arguments
are integers of magnitude at most `2^24`, as in the two sample calls of the
specification, which give true and false.  When the far edges `rx + rw` and
`ry + rh` are binary64 values and the two offsets and the radius are zero or of
magnitude between `2^(-500)` and `2^500`, the test is true if some point of the
rectangle has squared distance at most `r² / (1 + 2^(-50))` from the centre, and
if it is true then some point has squared distance at most `r² (1 + 2^(-50))`. -/
theorem circleRectCollision_exact (cx cy r rx ry rw rh : ℚ) (hw : 0 ≤ rw) (hh : 0 ≤ rh) :
    (ExactTest64 cx cy r rx ry rw rh →
      (circleRectCollision64 cx cy r rx ry rw rh = true ↔
        ∃ px py : ℚ, rx ≤ px ∧ px ≤ rx + rw ∧ ry ≤ py ∧ py ≤ ry + rh ∧
          (cx - px) * (cx - px) + (cy - py) * (cy - py) ≤ r * r)) ∧
      (IsBinary64 (rx + rw) → IsBinary64 (ry + rh) →
        Moderate64 (cx - clamp cx rx (rx + rw)) → Moderate64 (cy - clamp cy ry (ry + rh)) →
        Moderate64 r →
        ((∃ px py : ℚ, rx ≤ px ∧ px ≤ rx + rw ∧ ry ≤ py ∧ py ≤ ry + rh ∧
            ((cx - px) * (cx - px) + (cy - py) * (cy - py)) * (1 + 1 / 2 ^ 50) ≤ r * r) →
          circleRectCollision64 cx cy r rx ry rw rh = true) ∧
        (circleRectCollision64 cx cy r rx ry rw rh = true →
          ∃ px py : ℚ, rx ≤ px ∧ px ≤ rx + rw ∧ ry ≤ py ∧ py ≤ ry + rh ∧
            (cx - px) * (cx - px) + (cy - py) * (cy - py) ≤ r * r * (1 + 1 / 2 ^ 50))) ∧
      (∀ a b c x y w h : Int, |a| ≤ 2 ^ 24 → |b| ≤ 2 ^ 24 → |c| ≤ 2 ^ 24 → |x| ≤ 2 ^ 24 →
        |y| ≤ 2 ^ 24 → 0 ≤ w → w ≤ 2 ^ 24 → 0 ≤ h → h ≤ 2 ^ 24 →
        (circleRectCollision64 a b c x y w h = true ↔
          ∃ px py : ℚ, (x : ℚ) ≤ px ∧ px ≤ x + w ∧ (y : ℚ) ≤ py ∧ py ≤ y + h ∧
            (a - px) * (a - px) + (b - py) * (b - py) ≤ (c : ℚ) * c)) ∧
      circleRectCollision64 100 100 7 90 95 48 18 = true ∧
      circleRectCollision64 200 100 7 90 95 48 18 = false := by
  refine ⟨?_, ?_, ?_, by decide!, by decide!⟩
  · intro hex
    rw [circleRectCollision64_of_exact cx cy r rx ry rw rh hex]
    exact circleRect_closest_point cx cy r rx ry rw rh hw hh
  · intro hX hY hdx hdy hr
    have hnear := circleRectCollision64_near cx cy r rx ry rw rh hX hY hdx hdy hr
    constructor
    · rintro ⟨px, py, h1, h2, h3, h4, h5⟩
      apply hnear.1
      have hx := clamp_closest cx rx (rx + rw) px h1 h2
      have hy := clamp_closest cy ry (ry + rh) py h3 h4
      have hpos : (0 : ℚ) ≤ 1 + 1 / 2 ^ 50 := by norm_num
      exact le_trans (mul_le_mul_of_nonneg_right (add_le_add hx hy) hpos) h5
    · intro htrue
      have hx := clamp_mem cx rx (rx + rw) (by linarith)
      have hy := clamp_mem cy ry (ry + rh) (by linarith)
      refine ⟨clamp cx rx (rx + rw), clamp cy ry (ry + rh), hx.1, hx.2, hy.1, hy.2, ?_⟩
      by_contra hcon
      rw [hnear.2 (not_le.1 hcon)] at htrue
      exact absurd htrue (by simp)
  · intro a b c x y w h ha hb hc hx hy hw0 hw1 hh0 hh1
    have hex2 := exactTest64_of_int a b c x y w h ha hb hc hx hy
      (abs_le.2 ⟨by omega, hw1⟩) (abs_le.2 ⟨by omega, hh1⟩)
    rw [circleRectCollision64_of_exact _ _ _ _ _ _ _ hex2]
    exact circleRect_closest_point _ _ _ _ _ _ _ (by exact_mod_cast hw0) (by exact_mod_cast hh0)

/-- A ball just outside the corner of the sample brick, on integer
coordinates: no operation rounds, the test is false, and no point of the brick
is within the radius. -/
theorem circleRectCollision_exact_witness :
    (0 : ℚ) ≤ 48 ∧ (0 : ℚ) ≤ 18 ∧ ExactTest64 83 88 7 90 95 48 18 ∧
      circleRectCollision64 83 88 7 90 95 48 18 = false ∧
      ¬ ∃ px py : ℚ, 90 ≤ px ∧ px ≤ 90 + 48 ∧ 95 ≤ py ∧ py ≤ 95 + 18 ∧
        (83 - px) * (83 - px) + (88 - py) * (88 - py) ≤ 7 * 7 := by
  have hex : ExactTest64 83 88 7 90 95 48 18 := by
    unfold ExactTest64 IsBinary64
    decide!
  have hf : circleRectCollision64 83 88 7 90 95 48 18 = false := by decide!
  refine ⟨by norm_num, by norm_num, hex, hf, ?_⟩
  rw [← (circleRectCollision_exact 83 88 7 90 95 48 18 (by norm_num) (by norm_num)).1 hex, hf]
  simp

/-- Multiplying a moderate number `x` by the rounded value of a moderate
positive factor `k` and rounding the product gives `k * x` within relative
error `2 ^ (-51)`. -/
theorem fl_scale_near (x k : ℚ) (hk : 0 < k) (hkm : Moderate64 k) (hx : Moderate64 x) :
    |fl (x * fl k) - k * x| ≤ |k * x| / 2 ^ 51 := by
  have hsmall : pow2 (-1022) ≤ pow2 (-500) := by decide!
  have hk500 : pow2 (-500) ≤ k := by
    rcases hkm with h0 | ⟨h1, _⟩
    · exact absurd h0 hk.ne'
    · rw [abs_of_pos hk] at h1
      exact h1
  have h1 := fl_near k (Or.inr (by rw [abs_of_pos hk]; exact le_trans hsmall hk500))
  rw [abs_of_pos hk] at h1
  have hax := abs_nonneg x
  have hkt : |fl k - k| ≤ k / 2 ^ 53 := abs_le.2 ⟨by linarith [h1.1], by linarith [h1.2]⟩
  have hktpos : 0 ≤ fl k := fl_nonneg k (le_of_lt hk)
  have hp1 : |x * fl k - k * x| ≤ |x| * (k / 2 ^ 53) := by
    have : x * fl k - k * x = x * (fl k - k) := by ring
    rw [this, abs_mul]
    exact mul_le_mul_of_nonneg_left hkt hax
  have hpabs : |x * fl k| ≤ |x| * (k + k / 2 ^ 53) := by
    rw [abs_mul, abs_of_nonneg hktpos]
    exact mul_le_mul_of_nonneg_left h1.2 hax
  have hpn : x * fl k = 0 ∨ pow2 (-1022) ≤ |x * fl k| := by
    rcases hx with h0 | ⟨h3, _⟩
    · left
      rw [h0, zero_mul]
    · right
      rw [abs_mul, abs_of_nonneg hktpos]
      have h4 : pow2 (-500) * (1 / 2) ≤ fl k := by
        have : (0 : ℚ) < pow2 (-500) := pow2_pos _
        have h5 : k / 2 ^ 53 ≤ k / 2 := by
          apply div_le_div_of_nonneg_left (le_of_lt hk) (by norm_num) (by norm_num)
        linarith [h1.1]
      have h6 : pow2 (-1022) ≤ pow2 (-500) * (pow2 (-500) * (1 / 2)) := by decide!
      exact le_trans h6 (mul_le_mul h3 h4 (mul_nonneg (le_of_lt (pow2_pos _)) (by norm_num)) hax)
  have h7 := fl_near (x * fl k) hpn
  have hfp : |fl (x * fl k) - x * fl k| ≤ |x * fl k| / 2 ^ 53 :=
    abs_le.2 ⟨by linarith [h7.1], by linarith [h7.2]⟩
  have htri : |fl (x * fl k) - k * x| ≤ |fl (x * fl k) - x * fl k| + |x * fl k - k * x| := by
    have := abs_add (fl (x * fl k) - x * fl k) (x * fl k - k * x)
    rwa [sub_add_sub_cancel] at this
  have hkx : |k * x| = |x| * k := by rw [abs_mul, abs_of_pos hk, mul_comm]
  rw [hkx]
  have h8 : |x * fl k| / 2 ^ 53 ≤ |x| * (k + k / 2 ^ 53) / 2 ^ 53 :=
    div_le_div_of_nonneg_right hpabs (by positivity)
  have h9 : |x| * (k + k / 2 ^ 53) / 2 ^ 53 + |x| * (k / 2 ^ 53) ≤ |x| * k / 2 ^ 51 := by
    have hxk : 0 ≤ |x| * k := mul_nonneg hax (le_of_lt hk)
    have e : |x| * (k + k / 2 ^ 53) / 2 ^ 53 + |x| * (k / 2 ^ 53) =
        |x| * k * (2 / 2 ^ 53 + 1 / (2 ^ 53 * 2 ^ 53)) := by
      field_simp
      ring
    have n : (2 : ℚ) / 2 ^ 53 + 1 / (2 ^ 53 * 2 ^ 53) ≤ 1 / 2 ^ 51 := by norm_num
    have e2 : |x| * k / 2 ^ 51 = |x| * k * (1 / 2 ^ 51) := by ring
    rw [e, e2]
    exact mul_le_mul_of_nonneg_left n hxk
  linarith

/-- The sum of the squares of two numbers that are within relative error
`2 ^ (-51)` of `p` and `q` is within relative error `2 ^ (-49)` of `p² + q²`. -/
theorem sum_sq_near (p q a b : ℚ) (ha : |a - p| ≤ |p| / 2 ^ 51) (hb : |b - q| ≤ |q| / 2 ^ 51) :
    |a * a + b * b - (p * p + q * q)| ≤ (p * p + q * q) / 2 ^ 49 := by
  rw [abs_le] at ha hb
  have h1 := sq_near p a (1 / 2 ^ 51) (by norm_num)
    (by rw [← div_eq_mul_one_div]; linarith [ha.1]) (by rw [← div_eq_mul_one_div]; linarith [ha.2])
  have h2 := sq_near q b (1 / 2 ^ 51) (by norm_num)
    (by rw [← div_eq_mul_one_div]; linarith [hb.1]) (by rw [← div_eq_mul_one_div]; linarith [hb.2])
  have hpp : 0 ≤ p * p := mul_self_nonneg p
  have hqq : 0 ≤ q * q := mul_self_nonneg q
  have n1 : ((1 : ℚ) + 1 / 2 ^ 51) * (1 + 1 / 2 ^ 51) ≤ 1 + 1 / 2 ^ 49 := by norm_num
  have n2 : (1 : ℚ) - 1 / 2 ^ 49 ≤ (1 - 1 / 2 ^ 51) * (1 - 1 / 2 ^ 51) := by norm_num
  have u1 := mul_le_mul_of_nonneg_left n1 hpp
  have u2 := mul_le_mul_of_nonneg_left n1 hqq
  have l1 := mul_le_mul_of_nonneg_left n2 hpp
  have l2 := mul_le_mul_of_nonneg_left n2 hqq
  rw [abs_le]
  constructor
  · have : (p * p + q * q) / 2 ^ 49 = p * p * (1 / 2 ^ 49) + q * q * (1 / 2 ^ 49) := by ring
    linarith [h1.1, h2.1]
  · have : (p * p + q * q) / 2 ^ 49 = p * p * (1 / 2 ^ 49) + q * q * (1 / 2 ^ 49) := by ring
    linarith [h1.2, h2.2]

/-- C14 (amended): in binary64 arithmetic `setBallSpeedForBall(b, newSpeed)`
with `newSpeed > 0` always sets `b.speed = newSpeed` and leaves radius, position
and liveness alone.  When `mag = Math.hypot(vx, vy)` is at least `1e-6` (and
nothing overflows) each velocity component is multiplied by the same factor
`scale ≥ 0`, the rounded quotient `newSpeed / mag`, and the product is rounded,
so no component changes sign.  When neither the quotient nor the products round,
the new velocity is a positive multiple of the old one, and its squared length
is `newSpeed²` if `mag²` is `vx² + vy²`.  When the quotient and the components
are zero or of magnitude between `2^(-500)` and `2^500`, each new component is
within relative error `2^(-51)` of `(newSpeed / mag)` times the old one, and
the squared length within relative error `2^(-49)` of `newSpeed²` if `mag²` is
`vx² + vy²`.  Below `1e-6` the velocity is unchanged.  The `SLOW` case does this
with 3.5 to every ball and sets `slowUntil` to the rounded `now + 7000`, which is
`now + 7000` for a clock reading that is an integer below `2^53 - 7000`. -/
theorem slow_rescale (h : Host ℚ) (b : Ball ℚ) (newSpeed : ℚ) (hpos : 0 < newSpeed) :
    ((setBallSpeedForBall64 h b newSpeed).speed = newSpeed ∧
        (setBallSpeedForBall64 h b newSpeed).r = b.r ∧
        (setBallSpeedForBall64 h b newSpeed).x = b.x ∧
        (setBallSpeedForBall64 h b newSpeed).y = b.y ∧
        (setBallSpeedForBall64 h b newSpeed).alive = b.alive) ∧
      (fl (1 / 1000000) ≤ h.hypot b.vx b.vy → Finite64 (newSpeed / h.hypot b.vx b.vy) →
        Finite64 (b.vx * fl (newSpeed / h.hypot b.vx b.vy)) →
        Finite64 (b.vy * fl (newSpeed / h.hypot b.vx b.vy)) →
        0 ≤ fl (newSpeed / h.hypot b.vx b.vy) ∧
        (setBallSpeedForBall64 h b newSpeed).vx =
          fl (b.vx * fl (newSpeed / h.hypot b.vx b.vy)) ∧
        (setBallSpeedForBall64 h b newSpeed).vy =
          fl (b.vy * fl (newSpeed / h.hypot b.vx b.vy)) ∧
        (0 ≤ b.vx → 0 ≤ (setBallSpeedForBall64 h b newSpeed).vx) ∧
        (b.vx ≤ 0 → (setBallSpeedForBall64 h b newSpeed).vx ≤ 0) ∧
        (0 ≤ b.vy → 0 ≤ (setBallSpeedForBall64 h b newSpeed).vy) ∧
        (b.vy ≤ 0 → (setBallSpeedForBall64 h b newSpeed).vy ≤ 0) ∧
        (fl (newSpeed / h.hypot b.vx b.vy) = newSpeed / h.hypot b.vx b.vy →
          fl (b.vx * (newSpeed / h.hypot b.vx b.vy)) = b.vx * (newSpeed / h.hypot b.vx b.vy) →
          fl (b.vy * (newSpeed / h.hypot b.vx b.vy)) = b.vy * (newSpeed / h.hypot b.vx b.vy) →
          (∃ k : ℚ, 0 < k ∧ (setBallSpeedForBall64 h b newSpeed).vx = k * b.vx ∧
            (setBallSpeedForBall64 h b newSpeed).vy = k * b.vy) ∧
          (h.hypot b.vx b.vy * h.hypot b.vx b.vy = b.vx * b.vx + b.vy * b.vy →
            (setBallSpeedForBall64 h b newSpeed).vx * (setBallSpeedForBall64 h b newSpeed).vx +
                (setBallSpeedForBall64 h b newSpeed).vy * (setBallSpeedForBall64 h b newSpeed).vy =
              newSpeed * newSpeed))) ∧
      (fl (1 / 1000000) ≤ h.hypot b.vx b.vy → Moderate64 (newSpeed / h.hypot b.vx b.vy) →
        Moderate64 b.vx → Moderate64 b.vy →
        |(setBallSpeedForBall64 h b newSpeed).vx - newSpeed / h.hypot b.vx b.vy * b.vx| ≤
            |newSpeed / h.hypot b.vx b.vy * b.vx| / 2 ^ 51 ∧
          |(setBallSpeedForBall64 h b newSpeed).vy - newSpeed / h.hypot b.vx b.vy * b.vy| ≤
            |newSpeed / h.hypot b.vx b.vy * b.vy| / 2 ^ 51 ∧
          (h.hypot b.vx b.vy * h.hypot b.vx b.vy = b.vx * b.vx + b.vy * b.vy →
            |(setBallSpeedForBall64 h b newSpeed).vx * (setBallSpeedForBall64 h b newSpeed).vx +
                (setBallSpeedForBall64 h b newSpeed).vy * (setBallSpeedForBall64 h b newSpeed).vy -
              newSpeed * newSpeed| ≤ newSpeed * newSpeed / 2 ^ 49)) ∧
      (h.hypot b.vx b.vy < fl (1 / 1000000) →
        (setBallSpeedForBall64 h b newSpeed).vx = b.vx ∧
          (setBallSpeedForBall64 h b newSpeed).vy = b.vy) ∧
      (∀ g : Game ℚ,
        applySlow64 h g =
          { g with
            nNow := g.nNow + 1
            balls := g.balls.map (fun b => setBallSpeedForBall64 h b (7 / 2))
            slowUntil := fl (h.now g.nNow + 7000) }) ∧
      (∀ (g : Game ℚ) (t : Nat), h.now g.nNow = t → t + 7000 < 2 ^ 53 →
        (applySlow64 h g).slowUntil = h.now g.nNow + 7000) := by
  have hbigdef : fl (1 / 1000000) ≤ h.hypot b.vx b.vy →
      setBallSpeedForBall64 h b newSpeed =
        { b with
          vx := fl (b.vx * fl (newSpeed / h.hypot b.vx b.vy))
          vy := fl (b.vy * fl (newSpeed / h.hypot b.vx b.vy))
          speed := newSpeed } := by
    intro hbig
    unfold setBallSpeedForBall64
    dsimp only
    rw [if_neg (not_lt.2 hbig)]
  refine ⟨?_, ?_, ?_, ?_, fun g => rfl, ?_⟩
  · unfold setBallSpeedForBall64
    dsimp only
    split_ifs <;> exact ⟨rfl, rfl, rfl, rfl, rfl⟩
  · intro hbig _ _ _
    have hmag : 0 < h.hypot b.vx b.vy := lt_of_lt_of_le fl_micro_pos hbig
    have hk : 0 ≤ fl (newSpeed / h.hypot b.vx b.vy) :=
      fl_nonneg _ (le_of_lt (div_pos hpos hmag))
    rw [hbigdef hbig]
    refine ⟨hk, rfl, rfl, ?_, ?_, ?_, ?_, ?_⟩
    · intro h0
      exact fl_nonneg _ (mul_nonneg h0 hk)
    · intro h0
      exact fl_nonpos _ (mul_nonpos_of_nonpos_of_nonneg h0 hk)
    · intro h0
      exact fl_nonneg _ (mul_nonneg h0 hk)
    · intro h0
      exact fl_nonpos _ (mul_nonpos_of_nonpos_of_nonneg h0 hk)
    · intro e1 e2 e3
      dsimp only
      rw [e1, e2, e3]
      refine ⟨⟨newSpeed / h.hypot b.vx b.vy, div_pos hpos hmag, mul_comm _ _, mul_comm _ _⟩, ?_⟩
      intro hsq
      have hne : h.hypot b.vx b.vy ≠ 0 := ne_of_gt hmag
      field_simp
      rw [hsq]
      ring
  · intro hbig hkm hvx hvy
    have hmag : 0 < h.hypot b.vx b.vy := lt_of_lt_of_le fl_micro_pos hbig
    have hkpos : 0 < newSpeed / h.hypot b.vx b.vy := div_pos hpos hmag
    rw [hbigdef hbig]
    dsimp only
    have hx := fl_scale_near b.vx _ hkpos hkm hvx
    have hy := fl_scale_near b.vy _ hkpos hkm hvy
    refine ⟨hx, hy, ?_⟩
    intro hsq
    have hs := sum_sq_near _ _ _ _ hx hy
    have hne : h.hypot b.vx b.vy ≠ 0 := ne_of_gt hmag
    have e : newSpeed / h.hypot b.vx b.vy * b.vx * (newSpeed / h.hypot b.vx b.vy * b.vx) +
        newSpeed / h.hypot b.vx b.vy * b.vy * (newSpeed / h.hypot b.vx b.vy * b.vy) =
        newSpeed * newSpeed := by
      field_simp
      rw [hsq]
      ring
    rw [e] at hs
    exact hs
  · intro hsmall
    unfold setBallSpeedForBall64
    dsimp only
    rw [if_pos hsmall]
    exact ⟨rfl, rfl⟩
  · intro g t ht hlt
    show fl (h.now g.nNow + 7000) = h.now g.nNow + 7000
    rw [ht]
    have h1 : ((t : ℚ) + 7000) = (((t : Int) + 7000 : Int) : ℚ) := by push_cast; rfl
    rw [h1]
    apply fl_intCast
    rw [abs_lt]
    constructor
    · have : (0 : Int) ≤ t := Int.ofNat_nonneg t
      omega
    · exact_mod_cast hlt

/-- The ball of velocity (3, 4) rescaled to 2.5: the quotient 2.5 / 5 and both
products are binary64 values, and the new velocity is (1.5, 2), half the old
one. -/
theorem slow_rescale_witness :
    (0 : ℚ) < 5 / 2 ∧ fl (1 / 1000000) ≤ hypotHost.hypot fastBall.vx fastBall.vy ∧
      (setBallSpeedForBall64 hypotHost fastBall (5 / 2)).speed = 5 / 2 ∧
      (setBallSpeedForBall64 hypotHost fastBall (5 / 2)).vx = 3 / 2 ∧
      (setBallSpeedForBall64 hypotHost fastBall (5 / 2)).vy = 2 ∧
      0 ≤ (setBallSpeedForBall64 hypotHost fastBall (5 / 2)).vx := by
  have hthm := slow_rescale hypotHost fastBall (5 / 2) (by norm_num)
  have hbig : fl (1 / 1000000) ≤ hypotHost.hypot fastBall.vx fastBall.vy := by decide!
  have h2 := hthm.2.1 hbig (by unfold Finite64; decide!) (by unfold Finite64; decide!)
    (by unfold Finite64; decide!)
  refine ⟨by norm_num, hbig, hthm.1.1, ?_, ?_, h2.2.2.2.1 (by decide!)⟩
  · rw [h2.2.1]
    decide!
  · rw [h2.2.2.1]
    decide!

theorem launchBalls64_at_rest (h : Host ℚ) (g : Game ℚ) (b : Ball ℚ) (rest : List (Ball ℚ))
    (hb : g.balls = b :: rest) (hrest : h.hypot b.vx b.vy < fl (1 / 1000000)) :
    launchBalls64 h g =
      .done { g with
        started := true
        nRandom := g.nRandom + 1
        balls :=
          { b with
            vx := fl (h.cos (launchAngle64 h g) * b.speed)
            vy := -|fl (h.sin (launchAngle64 h g) * b.speed)| } :: rest } := by
  simp only [launchBalls64, hb]
  rw [if_pos hrest]

/-- Rounding a non-zero number in the normal range does not give zero. -/
theorem fl_ne_zero (q : ℚ) (hn : pow2 (-1022) ≤ |q|) : fl q ≠ 0 := by
  have h1 := fl_near q (Or.inr hn)
  have hp : 0 < |q| := lt_of_lt_of_le (pow2_pos _) hn
  have h2 : |q| / 2 ^ 53 < |q| := by
    rw [div_lt_iff₀ (by positivity)]
    have : (1 : ℚ) < 2 ^ 53 := by norm_num
    nlinarith
  intro h0
  rw [h0] at h1
  rcases le_or_lt 0 q with h3 | h3
  · rw [abs_of_nonneg h3] at h1 h2 hp
    linarith [h1.1]
  · rw [abs_of_neg h3] at h1 h2 hp
    linarith [h1.2]

/-- The product of two moderate non-zero numbers is in the normal range. -/
theorem moderate_mul (x y : ℚ) (hx : Moderate64 x) (hy : Moderate64 y) :
    x * y = 0 ∨ pow2 (-1022) ≤ |x * y| := by
  rcases hx with h0 | ⟨h1, _⟩
  · left; rw [h0, zero_mul]
  · rcases hy with h0 | ⟨h2, _⟩
    · left; rw [h0, mul_zero]
    · right
      rw [abs_mul]
      have h3 : pow2 (-1022) ≤ pow2 (-500) * pow2 (-500) := by decide!
      exact le_trans h3 (mul_le_mul h1 h2 (le_of_lt (pow2_pos _)) (abs_nonneg x))

/-- C13 (amended): in binary64 arithmetic, with `Math.hypot`, `Math.cos`,
`Math.sin` and `Math.PI` the host's, for every first ball at rest
(`Math.hypot(vx, vy) < 1e-6`) with base speed `s > 0` and every draw,
`launchBalls` completes, sets `started`, and gives the ball the velocity
`(cos(a) * s, -|sin(a) * s|)`, both products rounded, `a` being the rounded
`(u * 0.9 + 0.15) * Math.PI`.  The ball never moves downward (`vy ≤ 0`), and it
moves upward (`vy < 0`) exactly when the rounded product `sin(a) * s` is not 0,
which is so whenever `Math.sin(a)` is not 0 (sine and speed moderate).  The
magnitude is `s` up to rounding: when the library values satisfy
`|cos(a)² + sin(a)² - 1| ≤ 2^(-50)`, the squared magnitude is within relative
error `2^(-48)` of `s²`. -/
theorem launch_velocity (h : Host ℚ) (g : Game ℚ) (b : Ball ℚ) (rest : List (Ball ℚ))
    (hb : g.balls = b :: rest) (hrest : h.hypot b.vx b.vy < fl (1 / 1000000))
    (hs : 0 < b.speed) :
    (launchBalls64 h g).ok = true ∧ (launchBalls64 h g).state.started = true ∧
      ∃ b1 : Ball ℚ,
        (launchBalls64 h g).state.balls = b1 :: rest ∧
          b1.vx = fl (h.cos (launchAngle64 h g) * b.speed) ∧
          b1.vy = -|fl (h.sin (launchAngle64 h g) * b.speed)| ∧
          b1.vy ≤ 0 ∧
          (b1.vy < 0 ↔ fl (h.sin (launchAngle64 h g) * b.speed) ≠ 0) ∧
          (Moderate64 (h.sin (launchAngle64 h g)) → Moderate64 b.speed →
            h.sin (launchAngle64 h g) ≠ 0 → b1.vy < 0) ∧
          (Moderate64 (h.cos (launchAngle64 h g)) → Moderate64 (h.sin (launchAngle64 h g)) →
            Moderate64 b.speed →
            |h.cos (launchAngle64 h g) * h.cos (launchAngle64 h g) +
                h.sin (launchAngle64 h g) * h.sin (launchAngle64 h g) - 1| ≤ 1 / 2 ^ 50 →
            |b1.vx * b1.vx + b1.vy * b1.vy - b.speed * b.speed| ≤
              b.speed * b.speed / 2 ^ 48) ∧
          b1.x = b.x ∧ b1.y = b.y ∧ b1.speed = b.speed ∧ b1.alive = b.alive := by
  rw [launchBalls64_at_rest h g b rest hb hrest]
  generalize launchAngle64 h g = a
  have hiff : -|fl (h.sin a * b.speed)| < 0 ↔ fl (h.sin a * b.speed) ≠ 0 := by
    rw [neg_lt_zero, abs_pos]
  refine ⟨rfl, rfl, _, rfl, rfl, rfl, neg_nonpos.2 (abs_nonneg _), hiff, ?_, ?_,
    rfl, rfl, rfl, rfl⟩
  · intro hsn hsp hne
    apply hiff.2
    apply fl_ne_zero
    rcases moderate_mul _ _ hsn hsp with h0 | h1
    · rcases mul_eq_zero.1 h0 with h2 | h2
      · exact absurd h2 hne
      · exact absurd h2 (ne_of_gt hs)
    · exact h1
  · intro hc hsn hsp hE
    show |fl (h.cos a * b.speed) * fl (h.cos a * b.speed) +
        -|fl (h.sin a * b.speed)| * -|fl (h.sin a * b.speed)| - b.speed * b.speed| ≤ _
    rw [neg_mul_neg, abs_mul_abs_self]
    have near : ∀ p : ℚ, (p = 0 ∨ pow2 (-1022) ≤ |p|) → |fl p - p| ≤ |p| / 2 ^ 51 := by
      intro p hp
      have h1 := fl_near p hp
      have h2 : |p| / 2 ^ 53 ≤ |p| / 2 ^ 51 :=
        div_le_div_of_nonneg_left (abs_nonneg p) (by norm_num) (by norm_num)
      exact abs_le.2 ⟨by linarith [h1.1], by linarith [h1.2]⟩
    have hx := near _ (moderate_mul _ _ hc hsp)
    have hy := near _ (moderate_mul _ _ hsn hsp)
    have hsum := sum_sq_near _ _ _ _ hx hy
    rw [abs_le] at hsum hE ⊢
    have hss : 0 ≤ b.speed * b.speed := mul_self_nonneg _
    have e : h.cos a * b.speed * (h.cos a * b.speed) + h.sin a * b.speed * (h.sin a * b.speed) =
        b.speed * b.speed +
          (h.cos a * h.cos a + h.sin a * h.sin a - 1) * (b.speed * b.speed) := by ring
    rw [e] at hsum
    have hE1 := mul_le_mul_of_nonneg_right hE.1 hss
    have hE2 := mul_le_mul_of_nonneg_right hE.2 hss
    have e49 : b.speed * b.speed / 2 ^ 48 = b.speed * b.speed * (1 / 2 ^ 48) := by ring
    have hsmall : (b.speed * b.speed +
        (h.cos a * h.cos a + h.sin a * h.sin a - 1) * (b.speed * b.speed)) / 2 ^ 49 ≤
        b.speed * b.speed * (1 / 2 ^ 49 + 1 / 2 ^ 99) := by
      have : (b.speed * b.speed +
          (h.cos a * h.cos a + h.sin a * h.sin a - 1) * (b.speed * b.speed)) / 2 ^ 49 =
          b.speed * b.speed * (1 / 2 ^ 49) +
            (h.cos a * h.cos a + h.sin a * h.sin a - 1) * (b.speed * b.speed) * (1 / 2 ^ 49) := by
        ring
      rw [this]
      have h3 := mul_le_mul_of_nonneg_right hE2 (by norm_num : (0 : ℚ) ≤ 1 / 2 ^ 49)
      have : (1 : ℚ) / 2 ^ 50 * (b.speed * b.speed) * (1 / 2 ^ 49) =
          b.speed * b.speed * (1 / 2 ^ 99) := by ring
      linarith
    have n1 : b.speed * b.speed * (1 / 2 ^ 49 + 1 / 2 ^ 99) + 1 / 2 ^ 50 * (b.speed * b.speed) ≤
        b.speed * b.speed * (1 / 2 ^ 48) := by
      have : (1 : ℚ) / 2 ^ 49 + 1 / 2 ^ 99 + 1 / 2 ^ 50 ≤ 1 / 2 ^ 48 := by norm_num
      have := mul_le_mul_of_nonneg_left this hss
      linarith
    rw [e49]
    constructor <;> linarith [hsum.1, hsum.2]

/-- A ball at rest with base speed 5 launched at the draw 0.9444444444444444:
the launch angle is `Math.PI`, the game is started and the ball moves upward. -/
theorem launch_velocity_witness :
    restGame.balls = restBall :: [] ∧
      piHost.hypot restBall.vx restBall.vy < fl (1 / 1000000) ∧ 0 < restBall.speed ∧
      launchAngle64 piHost restGame = piHost.pi ∧
      (launchBalls64 piHost restGame).state.started = true ∧
      ((launchBalls64 piHost restGame).state.balls.map (fun b => decide (b.vy < 0))) =
        [true] := by
  have hrest : piHost.hypot restBall.vx restBall.vy < fl (1 / 1000000) := by decide!
  have hthm := launch_velocity piHost restGame restBall [] rfl hrest (by decide!)
  obtain ⟨b1, hb1, _, _, _, hiff, _⟩ := hthm.2.2
  refine ⟨rfl, hrest, by decide!, by decide!, hthm.2.1, ?_⟩
  rw [hb1]
  have hneg : b1.vy < 0 := hiff.2 (by decide!)
  simp [hneg]

/-- At the draw 0.9444444444444444, the binary64 value nearest to 17/18, a ball
at rest with base speed 5 is launched at the angle `Math.PI` with the velocity
`(-5, -6.123233995736766e-16)`: it moves upward, and the square of its magnitude
is not 25. -/
theorem launch_level_counterexample :
    restGame.started = false ∧ (0 : ℚ) ≤ piHost.random 0 ∧ piHost.random 0 < 1 ∧
      piHost.hypot restBall.vx restBall.vy < fl (1 / 1000000) ∧ 0 < restBall.speed ∧
      launchAngle64 piHost restGame = piHost.pi ∧
      (launchBalls64 piHost restGame).state.balls =
        [{ restBall with
            vx := -5
            vy := -(6209697000026889 / 10141204801825835211973625643008) }] ∧
      (-5 : ℚ) * -5 + -(6209697000026889 / 10141204801825835211973625643008) *
          -(6209697000026889 / 10141204801825835211973625643008) ≠ 5 * 5 := by
  have hrest : piHost.hypot restBall.vx restBall.vy < fl (1 / 1000000) := by decide!
  refine ⟨rfl, by decide!, by decide!, hrest, by decide!, by decide!, ?_, by norm_num⟩
  rw [launchBalls64_at_rest piHost _ restBall [] rfl hrest]
  have hx : fl (piHost.cos (launchAngle64 piHost restGame) * restBall.speed) = -5 := by
    decide!
  have hy : -|fl (piHost.sin (launchAngle64 piHost restGame) * restBall.speed)| =
      -(6209697000026889 / 10141204801825835211973625643008) := by decide!
  show [({ restBall with
      vx := fl (piHost.cos (launchAngle64 piHost restGame) * restBall.speed),
      vy := -|fl (piHost.sin (launchAngle64 piHost restGame) * restBall.speed)| } : Ball ℚ)] = _
  rw [hx, hy]

end Proofs

end BlockBreaker
